import Mathlib

/-!
# Verification of the best-gizmo-setup-wizard step engine

A shallow embedding of the repository's code, with theorems checking the
natural-language specification against it.

Conventions used throughout:
* Rust `Option<T>` fields become `Option`; `Receiver<T>` slots are modelled by
  a `Bool` recording whether the receiver is present (the message itself lives
  in the worker model, since the channel is one-shot and typed).
* Machine integers that matter (`usize` indices and lengths) become `Nat`;
  the only subtraction (`team_numbers.len() - 1`) is evaluated behind a
  bounds check that guarantees the length is positive, so `Nat` subtraction
  agrees with `usize`.
* Fallible Rust code returning `anyhow::Result` becomes `Except`.
* Blocking leaf I/O (HTTP, shell, filesystem) executes inside worker threads;
  its outcome is an input to the model, provided by the environment at the
  point where the code performs the call.
-/

deriving instance DecidableEq for Except

/-! ## `src/utils/github.rs` -/

/-- `GithubReleaseAsset`, from `src/utils/github.rs`. -/
structure GithubReleaseAsset where
  name : String
  browser_download_url : String
deriving DecidableEq

/-- `GithubRelease`, from `src/utils/github.rs`.  The `latest` field carries
`#[serde(skip)]` in the source, so it is `false` on every freshly
deserialized release. -/
structure GithubRelease where
  name : String
  tag_name : String
  assets : List GithubReleaseAsset
  prerelease : Bool
  draft : Bool
  latest : Bool
deriving DecidableEq

/-- The `PartialEq` impl for `GithubRelease` (`src/utils/github.rs` lines
21-25): equality compares the raw `name` field only. -/
def releaseEq (a b : GithubRelease) : Bool :=
  a.name == b.name

/-- `GithubRelease::display_name` (`src/utils/github.rs` lines 27-37):
appends a suffix chosen by the first matching flag, in the order
draft, prerelease, latest. -/
def GithubRelease.display_name (s : GithubRelease) : String :=
  let suffix :=
    if s.draft then " (draft)"
    else if s.prerelease then " (prerelease)"
    else if s.latest then " (latest)"
    else ""
  s.name ++ suffix

/-- A release as it appears in the GitHub API response body, i.e. without
the `#[serde(skip)]` `latest` field. -/
structure RawRelease where
  name : String
  tag_name : String
  assets : List GithubReleaseAsset
  prerelease : Bool
  draft : Bool
deriving DecidableEq

/-- Deserializing one release: `latest` is skipped, hence `false`. -/
def parseRelease (r : RawRelease) : GithubRelease :=
  { name := r.name, tag_name := r.tag_name, assets := r.assets,
    prerelease := r.prerelease, draft := r.draft, latest := false }

/-- A release neither prerelease nor draft, as in the `find` predicate of
`get_releases`. -/
def stableRaw (r : RawRelease) : Bool :=
  !r.prerelease && !r.draft

/-- Same predicate on deserialized releases. -/
def stableRel (r : GithubRelease) : Bool :=
  !r.prerelease && !r.draft

/-- The post-deserialization part of `get_releases` (`src/utils/github.rs`
lines 54-61): `iter_mut().find(|r| !r.prerelease && !r.draft)` mutates the
first stable entry's `latest` to `true` in place, or the whole call fails
with "No stable releases found". -/
def markLatest : List GithubRelease → Except String (List GithubRelease)
  | [] => .error "No stable releases found"
  | r :: rs =>
    if !r.prerelease && !r.draft then
      .ok ({ r with latest := true } :: rs)
    else
      match markLatest rs with
      | .ok rs' => .ok (r :: rs')
      | .error e => .error e

/-- `get_releases` after a successful HTTP fetch and JSON parse of `body`
(`src/utils/github.rs` lines 39-62).  The HTTP transport is external; the
deserialized body is this function's input. -/
def get_releases (body : List RawRelease) : Except String (List GithubRelease) :=
  markLatest (body.map parseRelease)

/-! ### C4: latest-marking -/

theorem markLatest_error (l : List GithubRelease)
    (h : ∀ r ∈ l, stableRel r = false) :
    markLatest l = .error "No stable releases found" := by
  induction l with
  | nil => rfl
  | cons r rs ih =>
    have hr := h r (List.mem_cons_self r rs)
    simp only [stableRel] at hr
    simp only [markLatest, hr, ih (fun x hx => h x (List.mem_cons_of_mem _ hx))]
    rw [if_neg]
    simp [hr]

theorem markLatest_ok (l : List GithubRelease) (i : Nat) (hi : i < l.length)
    (hfirst : ∀ j, (hj : j < l.length) → j < i → stableRel (l.get ⟨j, hj⟩) = false)
    (hstable : stableRel (l.get ⟨i, hi⟩) = true)
    (hall : ∀ r ∈ l, r.latest = false) :
    ∃ out, markLatest l = .ok out ∧ out.length = l.length ∧
      (∀ j, (hj : j < out.length) → (hj' : j < l.length) →
        (out.get ⟨j, hj⟩) =
          (if j = i then { l.get ⟨j, hj'⟩ with latest := true }
           else l.get ⟨j, hj'⟩)) ∧
      out.countP (fun r => r.latest) = 1 := by
  induction l generalizing i with
  | nil => exact absurd hi (by simp)
  | cons r rs ih =>
    by_cases hr : stableRel r = true
    · -- the head is stable, so i must be 0
      have hi0 : i = 0 := by
        by_contra hne
        have h0 : (0 : Nat) < i := Nat.pos_of_ne_zero (fun h => hne h)
        have := hfirst 0 (by simp) h0
        simp only [List.get] at this
        rw [this] at hr
        exact absurd hr (by simp)
      subst hi0
      refine ⟨{ r with latest := true } :: rs, ?_, by simp, ?_, ?_⟩
      · simp only [markLatest]
        rw [if_pos (by simpa [stableRel] using hr)]
      · intro j hj hj'
        cases j with
        | zero => simp
        | succ j => simp
      · have hzero : rs.countP (fun r => r.latest) = 0 := by
          rw [List.countP_eq_zero]
          intro a ha
          simp [hall a (List.mem_cons_of_mem _ ha)]
        simp [List.countP_cons, hzero]
    · -- the head is not stable, so i is positive
      have hipos : 0 < i := by
        rcases Nat.eq_zero_or_pos i with h0 | h
        · subst h0
          simp only [List.get] at hstable
          exact absurd hstable (by simp [hr])
        · exact h
      obtain ⟨i', rfl⟩ : ∃ i', i = i' + 1 := ⟨i - 1, by omega⟩
      have hi' : i' < rs.length := by simpa using hi
      have hfirst' : ∀ j, (hj : j < rs.length) → j < i' →
          stableRel (rs.get ⟨j, hj⟩) = false := by
        intro j hj hlt
        have := hfirst (j + 1) (by simpa using hj) (by omega)
        simpa using this
      have hstable' : stableRel (rs.get ⟨i', hi'⟩) = true := by
        simpa using hstable
      obtain ⟨out, hout, hlen, hget, hcount⟩ :=
        ih i' hi' hfirst' hstable' (fun x hx => hall x (List.mem_cons_of_mem _ hx))
      refine ⟨r :: out, ?_, by simpa using hlen, ?_, ?_⟩
      · simp only [markLatest]
        rw [if_neg (by simpa [stableRel] using hr), hout]
      · intro j hj hj'
        cases j with
        | zero => simp
        | succ j =>
          have h1 : (r :: out).get ⟨j + 1, hj⟩ = out.get ⟨j, by simpa using hj⟩ := rfl
          have h2 : (r :: rs).get ⟨j + 1, hj'⟩ = rs.get ⟨j, by simpa using hj'⟩ := rfl
          rw [h1, h2, hget j (by simpa using hj) (by simpa using hj')]
          simp [Nat.succ_inj]
      · have hrl : r.latest = false := hall r (List.mem_cons_self r rs)
        simp [List.countP_cons, hrl, hcount]

/-- C4: For every release list successfully returned by `get_releases`: if at
least one entry is neither draft nor prerelease, exactly one entry has
`latest = true`, namely the first such entry in list order; if no entry
qualifies, `get_releases` returns the distinguishable error
"No stable releases found" instead of a list. -/
theorem get_releases_latest_spec (body : List RawRelease) :
    ((∀ r ∈ body, stableRaw r = false) →
      get_releases body = .error "No stable releases found") ∧
    (∀ i, (hi : i < body.length) →
      (∀ j, (hj : j < body.length) → j < i → stableRaw (body.get ⟨j, hj⟩) = false) →
      stableRaw (body.get ⟨i, hi⟩) = true →
      ∃ out, get_releases body = .ok out ∧ out.length = body.length ∧
        (∀ j, (hj : j < out.length) → (hj' : j < body.length) →
          (out.get ⟨j, hj⟩).latest = (if j = i then true else false)) ∧
        out.countP (fun r => r.latest) = 1) := by
  constructor
  · intro h
    apply markLatest_error
    intro r hr
    obtain ⟨x, hx, rfl⟩ := List.mem_map.mp hr
    have := h x hx
    simpa [stableRel, stableRaw, parseRelease] using this
  · intro i hi hfirst hstable
    have hi' : i < (body.map parseRelease).length := by simpa using hi
    have hmap : ∀ j, (hj : j < body.length) →
        (body.map parseRelease).get ⟨j, by simpa using hj⟩ = parseRelease (body.get ⟨j, hj⟩) := by
      intro j hj
      simp
    obtain ⟨out, hout, hlen, hget, hcount⟩ :=
      markLatest_ok (body.map parseRelease) i hi'
        (by
          intro j hj hlt
          have hj' : j < body.length := by simpa using hj
          rw [hmap j hj']
          have := hfirst j hj' hlt
          simpa [stableRel, stableRaw, parseRelease] using this)
        (by
          rw [hmap i hi]
          simpa [stableRel, stableRaw, parseRelease] using hstable)
        (by
          intro r hr
          obtain ⟨x, _, rfl⟩ := List.mem_map.mp hr
          rfl)
    refine ⟨out, by simpa [get_releases] using hout, by simpa using hlen, ?_, hcount⟩
    intro j hj hj'
    have hj'' : j < (body.map parseRelease).length := by simpa using hj'
    rw [hget j hj hj'']
    by_cases hji : j = i
    · simp [hji]
    · rw [if_neg hji, if_neg hji]
      rw [hmap j hj']
      rfl

/-- C4 witness, at the spec's example `["v3-draft"(draft), "v2"(), "v1"()]`:
`v2` (index 1) is marked latest. -/
theorem get_releases_latest_spec_witness :
    ∃ out, get_releases
        [⟨"v3-draft", "v3", [], false, true⟩,
         ⟨"v2", "v2", [], false, false⟩,
         ⟨"v1", "v1", [], false, false⟩] = .ok out ∧
      out.length = 3 ∧
      (∀ j, (hj : j < out.length) → (hj' : j < (3 : Nat)) →
        (out.get ⟨j, hj⟩).latest = (if j = 1 then true else false)) ∧
      out.countP (fun r => r.latest) = 1 := by
  have h := (get_releases_latest_spec
    [⟨"v3-draft", "v3", [], false, true⟩,
     ⟨"v2", "v2", [], false, false⟩,
     ⟨"v1", "v1", [], false, false⟩]).2 1 (by decide)
    (by decide) (by decide)
  obtain ⟨out, h1, h2, h3, h4⟩ := h
  exact ⟨out, h1, by simpa using h2, fun j hj hj' => h3 j hj (by simpa using hj'), h4⟩

/-! ### C9: release equality -/

/-- C9 counterexample: two releases with the same raw `name` but different
flags compare equal under the `PartialEq` impl even though their display
names differ, so equality is not by display name. -/
theorem releaseEq_not_by_display_name :
    releaseEq ⟨"v1", "v1", [], false, true, false⟩ ⟨"v1", "v1", [], false, false, false⟩ = true ∧
    GithubRelease.display_name ⟨"v1", "v1", [], false, true, false⟩ ≠
      GithubRelease.display_name ⟨"v1", "v1", [], false, false, false⟩ := by
  constructor
  · rfl
  · decide

/-- C9 amended: release equality is by the raw `name` field: for all releases
`a` and `b`, `a == b` holds if and only if `name a = name b`; the
draft/prerelease/latest display suffix plays no part in equality. -/
theorem releaseEq_iff_name_eq (a b : GithubRelease) :
    releaseEq a b = true ↔ a.name = b.name := by
  simp [releaseEq]

/-- C9 amended witness. -/
theorem releaseEq_iff_name_eq_witness :
    releaseEq ⟨"v2", "v2", [], true, false, false⟩ ⟨"v2", "x", [], false, false, true⟩ = true :=
  (releaseEq_iff_name_eq _ _).mpr rfl

/-! ## `src/utils/file_download.rs` and `download_versioned_asset`

The filesystem and the network are modelled as explicit state: a map from
URL to content (the reachable network), a map from path to content (the
local filesystem) and a counter of how many HTTP GET requests have been
issued so far.  Paths are lists of components; `PathBuf::join` is append. -/

abbrev FilePath' := List String

/-- The world state threaded through the download functions. -/
structure World where
  net : List (String × String)
  files : List (FilePath' × String)
  fetchCount : Nat
deriving DecidableEq

/-- Look up a URL on the network; `none` models an unreachable URL or an
unsuccessful HTTP status. -/
def World.lookupNet (w : World) (url : String) : Option String :=
  (w.net.find? (fun p => p.1 == url)).map (·.2)

/-- `std::fs::File::create` + `write_all`: creates or truncates, then writes. -/
def writeFileEntry (files : List (FilePath' × String)) (p : FilePath') (c : String) :
    List (FilePath' × String) :=
  (p, c) :: files.filter (fun q => !(q.1 == p))

/-- Whether a file exists at `p`. -/
def World.fileAt (w : World) (p : FilePath') : Option String :=
  (w.files.find? (fun q => q.1 == p)).map (·.2)

/-- `download_file` (`src/utils/file_download.rs` lines 4-18).  Note that the
source performs `reqwest::blocking::get(url)` unconditionally — there is no
check whether `dest_path` already exists — and then truncates/overwrites the
destination file. -/
def download_file (url : String) (dest_path : FilePath') (w : World) :
    Except String World :=
  -- reqwest::blocking::get(url): one network fetch, whatever the world state
  let w := { w with fetchCount := w.fetchCount + 1 }
  match w.lookupNet url with
  | none => .error "Failed to download file: 404 Not Found"
  | some content =>
    -- dest_path.parent(): fails only for an empty path
    if dest_path.isEmpty then
      .error "Could not get parent of download destination"
    else
      -- create_dir_all (directories are implicit here), then create + write_all
      .ok { w with files := writeFileEntry w.files dest_path content }

/-- `download_versioned_asset` (`src/utils/github.rs` lines 64-78): the
destination path is `cache_dir/owner/repo/release-name/asset-name`, then
`download_file` is invoked on the asset's URL. -/
def download_versioned_asset (asset : GithubReleaseAsset) (repo_owner repo_name : String)
    (release : GithubRelease) (cache_dir : FilePath') (w : World) :
    Except String (FilePath' × World) :=
  let dest_path := cache_dir ++ [repo_owner, repo_name, release.name, asset.name]
  match download_file asset.browser_download_url dest_path w with
  | .error e => .error e
  | .ok w' => .ok (dest_path, w')

/-! ### C5: download idempotence -/

/-- C5 counterexample: with the asset's file already present in the cache at
its deterministic path, a call to `download_versioned_asset` still issues a
network fetch, and calling it twice issues two fetches — the code never
checks for an existing file, so there is no cache hit.  (The returned path is
the same both times.) -/
theorem download_versioned_asset_refetches :
    ∃ p1 w1 p2 w2,
      download_versioned_asset ⟨"a.zip", "http://u"⟩ "o" "n" ⟨"r1", "v1", [], false, false, false⟩
        ["cache"] ⟨[("http://u", "bytes")], [(["cache", "o", "n", "r1", "a.zip"], "bytes")], 0⟩ =
        .ok (p1, w1) ∧
      download_versioned_asset ⟨"a.zip", "http://u"⟩ "o" "n" ⟨"r1", "v1", [], false, false, false⟩
        ["cache"] w1 = .ok (p2, w2) ∧
      p1 = p2 ∧
      (World.mk [("http://u", "bytes")] [(["cache", "o", "n", "r1", "a.zip"], "bytes")] 0).fileAt
        ["cache", "o", "n", "r1", "a.zip"] = some "bytes" ∧
      w1.fetchCount = 1 ∧ w2.fetchCount = 2 :=
  ⟨["cache", "o", "n", "r1", "a.zip"],
   ⟨[("http://u", "bytes")], [(["cache", "o", "n", "r1", "a.zip"], "bytes")], 1⟩,
   ["cache", "o", "n", "r1", "a.zip"],
   ⟨[("http://u", "bytes")], [(["cache", "o", "n", "r1", "a.zip"], "bytes")], 2⟩,
   by decide, by decide, rfl, by decide, rfl, rfl⟩

/-- C5 amended: for every `(owner, repo, release, asset, cache_root)` and
world in which the asset's URL is reachable, calling
`download_versioned_asset` twice yields the same deterministic local path
`cache_root/owner/repo/release-name/asset-name` both times; however each of
the two calls issues exactly one network fetch (the second call re-fetches
and overwrites even when the file already exists at that path), and after
each call the file at that path holds the network content. -/
theorem download_versioned_asset_deterministic (asset : GithubReleaseAsset)
    (repo_owner repo_name : String) (release : GithubRelease)
    (cache_dir : FilePath') (w : World) (content : String)
    (hnet : w.lookupNet asset.browser_download_url = some content) :
    ∃ w1 w2,
      download_versioned_asset asset repo_owner repo_name release cache_dir w =
        .ok (cache_dir ++ [repo_owner, repo_name, release.name, asset.name], w1) ∧
      download_versioned_asset asset repo_owner repo_name release cache_dir w1 =
        .ok (cache_dir ++ [repo_owner, repo_name, release.name, asset.name], w2) ∧
      w1.fetchCount = w.fetchCount + 1 ∧
      w2.fetchCount = w.fetchCount + 2 ∧
      w1.fileAt (cache_dir ++ [repo_owner, repo_name, release.name, asset.name]) = some content ∧
      w2.fileAt (cache_dir ++ [repo_owner, repo_name, release.name, asset.name]) = some content := by
  have hne : (cache_dir ++ [repo_owner, repo_name, release.name, asset.name]).isEmpty = false := by
    cases cache_dir <;> rfl
  have hnet1 : ∀ n files, (World.mk w.net files n).lookupNet asset.browser_download_url = some content := by
    intro n files
    simpa [World.lookupNet] using hnet
  refine ⟨⟨w.net, writeFileEntry w.files
      (cache_dir ++ [repo_owner, repo_name, release.name, asset.name]) content,
      w.fetchCount + 1⟩,
    ⟨w.net, writeFileEntry (writeFileEntry w.files
      (cache_dir ++ [repo_owner, repo_name, release.name, asset.name]) content)
      (cache_dir ++ [repo_owner, repo_name, release.name, asset.name]) content,
      w.fetchCount + 1 + 1⟩, ?_, ?_, rfl, rfl, ?_, ?_⟩
  · simp only [download_versioned_asset, download_file]
    rw [show ({ w with fetchCount := w.fetchCount + 1 } : World) =
      World.mk w.net w.files (w.fetchCount + 1) from rfl]
    rw [hnet1]
    simp [hne]
  · simp only [download_versioned_asset, download_file]
    rw [hnet1]
    simp [hne]
  · simp [World.fileAt, writeFileEntry]
  · simp [World.fileAt, writeFileEntry]

/-- C5 amended witness. -/
theorem download_versioned_asset_deterministic_witness :
    ∃ w1 w2,
      download_versioned_asset ⟨"a.zip", "http://u"⟩ "o" "n" ⟨"r1", "v1", [], false, false, false⟩
        ["cache"] ⟨[("http://u", "bytes")], [], 0⟩ =
        .ok (["cache", "o", "n", "r1", "a.zip"], w1) ∧
      download_versioned_asset ⟨"a.zip", "http://u"⟩ "o" "n" ⟨"r1", "v1", [], false, false, false⟩
        ["cache"] w1 = .ok (["cache", "o", "n", "r1", "a.zip"], w2) ∧
      w1.fetchCount = 0 + 1 ∧ w2.fetchCount = 0 + 2 ∧
      w1.fileAt ["cache", "o", "n", "r1", "a.zip"] = some "bytes" ∧
      w2.fileAt ["cache", "o", "n", "r1", "a.zip"] = some "bytes" :=
  download_versioned_asset_deterministic ⟨"a.zip", "http://u"⟩ "o" "n"
    ⟨"r1", "v1", [], false, false, false⟩ ["cache"] ⟨[("http://u", "bytes")], [], 0⟩ "bytes" rfl

/-! ## `src/utils/threads.rs` and the worker model

A worker thread either runs its closure to completion — in which case its
last action is the `tx.send(..)` — or panics somewhere in the closure, in
which case nothing is ever sent and the channel's sender is dropped.  The
panic payload of `.expect(msg)` on a `Result` is `msg` followed by the debug
rendering of the error; we model it as `msg ++ ": " ++ e`. -/

/-- What a worker closure will do once it runs to termination. -/
inductive WorkerOut
  | sent
  | panicked (msg : String)
deriving DecidableEq

/-- `join_thread` (`src/utils/threads.rs` lines 3-13): joining a worker that
panicked downcasts the payload (always a `String` for the `.expect`-style
panics in this codebase) and synthesizes "Background thread failed: ..";
joining a normally-terminated worker succeeds. -/
def join_thread : WorkerOut → Except String Unit
  | .sent => .ok ()
  | .panicked msg => .error ("Background thread failed: " ++ msg)

/-! ## The driver-station install worker (C6)

`DriverStationSetupPage::run_install_software` spawns a single worker that
runs `format_drive`, then (on Linux, after an in-memory path fix-up)
`zip_extract::extract`, then `write_filesystem_cache`, each followed by
`.expect(..)`, and finally sends `()`.  The three leaf operations are
external shell/filesystem work; their outcomes are inputs here.  The trace
records each sub-operation actually invoked, in invocation order. -/

/-- One observable action of the install worker. -/
inductive InstallEv
  | formatOp
  | extractOp
  | flushOp
  | sendOp
deriving DecidableEq

/-- Injected outcomes for the three sub-operations. -/
structure InstallEnv where
  formatRes : Except String Unit
  extractRes : Except String Unit
  flushRes : Except String Unit

/-- The install worker closure (`src/pages/driver_station_setup.rs` lines
302-321): format, then extract, then flush, each `.expect`ed, then send. -/
def ds_install_worker (env : InstallEnv) : List InstallEv × WorkerOut :=
  match env.formatRes with
  | .error e => ([.formatOp], .panicked ("Failed to format drive.: " ++ e))
  | .ok () =>
    -- (on Linux the drive path is recomputed here; a pure in-memory update)
    match env.extractRes with
    | .error e => ([.formatOp, .extractOp],
        .panicked ("Failed to extract ramdisk archive.: " ++ e))
    | .ok () =>
      match env.flushRes with
      | .error e => ([.formatOp, .extractOp, .flushOp],
          .panicked ("Failed to flush filesystem cache.: " ++ e))
      | .ok () => ([.formatOp, .extractOp, .flushOp, .sendOp], .sent)

/-- C6: within the driver-station install step's single worker invocation the
three sub-operations run strictly sequentially — the trace of invoked
operations is always an initial segment of format, extract, flush, send — a
failing sub-operation panics the worker (which the poll reports as a failed
task via `join_thread`), and in particular a failing format means zero
extract and zero flush invocations. -/
theorem ds_install_worker_sequencing (env : InstallEnv) :
    (∃ n, n ≤ 4 ∧ (ds_install_worker env).1 =
      [InstallEv.formatOp, InstallEv.extractOp, InstallEv.flushOp, InstallEv.sendOp].take n) ∧
    ((ds_install_worker env).2 = .sent ↔
      env.formatRes = .ok () ∧ env.extractRes = .ok () ∧ env.flushRes = .ok ()) ∧
    (∀ e, env.formatRes = .error e →
      (ds_install_worker env).1.count InstallEv.extractOp = 0 ∧
      (ds_install_worker env).1.count InstallEv.flushOp = 0 ∧
      join_thread (ds_install_worker env).2 =
        .error ("Background thread failed: " ++ ("Failed to format drive.: " ++ e))) ∧
    (∀ e, env.extractRes = .error e →
      (ds_install_worker env).1.count InstallEv.flushOp = 0) := by
  obtain ⟨f, x, fl⟩ := env
  cases f with
  | error e =>
    refine ⟨⟨1, by omega, rfl⟩, by simp [ds_install_worker], ?_, ?_⟩
    · intro e' h
      injection h with h
      subst h
      exact ⟨rfl, rfl, rfl⟩
    · intro e' h
      cases x with
      | error e'' => rfl
      | ok u => cases u; exact absurd h (by simp)
  | ok u =>
    cases u
    cases x with
    | error e =>
      refine ⟨⟨2, by omega, rfl⟩, by simp [ds_install_worker], ?_, fun e' h => rfl⟩
      intro e' h
      exact absurd h (by simp)
    | ok u =>
      cases u
      cases fl with
      | error e =>
        refine ⟨⟨3, by omega, rfl⟩, by simp [ds_install_worker], ?_, ?_⟩
        · intro e' h
          exact absurd h (by simp)
        · intro e' h
          exact absurd h (by simp)
      | ok u =>
        cases u
        refine ⟨⟨4, by omega, rfl⟩, by simp [ds_install_worker], ?_, ?_⟩
        · intro e' h
          exact absurd h (by simp)
        · intro e' h
          exact absurd h (by simp)

/-- C6 witness: a failing format yields a failed task with zero extract and
flush invocations; an all-ok run performs all three operations and sends. -/
theorem ds_install_worker_sequencing_witness :
    ((ds_install_worker ⟨.error "disk busy", .ok (), .ok ()⟩).1.count InstallEv.extractOp = 0 ∧
      (ds_install_worker ⟨.error "disk busy", .ok (), .ok ()⟩).1.count InstallEv.flushOp = 0 ∧
      join_thread (ds_install_worker ⟨.error "disk busy", .ok (), .ok ()⟩).2 =
        .error ("Background thread failed: " ++ ("Failed to format drive.: " ++ "disk busy"))) ∧
    (ds_install_worker ⟨.ok (), .ok (), .ok ()⟩).2 = .sent := by
  constructor
  · exact (ds_install_worker_sequencing ⟨.error "disk busy", .ok (), .ok ()⟩).2.2.1 "disk busy" rfl
  · exact (ds_install_worker_sequencing ⟨.ok (), .ok (), .ok ()⟩).2.1.mpr ⟨rfl, rfl, rfl⟩

/-! ## The page models

Each `Page` struct becomes a state record; each `run_*` step method becomes a
function from state and per-frame input to a `TickOut`: the `anyhow::Result`
of the call, the mutated state, and the trace of bridge-relevant events the
frame performed (spawn, `is_finished` check, join, `try_recv`,
`recv_timeout`).

The per-frame input supplies everything the environment decides: whether the
outstanding worker thread has terminated by the time the UI thread polls it,
the outcome of each leaf operation a newly spawned worker closure will
perform, and which UI interactions (selections, clicks, text edits) occur in
the frame.  A worker's message becomes receivable exactly when the thread
has terminated: every closure in the source sends as its final action, so
the window between send and thread exit is collapsed.

UI faithfulness notes:
* `egui` selections can only pick values that are actually rendered, so a
  selection input is applied only when the list it selects from is present
  and contains the value.
* button enablement is evaluated at the code point where the source computes
  it (e.g. `next_button_enabled` is read before the combo box runs).
* `.unwrap()` / `.expect(..)` / slice indexing on the UI thread becomes the
  `PErr.uiPanic` outcome; `?`-propagated `anyhow` errors become `PErr.err`.
-/

/-- `DriveInfo` (`src/utils/drive_management.rs` lines 4-8). -/
structure DriveInfo where
  drive_path : String
  file_system_label : String
deriving DecidableEq

/-- Which logical unit of work a spawned worker performs.  This tag is a
ghost annotation recording the spawn site; the tick functions never branch
on it. -/
inductive WorkKind
  | releasesW
  | downloadW
  | drivesW
  | installW
deriving DecidableEq

/-- The (typed) message a worker sends through its one-shot channel. -/
inductive Msg
  | mReleases (rs : List GithubRelease)
  | mPath (p : String)
  | mDrives (ds : List DriveInfo)
  | mUnit
deriving DecidableEq

/-- A spawned worker: either it will send `m` and terminate, or it will
panic with payload `msg` (sending nothing). -/
inductive WorkerState
  | willSend (m : Msg)
  | willPanic (msg : String)
deriving DecidableEq

/-- Bridge-relevant events of one frame, in program order. -/
inductive Ev
  | spawnEv (k : WorkKind)
  | finCheckEv (finished : Bool)
  | joinEv
  | tryRecvEv (hit : Bool)
  | recvTimeoutEv (secs : Nat)
deriving DecidableEq

/-- How a frame's `run` call ends abnormally. -/
inductive PErr
  | err (msg : String)
  | uiPanic (msg : String)
deriving DecidableEq

/-- Result of one frame tick of a page. -/
structure TickOut (σ : Type) where
  res : Except PErr Unit
  state : σ
  events : List Ev
deriving DecidableEq

/-! ### `src/pages/driver_station_setup.rs` -/

/-- `Step` enum of the driver-station page. -/
inductive DsStep
  | chooseVersion
  | enterTeamNumbers
  | downloadArchive
  | chooseDrive
  | installSoftware
  | removeCard
deriving DecidableEq

/-- `DriverStationSetupPage` fields.  Receivers are modelled by presence. -/
structure DsState where
  current_step : DsStep
  available_releases : Option (List GithubRelease)
  software_version : Option GithubRelease
  archive_path : Option String
  team_numbers_text : String
  team_numbers : List String
  team_number_index : Nat
  available_drives : Option (List DriveInfo)
  selected_drive : Option DriveInfo
  available_releases_receiver : Bool
  download_finished_receiver : Bool
  drive_list_receiver : Bool
  install_finished_receiver : Bool
  background_thread : Option (WorkKind × WorkerState)
deriving DecidableEq

/-- `DriverStationSetupPage::new`. -/
def DsState.new : DsState :=
  { current_step := .chooseVersion
    available_releases := none
    software_version := none
    archive_path := none
    team_numbers_text := ""
    team_numbers := []
    team_number_index := 0
    available_drives := none
    selected_drive := none
    available_releases_receiver := false
    download_finished_receiver := false
    drive_list_receiver := false
    install_finished_receiver := false
    background_thread := none }

/-- Per-frame environment and UI input for the driver-station page. -/
structure DsInput where
  finished : Bool
  releasesRes : Except String (List GithubRelease)
  downloadRes : Except String String
  drivesRes : Except String (List DriveInfo)
  installEnv : InstallEnv
  fileOpenRes : Except String Unit
  selectVersion : Option GithubRelease
  selectDrive : Option DriveInfo
  textEdit : Option String
  clickNext : Bool
  clickRefresh : Bool
  clickInstall : Bool

/-- The release-fetch worker closure (`driver_station_setup.rs` lines 69-74):
`get_releases(..).expect("Failed to fetch GitHub releases.")`, then send. -/
def dsReleasesClosure (res : Except String (List GithubRelease)) : WorkerState :=
  match res with
  | .ok rs => .willSend (.mReleases rs)
  | .error e => .willPanic ("Failed to fetch GitHub releases.: " ++ e)

/-- The archive-download worker closure (lines 176-192): find the
`ds-ramdisk.zip` asset (`.expect` on failure), download it (`.expect` on
failure), then send the path. -/
def dsDownloadClosure (rel : GithubRelease) (dl : Except String String) : WorkerState :=
  match rel.assets.find? (fun a => a.name == "ds-ramdisk.zip") with
  | none => .willPanic "Could not find ds-ramdisk.zip in release assets."
  | some _ =>
    match dl with
    | .ok p => .willSend (.mPath p)
    | .error e => .willPanic ("Failed to download ramdisk archive.: " ++ e)

/-- The drive-enumeration worker closure (lines 221-225). -/
def dsDrivesClosure (res : Except String (List DriveInfo)) : WorkerState :=
  match res with
  | .ok ds => .willSend (.mDrives ds)
  | .error e => .willPanic ("Falied to get list of available drives.: " ++ e)

/-- The install worker closure (lines 302-321), via `ds_install_worker`. -/
def dsInstallClosure (env : InstallEnv) : WorkerState :=
  match (ds_install_worker env).2 with
  | .sent => .willSend .mUnit
  | .panicked m => .willPanic m

/-- The render part of `run_choose_version` (lines 94-122): the Next button's
enablement is computed before the combo box runs; a combo selection can only
pick a member of the rendered release list; clicking Next moves to
EnterTeamNumbers. -/
def dsChooseVersionRender (s : DsState) (i : DsInput) (evs : List Ev) : TickOut DsState :=
  let nextEnabled := s.software_version.isSome
  let s :=
    match i.selectVersion, s.available_releases with
    | some r, some rs => if rs.any (fun x => x = r) then { s with software_version := some r } else s
    | _, _ => s
  let s := if i.clickNext && nextEnabled then { s with current_step := .enterTeamNumbers } else s
  ⟨.ok (), s, evs⟩

/-- The auto-select block of `run_choose_version` (lines 83-93) followed by
the render. -/
def dsChooseVersionAuto (s : DsState) (i : DsInput) (evs : List Ev) : TickOut DsState :=
  match s.available_releases with
  | some rs =>
    if s.software_version.isNone then
      match rs.find? (fun r => r.latest) with
      | some r => dsChooseVersionRender { s with software_version := some r } i evs
      | none => ⟨.error (.err "Latest release not found"), s, evs⟩
    else dsChooseVersionRender s i evs
  | none => dsChooseVersionRender s i evs

/-- `run_choose_version` (lines 61-124): spawn guard, two-phase poll
(`take_if is_finished`, `join_thread?`, receiver `take`, `recv_timeout(1s)`),
auto-select of the latest release, then render. -/
def dsRunChooseVersion (s : DsState) (i : DsInput) : TickOut DsState :=
  let spawned := s.available_releases.isNone && s.background_thread.isNone
  let ev1 : List Ev := if spawned then [.spawnEv .releasesW] else []
  let s :=
    if spawned then
      { s with available_releases_receiver := true,
               background_thread := some (.releasesW, dsReleasesClosure i.releasesRes) }
    else s
  match s.background_thread with
  | none => dsChooseVersionAuto s i ev1
  | some (_, w) =>
    if i.finished then
      let s := { s with background_thread := none }
      match w with
      | .willPanic msg =>
        ⟨.error (.err ("Background thread failed: " ++ msg)), s,
          ev1 ++ [.finCheckEv true, .joinEv]⟩
      | .willSend m =>
        if s.available_releases_receiver then
          let s := { s with available_releases_receiver := false }
          match m with
          | .mReleases rs =>
            dsChooseVersionAuto { s with available_releases := some rs } i
              (ev1 ++ [.finCheckEv true, .joinEv, .recvTimeoutEv 1])
          | _ =>
            -- unreachable: the channel is typed `Receiver<Vec<GithubRelease>>`
            ⟨.error (.err "channel type mismatch"), s,
              ev1 ++ [.finCheckEv true, .joinEv, .recvTimeoutEv 1]⟩
        else
          ⟨.error (.err "Expected available_releases_receiver to not be None."), s,
            ev1 ++ [.finCheckEv true, .joinEv]⟩
    else dsChooseVersionAuto s i (ev1 ++ [.finCheckEv false])

/-- `run_enter_team_numbers` (lines 126-161): the text edit mutates the
buffer; invalid text clears the parsed list; valid changed text reparses it
(nonempty lines); Next is enabled iff the parsed list is nonempty. -/
def dsRunEnterTeamNumbers (s : DsState) (i : DsInput) : TickOut DsState :=
  let (s, changed) :=
    match i.textEdit with
    | some t => ({ s with team_numbers_text := t }, true)
    | none => (s, false)
  let textValid := s.team_numbers_text.toList.all (fun c => c.isDigit || c = '\n')
  let s := if !textValid then { s with team_numbers := [] } else s
  let s :=
    if textValid && changed then
      { s with team_numbers := (s.team_numbers_text.splitOn "\n").filter (fun l => !l.isEmpty) }
    else s
  let s :=
    if i.clickNext && !s.team_numbers.isEmpty then { s with current_step := .downloadArchive }
    else s
  ⟨.ok (), s, []⟩

/-- The poll-and-advance part of `run_download_archive` (lines 195-202):
`take_if is_finished`, `join_thread?`, receiver `take`, `recv_timeout(1s)`,
then store the path and move to ChooseDrive.  The render is a pure spinner. -/
def dsDownloadArchivePoll (s : DsState) (evs : List Ev) (finished : Bool) : TickOut DsState :=
  match s.background_thread with
  | none => ⟨.ok (), s, evs⟩
  | some (_, w) =>
    if finished then
      let s := { s with background_thread := none }
      match w with
      | .willPanic msg =>
        ⟨.error (.err ("Background thread failed: " ++ msg)), s,
          evs ++ [.finCheckEv true, .joinEv]⟩
      | .willSend m =>
        if s.download_finished_receiver then
          let s := { s with download_finished_receiver := false }
          match m with
          | .mPath p =>
            ⟨.ok (), { s with archive_path := some p, current_step := .chooseDrive },
              evs ++ [.finCheckEv true, .joinEv, .recvTimeoutEv 1]⟩
          | _ =>
            ⟨.error (.err "channel type mismatch"), s,
              evs ++ [.finCheckEv true, .joinEv, .recvTimeoutEv 1]⟩
        else
          ⟨.error (.err "Expected download_finished_receiver to not be None."), s,
            evs ++ [.finCheckEv true, .joinEv]⟩
    else ⟨.ok (), s, evs ++ [.finCheckEv false]⟩

/-- `run_download_archive` (lines 163-211): the spawn guard `?`-checks
`software_version` before creating the channel, so a missing version aborts
the frame without touching the receiver slot. -/
def dsRunDownloadArchive (s : DsState) (i : DsInput) : TickOut DsState :=
  if s.archive_path.isNone && s.background_thread.isNone then
    match s.software_version with
    | none => ⟨.error (.err "Expected software_version to not be None."), s, []⟩
    | some rel =>
      let s := { s with download_finished_receiver := true,
                        background_thread := some (.downloadW, dsDownloadClosure rel i.downloadRes) }
      dsDownloadArchivePoll s [.spawnEv .downloadW] i.finished
  else dsDownloadArchivePoll s [] i.finished

/-- The render part of `run_choose_drive` (lines 237-279): indexing
`team_numbers[team_number_index]` (a UI-thread panic when out of bounds),
drive selection, the Refresh button (rendered only when a drive list is
present), then the Install Software button whose enablement reads
`selected_drive` after the refresh handler ran. -/
def dsChooseDriveRender (s : DsState) (i : DsInput) (evs : List Ev) : TickOut DsState :=
  if s.team_number_index < s.team_numbers.length then
    let s :=
      match i.selectDrive, s.available_drives with
      | some d, some ds => if ds.any (fun x => x = d) then { s with selected_drive := some d } else s
      | _, _ => s
    let s :=
      if i.clickRefresh && s.available_drives.isSome then
        { s with available_drives := none, selected_drive := none }
      else s
    let s :=
      if i.clickInstall && s.selected_drive.isSome then { s with current_step := .installSoftware }
      else s
    ⟨.ok (), s, evs⟩
  else ⟨.error (.uiPanic "index out of bounds: team_numbers"), s, evs⟩

/-- `run_choose_drive` (lines 213-281): spawn guard, two-phase poll, render. -/
def dsRunChooseDrive (s : DsState) (i : DsInput) : TickOut DsState :=
  let spawned := s.available_drives.isNone && s.background_thread.isNone
  let ev1 : List Ev := if spawned then [.spawnEv .drivesW] else []
  let s :=
    if spawned then
      { s with drive_list_receiver := true,
               background_thread := some (.drivesW, dsDrivesClosure i.drivesRes) }
    else s
  match s.background_thread with
  | none => dsChooseDriveRender s i ev1
  | some (_, w) =>
    if i.finished then
      let s := { s with background_thread := none }
      match w with
      | .willPanic msg =>
        ⟨.error (.err ("Background thread failed: " ++ msg)), s,
          ev1 ++ [.finCheckEv true, .joinEv]⟩
      | .willSend m =>
        if s.drive_list_receiver then
          let s := { s with drive_list_receiver := false }
          match m with
          | .mDrives ds =>
            dsChooseDriveRender { s with available_drives := some ds } i
              (ev1 ++ [.finCheckEv true, .joinEv, .recvTimeoutEv 1])
          | _ =>
            ⟨.error (.err "channel type mismatch"), s,
              ev1 ++ [.finCheckEv true, .joinEv, .recvTimeoutEv 1]⟩
        else
          ⟨.error (.err "Expected drive_list_receiver to not be None."), s,
            ev1 ++ [.finCheckEv true, .joinEv]⟩
    else dsChooseDriveRender s i (ev1 ++ [.finCheckEv false])

/-- The poll of `run_install_software` (lines 324-330): `take_if
is_finished`, `join_thread?`, then the receiver is merely `take`n (the unit
channel is never read), and the step moves to RemoveCard. -/
def dsInstallPoll (s : DsState) (evs : List Ev) (finished : Bool) : TickOut DsState :=
  match s.background_thread with
  | none => ⟨.ok (), s, evs⟩
  | some (_, w) =>
    if finished then
      let s := { s with background_thread := none }
      match w with
      | .willPanic msg =>
        ⟨.error (.err ("Background thread failed: " ++ msg)), s,
          evs ++ [.finCheckEv true, .joinEv]⟩
      | .willSend _ =>
        if s.install_finished_receiver then
          ⟨.ok (), { s with install_finished_receiver := false, current_step := .removeCard },
            evs ++ [.finCheckEv true, .joinEv]⟩
        else
          ⟨.error (.err "Expected install_finished_receiver to not be None."), s,
            evs ++ [.finCheckEv true, .joinEv]⟩
    else ⟨.ok (), s, evs ++ [.finCheckEv false]⟩

/-- `run_install_software` (lines 283-339): guarded only by the absence of
`install_finished_receiver`; the receiver is stored before `archive_path`,
`selected_drive`, `File::open` and the team-number indexing are checked, so
those failures leave the fresh receiver behind. -/
def dsRunInstallSoftware (s : DsState) (i : DsInput) : TickOut DsState :=
  if !s.install_finished_receiver then
    let s := { s with install_finished_receiver := true }
    match s.archive_path with
    | none => ⟨.error (.err "Expected archive_path to not be None."), s, []⟩
    | some _ =>
      match s.selected_drive with
      | none => ⟨.error (.err "Expected selected_drive to not be None."), s, []⟩
      | some _ =>
        match i.fileOpenRes with
        | .error e => ⟨.error (.err e), s, []⟩
        | .ok () =>
          if s.team_number_index < s.team_numbers.length then
            let w : WorkKind × WorkerState := (.installW, dsInstallClosure i.installEnv)
            dsInstallPoll { s with background_thread := some w } [.spawnEv .installW] i.finished
          else ⟨.error (.uiPanic "index out of bounds: team_numbers"), s, []⟩
  else dsInstallPoll s [] i.finished

/-- Whether the RemoveCard step offers the "Next" (next target) affordance:
the source's `team_number_index < team_numbers.len() - 1` test (line 351). -/
def dsRemoveCardOffersNext (s : DsState) : Bool :=
  s.team_number_index < s.team_numbers.length - 1

/-- `run_remove_card` (lines 341-365): indexes `team_numbers` (UI panic when
out of bounds); when more targets remain, Next advances the index, clears
the drive state and jumps back to ChooseDrive; otherwise only flow-ending
guidance is shown. -/
def dsRunRemoveCard (s : DsState) (i : DsInput) : TickOut DsState :=
  if s.team_number_index < s.team_numbers.length then
    if dsRemoveCardOffersNext s then
      if i.clickNext then
        ⟨.ok (), { s with team_number_index := s.team_number_index + 1,
                          selected_drive := none,
                          available_drives := none,
                          current_step := .chooseDrive }, []⟩
      else ⟨.ok (), s, []⟩
    else ⟨.ok (), s, []⟩
  else ⟨.error (.uiPanic "index out of bounds: team_numbers"), s, []⟩

/-- `<DriverStationSetupPage as Page>::run` (lines 368-378). -/
def dsTick (s : DsState) (i : DsInput) : TickOut DsState :=
  match s.current_step with
  | .chooseVersion => dsRunChooseVersion s i
  | .enterTeamNumbers => dsRunEnterTeamNumbers s i
  | .downloadArchive => dsRunDownloadArchive s i
  | .chooseDrive => dsRunChooseDrive s i
  | .installSoftware => dsRunInstallSoftware s i
  | .removeCard => dsRunRemoveCard s i

/-! ### `src/pages/system_firmware.rs`

This page polls differently from the other two: it never checks
`is_finished` on the handle; instead it calls `try_recv()` on the receiver
and, only when a message arrived, takes and joins the handle with
`.unwrap()`.  A worker that panics never sends, so its `try_recv` keeps
returning an error and the consume branch never runs.  All failure handling
in this page is `.unwrap()`/`.expect(..)` (UI-thread panics); the page's
`run` never produces an `anyhow` error. -/

/-- `Step` enum of the system-firmware page. -/
inductive SfStep
  | chooseVersion
  | chooseBoardRevision
  | downloadFirmware
  | chooseDrive
  | installFirmware
  | postInstall
deriving DecidableEq

/-- `SystemFirmwarePage` fields (the `available_relases_receiver` typo is
the source's). -/
structure SfState where
  current_step : SfStep
  available_releases : Option (List GithubRelease)
  software_version : Option GithubRelease
  available_firmwares : Option (List GithubReleaseAsset)
  selected_firmware : Option GithubReleaseAsset
  firmware_path : Option String
  available_drives : Option (List DriveInfo)
  selected_drive : Option DriveInfo
  available_relases_receiver : Bool
  download_finished_receiver : Bool
  drive_list_receiver : Bool
  install_finished_receiver : Bool
  background_thread : Option (WorkKind × WorkerState)
deriving DecidableEq

/-- `SystemFirmwarePage::new`. -/
def SfState.new : SfState :=
  { current_step := .chooseVersion
    available_releases := none
    software_version := none
    available_firmwares := none
    selected_firmware := none
    firmware_path := none
    available_drives := none
    selected_drive := none
    available_relases_receiver := false
    download_finished_receiver := false
    drive_list_receiver := false
    install_finished_receiver := false
    background_thread := none }

/-- Per-frame environment and UI input for the system-firmware page. -/
structure SfInput where
  finished : Bool
  releasesRes : Except String (List GithubRelease)
  downloadRes : Except String String
  drivesRes : Except String (List DriveInfo)
  copyRes : Except String Unit
  selectVersion : Option GithubRelease
  selectFirmware : Option GithubReleaseAsset
  selectDrive : Option DriveInfo
  clickNext : Bool
  clickRefresh : Bool
  clickInstall : Bool
  clickAnother : Bool

/-- The release-fetch worker closure (`system_firmware.rs` lines 61-65):
`get_releases(..).unwrap()`, then send. -/
def sfReleasesClosure (res : Except String (List GithubRelease)) : WorkerState :=
  match res with
  | .ok rs => .willSend (.mReleases rs)
  | .error e => .willPanic ("Result::unwrap on Err: " ++ e)

/-- The firmware-download worker closure (lines 186-196). -/
def sfDownloadClosure (dl : Except String String) : WorkerState :=
  match dl with
  | .ok p => .willSend (.mPath p)
  | .error e => .willPanic ("Result::unwrap on Err: " ++ e)

/-- The drive-enumeration worker closure (lines 230-233). -/
def sfDrivesClosure (res : Except String (List DriveInfo)) : WorkerState :=
  match res with
  | .ok ds => .willSend (.mDrives ds)
  | .error e => .willPanic ("Result::unwrap on Err: " ++ e)

/-- The firmware-copy worker closure (lines 295-300): `std::fs::copy`
followed by `.unwrap()`, then send. -/
def sfInstallClosure (copyRes : Except String Unit) : WorkerState :=
  match copyRes with
  | .ok () => .willSend .mUnit
  | .error e => .willPanic ("Result::unwrap on Err: " ++ e)

/-- The `try_recv` consume pattern of this page: a message is receivable
exactly when the worker has terminated after sending (`willSend`); a
panicked worker never sends, so `try_recv` returns `Err(Disconnected)`
forever and the branch does not run. -/
def sfTryRecv (thread : Option (WorkKind × WorkerState)) (finished : Bool) : Option Msg :=
  match thread with
  | some (_, .willSend m) => if finished then some m else none
  | _ => none

/-- The render part of `run_choose_version` (lines 94-122): combo box and
Next, whose enablement is computed before the combo box runs. -/
def sfChooseVersionRender (s : SfState) (i : SfInput) (evs : List Ev) : TickOut SfState :=
  let nextEnabled := s.software_version.isSome
  let s :=
    match i.selectVersion, s.available_releases with
    | some r, some rs => if rs.any (fun x => x = r) then { s with software_version := some r } else s
    | _, _ => s
  let s := if i.clickNext && nextEnabled then { s with current_step := .chooseBoardRevision } else s
  ⟨.ok (), s, evs⟩

/-- The auto-select and render parts of `run_choose_version`
(lines 79-122): the stale-receiver cleanup, the latest-release auto-select
(whose `ok_or(..).unwrap()` is a UI panic), the combo box, and Next. -/
def sfChooseVersionRest (s : SfState) (i : SfInput) (evs : List Ev) : TickOut SfState :=
  let s :=
    if s.background_thread.isNone && s.available_releases.isSome then
      { s with available_relases_receiver := false }
    else s
  match s.available_releases with
  | some rs =>
    if s.software_version.isNone then
      match rs.find? (fun r => r.latest) with
      | some r => sfChooseVersionRender { s with software_version := some r } i evs
      | none => ⟨.error (.uiPanic "Latest release not found"), s, evs⟩
    else sfChooseVersionRender s i evs
  | none => sfChooseVersionRender s i evs

/-- `run_choose_version` (lines 57-123): spawn guard, `try_recv`-based
consume (setting the releases, then `take().unwrap()` and `join().unwrap()`
on the handle), stale-receiver cleanup, auto-select, render.  A panicked
worker never sends, so the consume branch never fires for it. -/
def sfRunChooseVersion (s : SfState) (i : SfInput) : TickOut SfState :=
  let spawned := s.available_releases.isNone && s.background_thread.isNone
  let ev1 : List Ev := if spawned then [.spawnEv .releasesW] else []
  let s :=
    if spawned then
      { s with available_relases_receiver := true,
               background_thread := some (.releasesW, sfReleasesClosure i.releasesRes) }
    else s
  if s.available_relases_receiver then
    match sfTryRecv s.background_thread i.finished with
    | some (.mReleases rs) =>
      -- try_recv hit: store the list, then take and join the handle
      match s.background_thread with
      | some _ =>
        sfChooseVersionRest
          { s with available_releases := some rs, background_thread := none } i
          (ev1 ++ [.tryRecvEv true, .joinEv])
      | none =>
        ⟨.error (.uiPanic "Option::unwrap on None: background_thread"),
          { s with available_releases := some rs }, ev1 ++ [.tryRecvEv true]⟩
    | some _ =>
      -- unreachable: the channel is typed `Receiver<Vec<GithubRelease>>`
      ⟨.error (.uiPanic "channel type mismatch"), s, ev1 ++ [.tryRecvEv true]⟩
    | none => sfChooseVersionRest s i (ev1 ++ [.tryRecvEv false])
  else sfChooseVersionRest s i ev1

/-- The firmware-variant filter of `run_choose_board_revision`
(lines 126-144): recomputed while no drive list exists yet, from the
selected release's assets named `gss-*-{tag}.uf2`. -/
def sfFirmwareFilter (v : GithubRelease) : List GithubReleaseAsset :=
  v.assets.filter (fun a =>
    a.name.startsWith "gss-" && a.name.endsWith ("-" ++ v.tag_name ++ ".uf2"))

/-- `run_choose_board_revision` (lines 125-177): recompute the firmware
list, render the choices (the some-branch dereferences `software_version`
with `.unwrap()`), then Next (enabled iff a firmware is selected). -/
def sfRunChooseBoardRevision (s : SfState) (i : SfInput) : TickOut SfState :=
  let s :=
    if s.available_drives.isNone then
      match s.software_version with
      | some v => { s with available_firmwares := some (sfFirmwareFilter v) }
      | none => s
    else s
  match s.available_firmwares with
  | some revs =>
    match s.software_version with
    | none => ⟨.error (.uiPanic "Option::unwrap on None: software_version"), s, []⟩
    | some _ =>
      let s :=
        match i.selectFirmware with
        | some a => if revs.any (fun x => x = a) then { s with selected_firmware := some a } else s
        | none => s
      let s :=
        if i.clickNext && s.selected_firmware.isSome then
          { s with current_step := .downloadFirmware }
        else s
      ⟨.ok (), s, []⟩
  | none =>
    let s :=
      if i.clickNext && s.selected_firmware.isSome then
        { s with current_step := .downloadFirmware }
      else s
    ⟨.ok (), s, []⟩

/-- The poll-and-advance part of `run_download_firmware` (lines 199-216):
`try_recv` on the receiver; on a message, store the path, take and join the
handle, drop the receiver; afterwards a present path advances the step. -/
def sfDownloadPoll (s : SfState) (evs : List Ev) (finished : Bool) : TickOut SfState :=
  let polled : Except PErr (SfState × List Ev) :=
    if s.download_finished_receiver then
      match sfTryRecv s.background_thread finished with
      | some (.mPath p) =>
        match s.background_thread with
        | some _ =>
          .ok ({ s with firmware_path := some p, background_thread := none,
                        download_finished_receiver := false },
               evs ++ [.tryRecvEv true, .joinEv])
        | none => .error (.uiPanic "Option::unwrap on None: background_thread")
      | some _ => .error (.uiPanic "channel type mismatch")
      | none => .ok (s, evs ++ [.tryRecvEv false])
    else .ok (s, evs)
  match polled with
  | .error e => ⟨.error e, s, evs⟩
  | .ok (s, evs) =>
    let s := if s.firmware_path.isSome then { s with current_step := .chooseDrive } else s
    ⟨.ok (), s, evs⟩

/-- `run_download_firmware` (lines 179-224): the spawn guard `.unwrap()`s
the selected version and firmware before creating the channel. -/
def sfRunDownloadFirmware (s : SfState) (i : SfInput) : TickOut SfState :=
  if s.firmware_path.isNone && s.background_thread.isNone then
    match s.software_version, s.selected_firmware with
    | some _, some _ =>
      let w : WorkKind × WorkerState := (.downloadW, sfDownloadClosure i.downloadRes)
      sfDownloadPoll
        { s with download_finished_receiver := true, background_thread := some w }
        [.spawnEv .downloadW] i.finished
    | _, _ => ⟨.error (.uiPanic "Option::unwrap on None"), s, []⟩
  else sfDownloadPoll s [] i.finished

/-- The render part of the drive choosers (`run_choose_drive`,
lines 249-286): drive selection, Refresh (only with a list present), then
the install button reading `selected_drive` after the refresh handler. -/
def sfChooseDriveRender (s : SfState) (i : SfInput) (evs : List Ev) : TickOut SfState :=
  let s :=
    match i.selectDrive, s.available_drives with
    | some d, some ds => if ds.any (fun x => x = d) then { s with selected_drive := some d } else s
    | _, _ => s
  let s :=
    if i.clickRefresh && s.available_drives.isSome then
      { s with available_drives := none, selected_drive := none }
    else s
  let s :=
    if i.clickInstall && s.selected_drive.isSome then { s with current_step := .installFirmware }
    else s
  ⟨.ok (), s, evs⟩

/-- `run_choose_drive` (lines 226-287): spawn guard, `try_recv` consume,
render. -/
def sfRunChooseDrive (s : SfState) (i : SfInput) : TickOut SfState :=
  let spawned := s.available_drives.isNone && s.background_thread.isNone
  let ev1 : List Ev := if spawned then [.spawnEv .drivesW] else []
  let s :=
    if spawned then
      { s with drive_list_receiver := true,
               background_thread := some (.drivesW, sfDrivesClosure i.drivesRes) }
    else s
  if s.drive_list_receiver then
    match sfTryRecv s.background_thread i.finished with
    | some (.mDrives ds) =>
      match s.background_thread with
      | some _ =>
        sfChooseDriveRender
          { s with available_drives := some ds, background_thread := none,
                   drive_list_receiver := false } i
          (ev1 ++ [.tryRecvEv true, .joinEv])
      | none =>
        ⟨.error (.uiPanic "Option::unwrap on None: background_thread"), s,
          ev1 ++ [.tryRecvEv true]⟩
    | some _ => ⟨.error (.uiPanic "channel type mismatch"), s, ev1 ++ [.tryRecvEv true]⟩
    | none => sfChooseDriveRender s i (ev1 ++ [.tryRecvEv false])
  else sfChooseDriveRender s i ev1

/-- `run_install_firmware` (lines 289-318): the receiver is stored before
the `.unwrap()`s on `firmware_path` and `selected_drive`; the consume is a
`try_recv` followed by `take().unwrap().join().unwrap()` and the step
change. -/
def sfRunInstallFirmware (s : SfState) (i : SfInput) : TickOut SfState :=
  let startRes : Except PErr (SfState × List Ev) :=
    if !s.install_finished_receiver then
      let s := { s with install_finished_receiver := true }
      match s.firmware_path, s.selected_drive with
      | some _, some _ =>
        .ok ({ s with background_thread := some (.installW, sfInstallClosure i.copyRes) },
          [.spawnEv .installW])
      | _, _ => .error (.uiPanic "Option::unwrap on None")
    else .ok (s, [])
  match startRes with
  | .error e => ⟨.error e, { s with install_finished_receiver := true }, []⟩
  | .ok (s, ev1) =>
    if s.install_finished_receiver then
      match sfTryRecv s.background_thread i.finished with
      | some .mUnit =>
        match s.background_thread with
        | some _ =>
          ⟨.ok (), { s with background_thread := none, install_finished_receiver := false,
                            current_step := .postInstall },
            ev1 ++ [.tryRecvEv true, .joinEv]⟩
        | none =>
          ⟨.error (.uiPanic "Option::unwrap on None: background_thread"), s,
            ev1 ++ [.tryRecvEv true]⟩
      | some _ => ⟨.error (.uiPanic "channel type mismatch"), s, ev1 ++ [.tryRecvEv true]⟩
      | none => ⟨.ok (), s, ev1 ++ [.tryRecvEv false]⟩
    else ⟨.ok (), s, ev1⟩

/-- `run_post_install` (lines 320-332): "Setup Another Device" clears the
drive state and returns to the drive chooser. -/
def sfRunPostInstall (s : SfState) (i : SfInput) : TickOut SfState :=
  let s :=
    if i.clickAnother then
      { s with selected_drive := none, available_drives := none, current_step := .chooseDrive }
    else s
  ⟨.ok (), s, []⟩

/-- `<SystemFirmwarePage as Page>::run` (lines 336-345). -/
def sfTick (s : SfState) (i : SfInput) : TickOut SfState :=
  match s.current_step with
  | .chooseVersion => sfRunChooseVersion s i
  | .chooseBoardRevision => sfRunChooseBoardRevision s i
  | .downloadFirmware => sfRunDownloadFirmware s i
  | .chooseDrive => sfRunChooseDrive s i
  | .installFirmware => sfRunInstallFirmware s i
  | .postInstall => sfRunPostInstall s i

/-! ### `src/pages/student_starter_code.rs`

Same two-phase poll pattern as the driver-station page (`take_if
is_finished`, `join_thread?`, `recv_timeout(1s)`). -/

/-- `Step` enum of the student-starter-code page. -/
inductive ScStep
  | chooseVersion
  | downloadFirmware
  | chooseDrive
  | installFirmware
  | postInstall
deriving DecidableEq

/-- `StudentStarterCodePage` fields. -/
structure ScState where
  current_step : ScStep
  available_releases : Option (List GithubRelease)
  software_version : Option GithubRelease
  firmware_path : Option String
  available_drives : Option (List DriveInfo)
  selected_drive : Option DriveInfo
  available_releases_receiver : Bool
  download_finished_receiver : Bool
  drive_list_receiver : Bool
  install_finished_receiver : Bool
  background_thread : Option (WorkKind × WorkerState)
deriving DecidableEq

/-- `StudentStarterCodePage::new`. -/
def ScState.new : ScState :=
  { current_step := .chooseVersion
    available_releases := none
    software_version := none
    firmware_path := none
    available_drives := none
    selected_drive := none
    available_releases_receiver := false
    download_finished_receiver := false
    drive_list_receiver := false
    install_finished_receiver := false
    background_thread := none }

/-- Per-frame environment and UI input for the student-starter-code page. -/
structure ScInput where
  finished : Bool
  releasesRes : Except String (List GithubRelease)
  downloadRes : Except String String
  drivesRes : Except String (List DriveInfo)
  copyRes : Except String Unit
  selectVersion : Option GithubRelease
  selectDrive : Option DriveInfo
  clickNext : Bool
  clickRefresh : Bool
  clickInstall : Bool
  clickAnother : Bool

/-- The release-fetch worker closure (`student_starter_code.rs` lines
58-62). -/
def scReleasesClosure (res : Except String (List GithubRelease)) : WorkerState :=
  match res with
  | .ok rs => .willSend (.mReleases rs)
  | .error e => .willPanic ("Failed to get GitHub releases.: " ++ e)

/-- The starter-program download worker closure (lines 125-134); the asset
lookup happened on the UI thread before the spawn. -/
def scDownloadClosure (dl : Except String String) : WorkerState :=
  match dl with
  | .ok p => .willSend (.mPath p)
  | .error e => .willPanic ("Failed to download asset from GitHub.: " ++ e)

/-- The drive-enumeration worker closure (lines 160-163). -/
def scDrivesClosure (res : Except String (List DriveInfo)) : WorkerState :=
  match res with
  | .ok ds => .willSend (.mDrives ds)
  | .error e => .willPanic ("Failed to get list of available drives.: " ++ e)

/-- The firmware-copy worker closure (lines 219-224). -/
def scInstallClosure (copyRes : Except String Unit) : WorkerState :=
  match copyRes with
  | .ok () => .willSend .mUnit
  | .error e => .willPanic ("Failed to copy firmware to drive.: " ++ e)

/-- The render part of `run_choose_version` (lines 80-108). -/
def scChooseVersionRender (s : ScState) (i : ScInput) (evs : List Ev) : TickOut ScState :=
  let nextEnabled := s.software_version.isSome
  let s :=
    match i.selectVersion, s.available_releases with
    | some r, some rs => if rs.any (fun x => x = r) then { s with software_version := some r } else s
    | _, _ => s
  let s := if i.clickNext && nextEnabled then { s with current_step := .downloadFirmware } else s
  ⟨.ok (), s, evs⟩

/-- The auto-select block of `run_choose_version` (lines 69-79). -/
def scChooseVersionAuto (s : ScState) (i : ScInput) (evs : List Ev) : TickOut ScState :=
  match s.available_releases with
  | some rs =>
    if s.software_version.isNone then
      match rs.find? (fun r => r.latest) with
      | some r => scChooseVersionRender { s with software_version := some r } i evs
      | none => ⟨.error (.err "Latest release not found"), s, evs⟩
    else scChooseVersionRender s i evs
  | none => scChooseVersionRender s i evs

/-- `run_choose_version` (lines 54-110). -/
def scRunChooseVersion (s : ScState) (i : ScInput) : TickOut ScState :=
  let spawned := s.available_releases.isNone && s.background_thread.isNone
  let ev1 : List Ev := if spawned then [.spawnEv .releasesW] else []
  let s :=
    if spawned then
      { s with available_releases_receiver := true,
               background_thread := some (.releasesW, scReleasesClosure i.releasesRes) }
    else s
  match s.background_thread with
  | none => scChooseVersionAuto s i ev1
  | some (_, w) =>
    if i.finished then
      let s := { s with background_thread := none }
      match w with
      | .willPanic msg =>
        ⟨.error (.err ("Background thread failed: " ++ msg)), s,
          ev1 ++ [.finCheckEv true, .joinEv]⟩
      | .willSend m =>
        if s.available_releases_receiver then
          let s := { s with available_releases_receiver := false }
          match m with
          | .mReleases rs =>
            scChooseVersionAuto { s with available_releases := some rs } i
              (ev1 ++ [.finCheckEv true, .joinEv, .recvTimeoutEv 1])
          | _ =>
            ⟨.error (.err "channel type mismatch"), s,
              ev1 ++ [.finCheckEv true, .joinEv, .recvTimeoutEv 1]⟩
        else
          ⟨.error (.err "Expected available_releases_receiver to not be None."), s,
            ev1 ++ [.finCheckEv true, .joinEv]⟩
    else scChooseVersionAuto s i (ev1 ++ [.finCheckEv false])

/-- The step-advance after the poll of `run_download_firmware`
(lines 143-145). -/
def scDownloadAfter (s : ScState) (evs : List Ev) : TickOut ScState :=
  let s := if s.firmware_path.isSome then { s with current_step := .chooseDrive } else s
  ⟨.ok (), s, evs⟩

/-- The poll of `run_download_firmware` (lines 137-141): `take_if
is_finished`, `join_thread?`, receiver `take`, `recv_timeout(1s)`. -/
def scDownloadPoll (s : ScState) (evs : List Ev) (finished : Bool) : TickOut ScState :=
  match s.background_thread with
  | none => scDownloadAfter s evs
  | some (_, w) =>
    if finished then
      let s := { s with background_thread := none }
      match w with
      | .willPanic msg =>
        ⟨.error (.err ("Background thread failed: " ++ msg)), s,
          evs ++ [.finCheckEv true, .joinEv]⟩
      | .willSend m =>
        if s.download_finished_receiver then
          let s := { s with download_finished_receiver := false }
          match m with
          | .mPath p =>
            scDownloadAfter { s with firmware_path := some p }
              (evs ++ [.finCheckEv true, .joinEv, .recvTimeoutEv 1])
          | _ =>
            ⟨.error (.err "channel type mismatch"), s,
              evs ++ [.finCheckEv true, .joinEv, .recvTimeoutEv 1]⟩
        else
          ⟨.error (.err "Expected download_finished_receiver to not be None."), s,
            evs ++ [.finCheckEv true, .joinEv]⟩
    else scDownloadAfter s (evs ++ [.finCheckEv false])

/-- `run_download_firmware` (lines 112-154): the spawn guard `?`-checks the
selected version and resolves the versioned asset name
`best-default-program-{tag}.uf2` on the UI thread before spawning. -/
def scRunDownloadFirmware (s : ScState) (i : ScInput) : TickOut ScState :=
  if s.firmware_path.isNone && s.background_thread.isNone then
    match s.software_version with
    | none => ⟨.error (.err "Expected software_version to not be None"), s, []⟩
    | some rel =>
      let assetName := "best-default-program-" ++ rel.tag_name ++ ".uf2"
      match rel.assets.find? (fun a => a.name == assetName) with
      | none =>
        ⟨.error (.err ("Could not find " ++ assetName ++ " in release assets.")), s, []⟩
      | some _ =>
        let w : WorkKind × WorkerState := (.downloadW, scDownloadClosure i.downloadRes)
        scDownloadPoll
          { s with download_finished_receiver := true, background_thread := some w }
          [.spawnEv .downloadW] i.finished
  else scDownloadPoll s [] i.finished

/-- The render part of `run_choose_drive` (lines 172-209). -/
def scChooseDriveRender (s : ScState) (i : ScInput) (evs : List Ev) : TickOut ScState :=
  let s :=
    match i.selectDrive, s.available_drives with
    | some d, some ds => if ds.any (fun x => x = d) then { s with selected_drive := some d } else s
    | _, _ => s
  let s :=
    if i.clickRefresh && s.available_drives.isSome then
      { s with available_drives := none, selected_drive := none }
    else s
  let s :=
    if i.clickInstall && s.selected_drive.isSome then { s with current_step := .installFirmware }
    else s
  ⟨.ok (), s, evs⟩

/-- `run_choose_drive` (lines 156-211). -/
def scRunChooseDrive (s : ScState) (i : ScInput) : TickOut ScState :=
  let spawned := s.available_drives.isNone && s.background_thread.isNone
  let ev1 : List Ev := if spawned then [.spawnEv .drivesW] else []
  let s :=
    if spawned then
      { s with drive_list_receiver := true,
               background_thread := some (.drivesW, scDrivesClosure i.drivesRes) }
    else s
  match s.background_thread with
  | none => scChooseDriveRender s i ev1
  | some (_, w) =>
    if i.finished then
      let s := { s with background_thread := none }
      match w with
      | .willPanic msg =>
        ⟨.error (.err ("Background thread failed: " ++ msg)), s,
          ev1 ++ [.finCheckEv true, .joinEv]⟩
      | .willSend m =>
        if s.drive_list_receiver then
          let s := { s with drive_list_receiver := false }
          match m with
          | .mDrives ds =>
            scChooseDriveRender { s with available_drives := some ds } i
              (ev1 ++ [.finCheckEv true, .joinEv, .recvTimeoutEv 1])
          | _ =>
            ⟨.error (.err "channel type mismatch"), s,
              ev1 ++ [.finCheckEv true, .joinEv, .recvTimeoutEv 1]⟩
        else
          ⟨.error (.err "Expected drive_list_receiver to not be None."), s,
            ev1 ++ [.finCheckEv true, .joinEv]⟩
    else scChooseDriveRender s i (ev1 ++ [.finCheckEv false])

/-- The poll of `run_install_firmware` (lines 227-231): after a successful
join the receiver field is simply assigned `None` and the step advances. -/
def scInstallPoll (s : ScState) (evs : List Ev) (finished : Bool) : TickOut ScState :=
  match s.background_thread with
  | none => ⟨.ok (), s, evs⟩
  | some (_, w) =>
    if finished then
      let s := { s with background_thread := none }
      match w with
      | .willPanic msg =>
        ⟨.error (.err ("Background thread failed: " ++ msg)), s,
          evs ++ [.finCheckEv true, .joinEv]⟩
      | .willSend _ =>
        ⟨.ok (), { s with install_finished_receiver := false, current_step := .postInstall },
          evs ++ [.finCheckEv true, .joinEv]⟩
    else ⟨.ok (), s, evs ++ [.finCheckEv false]⟩

/-- `run_install_firmware` (lines 213-240): guarded only by the absence of
`install_finished_receiver`, which is stored before the `?`-checks on
`firmware_path` and `selected_drive`. -/
def scRunInstallFirmware (s : ScState) (i : ScInput) : TickOut ScState :=
  if !s.install_finished_receiver then
    let s := { s with install_finished_receiver := true }
    match s.firmware_path with
    | none => ⟨.error (.err "Expected firmware_path to not be None."), s, []⟩
    | some _ =>
      match s.selected_drive with
      | none => ⟨.error (.err "Expected selected_drive to not be None."), s, []⟩
      | some _ =>
        let w : WorkKind × WorkerState := (.installW, scInstallClosure i.copyRes)
        scInstallPoll { s with background_thread := some w } [.spawnEv .installW] i.finished
  else scInstallPoll s [] i.finished

/-- `run_post_install` (lines 242-255). -/
def scRunPostInstall (s : ScState) (i : ScInput) : TickOut ScState :=
  let s :=
    if i.clickAnother then
      { s with selected_drive := none, available_drives := none, current_step := .chooseDrive }
    else s
  ⟨.ok (), s, []⟩

/-- `<StudentStarterCodePage as Page>::run` (lines 258-267). -/
def scTick (s : ScState) (i : ScInput) : TickOut ScState :=
  match s.current_step with
  | .chooseVersion => scRunChooseVersion s i
  | .downloadFirmware => scRunDownloadFirmware s i
  | .chooseDrive => scRunChooseDrive s i
  | .installFirmware => scRunInstallFirmware s i
  | .postInstall => scRunPostInstall s i

/-! ### `src/app.rs` -/

/-- The active page of `MyApp`, with its state. -/
inductive AppPage
  | dsPage (s : DsState)
  | sfPage (s : SfState)
  | scPage (s : ScState)
deriving DecidableEq

/-- `MyApp` fields relevant to flow control. -/
structure MyApp where
  current_page : Option AppPage
  page_error : Option PErr
deriving DecidableEq

/-- `MyApp::new` (app.rs lines 14-25). -/
def MyApp.new : MyApp :=
  { current_page := none, page_error := none }

/-- The Ok button of the error modal (app.rs lines 139-142): clears the
frozen error and drops the active page. -/
def errorModalOk (a : MyApp) : MyApp :=
  { a with page_error := none, current_page := none }

/-- The Start Over button of the top panel (app.rs lines 107-109): drops
the active page; the `page_error` field is not touched. -/
def startOverClick (a : MyApp) : MyApp :=
  { a with current_page := none }

/-- The three flow buttons of the start page. -/
inductive FlowChoice
  | dsFlow
  | sfFlow
  | scFlow
deriving DecidableEq

/-- Picking a flow on the start page (app.rs lines 44-78): the start page is
rendered only while no page is active; each button constructs the page's
`new()`.  The student-starter-code button sits in a `ui.disable()`d group
("Coming Soon"), so its click never fires. -/
def pickFlow (a : MyApp) (f : FlowChoice) : MyApp :=
  if a.current_page.isNone then
    match f with
    | .dsFlow => { a with current_page := some (.dsPage DsState.new) }
    | .sfFlow => { a with current_page := some (.sfPage SfState.new) }
    | .scFlow => a
  else a

/-! ### C8: Start Over and error acknowledgement -/

/-- C8 counterexample: in an application state whose page has frozen an
error, clicking Start Over drops the page but does NOT clear the stored
error (`page_error` keeps its value), contradicting the claim that both
actions clear the stored error. -/
theorem startOver_keeps_error_cex :
    (startOverClick ⟨some (.dsPage DsState.new), some (.err "boom")⟩).current_page = none ∧
    (startOverClick ⟨some (.dsPage DsState.new), some (.err "boom")⟩).page_error =
      some (.err "boom") :=
  ⟨rfl, rfl⟩

/-- C8 amended: acknowledging the error modal (Ok) clears the stored error
and drops the active page; clicking Start Over drops the active page but
leaves `page_error` unchanged (it is `none` whenever no error modal is
displayed); in either case, a flow picked afterwards starts from the exact
just-constructed state of the page's `new()` constructor. -/
theorem reset_returns_to_fresh_state (a : MyApp) :
    (errorModalOk a).current_page = none ∧
    (errorModalOk a).page_error = none ∧
    (startOverClick a).current_page = none ∧
    (startOverClick a).page_error = a.page_error ∧
    (pickFlow (errorModalOk a) .dsFlow).current_page = some (.dsPage DsState.new) ∧
    (pickFlow (errorModalOk a) .sfFlow).current_page = some (.sfPage SfState.new) ∧
    (pickFlow (startOverClick a) .dsFlow).current_page = some (.dsPage DsState.new) ∧
    (pickFlow (startOverClick a) .sfFlow).current_page = some (.sfPage SfState.new) :=
  ⟨rfl, rfl, rfl, rfl, rfl, rfl, rfl, rfl⟩

/-! ### C3: the task-slot invariant

`DsInv` (and its analogues for the other two pages) is the inductive
invariant of the page's frame-tick relation: each receiver slot is occupied
exactly while a worker of the matching kind is outstanding; an outstanding
worker pins the step that spawned it and the absence of the value it
computes; and the empty-list implications that make selections impossible
while a list is being fetched.  It holds in `new()` and is preserved by
every `Ok` frame (a frame that returns `Err` freezes the wizard: the app
stores the error and never ticks the page again). -/

/-- The ghost kind of the outstanding worker, if any. -/
def dsThreadKind (s : DsState) : Option WorkKind :=
  s.background_thread.map Prod.fst

/-- Inductive invariant of the driver-station page. -/
def DsInv (s : DsState) : Prop :=
  (s.available_releases_receiver = true ↔ dsThreadKind s = some .releasesW) ∧
  (s.download_finished_receiver = true ↔ dsThreadKind s = some .downloadW) ∧
  (s.drive_list_receiver = true ↔ dsThreadKind s = some .drivesW) ∧
  (s.install_finished_receiver = true ↔ dsThreadKind s = some .installW) ∧
  (dsThreadKind s = some .releasesW →
    s.current_step = .chooseVersion ∧ s.available_releases = none) ∧
  (dsThreadKind s = some .downloadW →
    s.current_step = .downloadArchive ∧ s.archive_path = none) ∧
  (dsThreadKind s = some .drivesW →
    s.current_step = .chooseDrive ∧ s.available_drives = none) ∧
  (dsThreadKind s = some .installW → s.current_step = .installSoftware) ∧
  (s.available_releases = none → s.software_version = none) ∧
  (s.available_drives = none → s.selected_drive = none)

theorem dsInv_new : DsInv DsState.new := by
  refine ⟨?_, ?_, ?_, ?_, ?_, ?_, ?_, ?_, ?_, ?_⟩ <;> simp [DsState.new, dsThreadKind]

/-- With no outstanding worker, the invariant forces every receiver slot to
be empty. -/
theorem dsInv_no_thread_no_receivers (s : DsState) (hinv : DsInv s)
    (h : s.background_thread = none) :
    s.available_releases_receiver = false ∧ s.download_finished_receiver = false ∧
    s.drive_list_receiver = false ∧ s.install_finished_receiver = false := by
  obtain ⟨h1, h2, h3, h4, -, -, -, -, -, -⟩ := hinv
  have hk : dsThreadKind s = none := by simp [dsThreadKind, h]
  refine ⟨?_, ?_, ?_, ?_⟩
  · cases hv : s.available_releases_receiver
    · rfl
    · exact absurd (h1.mp hv) (by simp [hk])
  · cases hv : s.download_finished_receiver
    · rfl
    · exact absurd (h2.mp hv) (by simp [hk])
  · cases hv : s.drive_list_receiver
    · rfl
    · exact absurd (h3.mp hv) (by simp [hk])
  · cases hv : s.install_finished_receiver
    · rfl
    · exact absurd (h4.mp hv) (by simp [hk])

theorem dsInv_set_version (s : DsState) (r : GithubRelease) (rs : List GithubRelease)
    (hinv : DsInv s) (hrs : s.available_releases = some rs) :
    DsInv { s with software_version := some r } := by
  obtain ⟨h1, h2, h3, h4, h5, h6, h7, h8, h9, h10⟩ := hinv
  refine ⟨h1, h2, h3, h4, h5, h6, h7, h8, ?_, h10⟩
  intro h
  simp only [hrs] at h
  cases h

theorem dsInv_goto_enterTeamNumbers (s : DsState) (v : GithubRelease)
    (hinv : DsInv s) (hstep : s.current_step = .chooseVersion)
    (hv : s.software_version = some v) :
    DsInv { s with current_step := .enterTeamNumbers } := by
  obtain ⟨h1, h2, h3, h4, h5, h6, h7, h8, h9, h10⟩ := hinv
  have hth : s.background_thread = none := by
    rcases hbt : s.background_thread with - | ⟨k, w⟩
    · rfl
    · exfalso
      have hk : dsThreadKind s = some k := by simp [dsThreadKind, hbt]
      cases k
      · obtain ⟨-, hrel⟩ := h5 hk
        rw [h9 hrel] at hv
        cases hv
      · obtain ⟨hs, -⟩ := h6 hk
        rw [hstep] at hs
        cases hs
      · obtain ⟨hs, -⟩ := h7 hk
        rw [hstep] at hs
        cases hs
      · have hs := h8 hk
        rw [hstep] at hs
        cases hs
  refine ⟨h1, h2, h3, h4, ?_, ?_, ?_, ?_, h9, h10⟩ <;>
    · intro h
      simp [dsThreadKind, hth] at h


theorem dsClickNext_inv (c : Bool) (s1 : DsState)
    (hinv : DsInv s1) (hstep : s1.current_step = .chooseVersion)
    (hc : c = true → s1.software_version.isSome = true) :
    DsInv (if c then { s1 with current_step := .enterTeamNumbers } else s1) := by
  cases c
  · simpa using hinv
  · simp only [if_true]
    obtain ⟨v, hv⟩ := Option.isSome_iff_exists.mp (hc rfl)
    exact dsInv_goto_enterTeamNumbers s1 v hinv hstep hv

theorem dsChooseVersionRender_inv (s : DsState) (i : DsInput) (evs : List Ev)
    (hinv : DsInv s) (hstep : s.current_step = .chooseVersion) :
    (dsChooseVersionRender s i evs).res = .ok () ∧
    DsInv (dsChooseVersionRender s i evs).state := by
  obtain ⟨st, av, sv, ap, tt, tn, ti, ad, sd, ra, rb, rc, rd, bt⟩ := s
  have hstep' : st = .chooseVersion := hstep
  subst hstep'
  unfold dsChooseVersionRender
  rcases i.selectVersion with - | r <;> rcases av with - | rs
  · exact ⟨rfl, dsClickNext_inv _ _ hinv rfl (fun h => (Bool.and_eq_true _ _).mp h |>.2)⟩
  · exact ⟨rfl, dsClickNext_inv _ _ hinv rfl (fun h => (Bool.and_eq_true _ _).mp h |>.2)⟩
  · exact ⟨rfl, dsClickNext_inv _ _ hinv rfl (fun h => (Bool.and_eq_true _ _).mp h |>.2)⟩
  · by_cases hmem : (rs.any (fun x => x = r)) = true
    · simp only [hmem, if_true]
      refine ⟨by trivial, dsClickNext_inv _ _ (dsInv_set_version _ r rs hinv rfl) rfl ?_⟩
      intro h
      rfl
    · simp only [Bool.not_eq_true] at hmem
      simp only [hmem, if_false]
      exact ⟨by trivial, dsClickNext_inv _ _ hinv rfl (fun h => (Bool.and_eq_true _ _).mp h |>.2)⟩

/-- With no outstanding worker and all receiver slots empty, only the two
value implications are left of the invariant. -/
theorem dsInv_idle (s : DsState) (hbt : s.background_thread = none)
    (hra : s.available_releases_receiver = false)
    (hrb : s.download_finished_receiver = false)
    (hrc : s.drive_list_receiver = false)
    (hrd : s.install_finished_receiver = false)
    (h9 : s.available_releases = none → s.software_version = none)
    (h10 : s.available_drives = none → s.selected_drive = none) :
    DsInv s := by
  refine ⟨?_, ?_, ?_, ?_, ?_, ?_, ?_, ?_, h9, h10⟩ <;>
    simp [dsThreadKind, hbt, hra, hrb, hrc, hrd]

/-- Spawning the release-fetch worker from an idle ChooseVersion state
preserves the invariant. -/
theorem dsInv_spawn_releases (s : DsState) (w : WorkerState) (hinv : DsInv s)
    (hstep : s.current_step = .chooseVersion) (hav : s.available_releases = none)
    (hbt : s.background_thread = none) :
    DsInv { s with available_releases_receiver := true,
                   background_thread := some (.releasesW, w) } := by
  obtain ⟨hra, hrb, hrc, hrd⟩ := dsInv_no_thread_no_receivers s hinv hbt
  obtain ⟨h1, h2, h3, h4, h5, h6, h7, h8, h9, h10⟩ := hinv
  refine ⟨?_, ?_, ?_, ?_, ?_, ?_, ?_, ?_, h9, h10⟩ <;>
    simp [dsThreadKind, hra, hrb, hrc, hrd, hstep, hav, h9 hav, h10]

theorem dsChooseVersionAuto_inv (s : DsState) (i : DsInput) (evs : List Ev)
    (hinv : DsInv s) (hstep : s.current_step = .chooseVersion) :
    (dsChooseVersionAuto s i evs).res = .ok () → DsInv (dsChooseVersionAuto s i evs).state := by
  unfold dsChooseVersionAuto
  split
  · rename_i rs hrel
    split
    · split
      · rename_i hnone r hfind
        intro _
        exact (dsChooseVersionRender_inv _ i evs (dsInv_set_version s r rs hinv hrel) hstep).2
      · intro h
        cases h
    · intro _
      exact (dsChooseVersionRender_inv s i evs hinv hstep).2
  · intro _
    exact (dsChooseVersionRender_inv s i evs hinv hstep).2

theorem dsRecA_false (s : DsState) (hinv : DsInv s) (k : WorkKind)
    (hk : dsThreadKind s = some k) (hne : k ≠ .releasesW) :
    s.available_releases_receiver = false := by
  cases hv : s.available_releases_receiver
  · rfl
  · have := hinv.1.mp hv
    rw [hk] at this
    injection this with h
    exact absurd h hne

theorem dsRecB_false (s : DsState) (hinv : DsInv s) (k : WorkKind)
    (hk : dsThreadKind s = some k) (hne : k ≠ .downloadW) :
    s.download_finished_receiver = false := by
  cases hv : s.download_finished_receiver
  · rfl
  · have := hinv.2.1.mp hv
    rw [hk] at this
    injection this with h
    exact absurd h hne

theorem dsRecC_false (s : DsState) (hinv : DsInv s) (k : WorkKind)
    (hk : dsThreadKind s = some k) (hne : k ≠ .drivesW) :
    s.drive_list_receiver = false := by
  cases hv : s.drive_list_receiver
  · rfl
  · have := hinv.2.2.1.mp hv
    rw [hk] at this
    injection this with h
    exact absurd h hne

theorem dsRecD_false (s : DsState) (hinv : DsInv s) (k : WorkKind)
    (hk : dsThreadKind s = some k) (hne : k ≠ .installW) :
    s.install_finished_receiver = false := by
  cases hv : s.install_finished_receiver
  · rfl
  · have := hinv.2.2.2.1.mp hv
    rw [hk] at this
    injection this with h
    exact absurd h hne

theorem dsRunChooseVersion_inv (s : DsState) (i : DsInput)
    (hinv : DsInv s) (hstep : s.current_step = .chooseVersion) :
    (dsRunChooseVersion s i).res = .ok () → DsInv (dsRunChooseVersion s i).state := by
  have h10 : s.available_drives = none → s.selected_drive = none :=
    hinv.2.2.2.2.2.2.2.2.2
  unfold dsRunChooseVersion
  by_cases hsp : (s.available_releases.isNone && s.background_thread.isNone) = true
  · have hav : s.available_releases = none :=
      Option.isNone_iff_eq_none.mp ((Bool.and_eq_true _ _).mp hsp).1
    have hbt : s.background_thread = none :=
      Option.isNone_iff_eq_none.mp ((Bool.and_eq_true _ _).mp hsp).2
    obtain ⟨hra, hrb, hrc, hrd⟩ := dsInv_no_thread_no_receivers s hinv hbt
    rw [hsp]
    cases hfin : i.finished
    · exact dsChooseVersionAuto_inv _ i _ (dsInv_spawn_releases s _ hinv hstep hav hbt) hstep
    · cases hres : i.releasesRes with
      | ok rs =>
        exact dsChooseVersionAuto_inv
          { s with available_releases := some rs, available_releases_receiver := false,
                   background_thread := none } i _
          (dsInv_idle _ rfl rfl hrb hrc hrd (fun h => nomatch h) h10) hstep
      | error e => exact fun h => nomatch h
  · rw [Bool.not_eq_true] at hsp
    simp only [hsp, Bool.false_eq_true, if_false]
    cases hbt2 : s.background_thread with
    | none => exact dsChooseVersionAuto_inv s i _ hinv hstep
    | some kw =>
      obtain ⟨k, w⟩ := kw
      have hk : dsThreadKind s = some k := by simp [dsThreadKind, hbt2]
      cases hfin : i.finished
      · exact dsChooseVersionAuto_inv s i _ hinv hstep
      · cases w with
        | willPanic msg => exact fun h => nomatch h
        | willSend m =>
          cases hra : s.available_releases_receiver
          · simp only [hra]
            exact fun h => nomatch h
          · simp only [hra]
            cases m with
            | mReleases rs =>
              have hkr : k = .releasesW := by
                have h' := hinv.1.mp hra
                rw [hk] at h'
                injection h'
              subst hkr
              exact dsChooseVersionAuto_inv
                { s with available_releases := some rs, available_releases_receiver := false,
                         background_thread := none } i _
                (dsInv_idle _ rfl rfl
                  (dsRecB_false s hinv _ hk (by simp))
                  (dsRecC_false s hinv _ hk (by simp))
                  (dsRecD_false s hinv _ hk (by simp))
                  (fun h => nomatch h) h10) hstep
            | mPath p => exact fun h => nomatch h
            | mDrives ds => exact fun h => nomatch h
            | mUnit => exact fun h => nomatch h

theorem dsNoThread (s : DsState) (hinv : DsInv s)
    (hne1 : s.current_step ≠ .chooseVersion) (hne2 : s.current_step ≠ .downloadArchive)
    (hne3 : s.current_step ≠ .chooseDrive) (hne4 : s.current_step ≠ .installSoftware) :
    s.background_thread = none := by
  rcases hbt : s.background_thread with - | ⟨k, w⟩
  · rfl
  · have hk : dsThreadKind s = some k := by simp [dsThreadKind, hbt]
    exfalso
    cases k
    · exact hne1 (hinv.2.2.2.2.1 hk).1
    · exact hne2 (hinv.2.2.2.2.2.1 hk).1
    · exact hne3 (hinv.2.2.2.2.2.2.1 hk).1
    · exact hne4 (hinv.2.2.2.2.2.2.2.1 hk)

theorem dsRunEnterTeamNumbers_inv (s : DsState) (i : DsInput)
    (hinv : DsInv s) (hstep : s.current_step = .enterTeamNumbers) :
    (dsRunEnterTeamNumbers s i).res = .ok () → DsInv (dsRunEnterTeamNumbers s i).state := by
  have hbt : s.background_thread = none :=
    dsNoThread s hinv (by simp [hstep]) (by simp [hstep]) (by simp [hstep]) (by simp [hstep])
  obtain ⟨hra, hrb, hrc, hrd⟩ := dsInv_no_thread_no_receivers s hinv hbt
  have h9 := hinv.2.2.2.2.2.2.2.2.1
  have h10 := hinv.2.2.2.2.2.2.2.2.2
  intro _
  unfold dsRunEnterTeamNumbers
  dsimp only
  repeat' split
  all_goals exact dsInv_idle _ hbt hra hrb hrc hrd h9 h10

/-- Spawning the archive-download worker from an idle DownloadArchive state
preserves the invariant. -/
theorem dsInv_spawn_download (s : DsState) (w : WorkerState) (hinv : DsInv s)
    (hstep : s.current_step = .downloadArchive) (hap : s.archive_path = none)
    (hbt : s.background_thread = none) :
    DsInv { s with download_finished_receiver := true,
                   background_thread := some (.downloadW, w) } := by
  obtain ⟨hra, hrb, hrc, hrd⟩ := dsInv_no_thread_no_receivers s hinv hbt
  obtain ⟨h1, h2, h3, h4, h5, h6, h7, h8, h9, h10⟩ := hinv
  refine ⟨?_, ?_, ?_, ?_, ?_, ?_, ?_, ?_, h9, h10⟩ <;>
    simp [dsThreadKind, hra, hrb, hrc, hrd, hstep, hap]

theorem dsDownloadArchivePoll_inv (s : DsState) (evs : List Ev) (fin : Bool)
    (hinv : DsInv s) (hstep : s.current_step = .downloadArchive) :
    (dsDownloadArchivePoll s evs fin).res = .ok () →
    DsInv (dsDownloadArchivePoll s evs fin).state := by
  have h9 := hinv.2.2.2.2.2.2.2.2.1
  have h10 := hinv.2.2.2.2.2.2.2.2.2
  unfold dsDownloadArchivePoll
  cases hbt2 : s.background_thread with
  | none => exact fun _ => hinv
  | some kw =>
    obtain ⟨k, w⟩ := kw
    have hk : dsThreadKind s = some k := by simp [dsThreadKind, hbt2]
    cases fin
    · exact fun _ => hinv
    · cases w with
      | willPanic msg => exact fun h => nomatch h
      | willSend m =>
        cases hrb : s.download_finished_receiver
        · simp only [hrb]
          exact fun h => nomatch h
        · simp only [hrb]
          cases m with
          | mPath p =>
            have hkr : k = .downloadW := by
              have h' := hinv.2.1.mp hrb
              rw [hk] at h'
              injection h'
            subst hkr
            intro _
            exact dsInv_idle _ rfl
              (dsRecA_false s hinv _ hk (by simp)) rfl
              (dsRecC_false s hinv _ hk (by simp))
              (dsRecD_false s hinv _ hk (by simp))
              h9 h10
          | mReleases rs => exact fun h => nomatch h
          | mDrives ds => exact fun h => nomatch h
          | mUnit => exact fun h => nomatch h

theorem dsRunDownloadArchive_inv (s : DsState) (i : DsInput)
    (hinv : DsInv s) (hstep : s.current_step = .downloadArchive) :
    (dsRunDownloadArchive s i).res = .ok () → DsInv (dsRunDownloadArchive s i).state := by
  unfold dsRunDownloadArchive
  by_cases hsp : (s.archive_path.isNone && s.background_thread.isNone) = true
  · have hap : s.archive_path = none :=
      Option.isNone_iff_eq_none.mp ((Bool.and_eq_true _ _).mp hsp).1
    have hbt : s.background_thread = none :=
      Option.isNone_iff_eq_none.mp ((Bool.and_eq_true _ _).mp hsp).2
    rw [hsp]
    cases hsv : s.software_version with
    | none => exact fun h => nomatch h
    | some rel =>
      have hinv' : DsInv { s with software_version := some rel } := by
        rw [← hsv]
        exact hinv
      exact dsDownloadArchivePoll_inv
        { s with software_version := some rel, download_finished_receiver := true,
                 background_thread := some (.downloadW, dsDownloadClosure rel i.downloadRes) }
        [.spawnEv .downloadW] i.finished
        (dsInv_spawn_download { s with software_version := some rel } _ hinv' hstep hap hbt) hstep
  · rw [Bool.not_eq_true] at hsp
    simp only [hsp, Bool.false_eq_true, if_false]
    exact dsDownloadArchivePoll_inv s [] i.finished hinv hstep

theorem dsInv_set_drive (s : DsState) (d : DriveInfo) (ds : List DriveInfo)
    (hinv : DsInv s) (hads : s.available_drives = some ds) :
    DsInv { s with selected_drive := some d } := by
  obtain ⟨h1, h2, h3, h4, h5, h6, h7, h8, h9, h10⟩ := hinv
  refine ⟨h1, h2, h3, h4, h5, h6, h7, h8, h9, ?_⟩
  intro h
  simp only [hads] at h
  cases h

theorem dsInv_refresh (s : DsState) (hinv : DsInv s) :
    DsInv { s with available_drives := none, selected_drive := none } := by
  obtain ⟨h1, h2, h3, h4, h5, h6, h7, h8, h9, h10⟩ := hinv
  exact ⟨h1, h2, h3, h4, h5, h6, fun h => ⟨(h7 h).1, rfl⟩, h8, h9, fun _ => rfl⟩

theorem dsInv_goto_install (s : DsState) (d : DriveInfo)
    (hinv : DsInv s) (hstep : s.current_step = .chooseDrive)
    (hsd : s.selected_drive = some d) :
    DsInv { s with current_step := .installSoftware } := by
  obtain ⟨h1, h2, h3, h4, h5, h6, h7, h8, h9, h10⟩ := hinv
  have hth : s.background_thread = none := by
    rcases hbt : s.background_thread with - | ⟨k, w⟩
    · rfl
    · exfalso
      have hk : dsThreadKind s = some k := by simp [dsThreadKind, hbt]
      cases k
      · obtain ⟨hs, -⟩ := h5 hk
        rw [hstep] at hs
        cases hs
      · obtain ⟨hs, -⟩ := h6 hk
        rw [hstep] at hs
        cases hs
      · obtain ⟨-, had⟩ := h7 hk
        rw [h10 had] at hsd
        cases hsd
      · have hs := h8 hk
        rw [hstep] at hs
        cases hs
  refine ⟨h1, h2, h3, h4, ?_, ?_, ?_, ?_, h9, h10⟩ <;>
    · intro h
      simp [dsThreadKind, hth] at h

theorem dsRefreshIf_inv (c : Bool) (s : DsState) (hinv : DsInv s) :
    DsInv (if c then { s with available_drives := none, selected_drive := none } else s) ∧
    (if c then { s with available_drives := none, selected_drive := none } else s).current_step
      = s.current_step := by
  cases c
  · exact ⟨hinv, rfl⟩
  · exact ⟨dsInv_refresh s hinv, rfl⟩

theorem dsInstallClickIf_inv (c : Bool) (s : DsState) (hinv : DsInv s)
    (hstep : s.current_step = .chooseDrive)
    (hc : c = true → s.selected_drive.isSome = true) :
    DsInv (if c then { s with current_step := .installSoftware } else s) := by
  cases c
  · simpa using hinv
  · simp only [if_true]
    obtain ⟨d, hd⟩ := Option.isSome_iff_exists.mp (hc rfl)
    exact dsInv_goto_install s d hinv hstep hd

theorem dsChooseDriveRender_inv (s : DsState) (i : DsInput) (evs : List Ev)
    (hinv : DsInv s) (hstep : s.current_step = .chooseDrive) :
    (dsChooseDriveRender s i evs).res = .ok () → DsInv (dsChooseDriveRender s i evs).state := by
  obtain ⟨st, av, sv, ap, tt, tn, ti, ad, sd, ra, rb, rc, rd, bt⟩ := s
  have hstep' : st = .chooseDrive := hstep
  subst hstep'
  unfold dsChooseDriveRender
  split
  · intro _
    rcases i.selectDrive with - | d <;> rcases ad with - | ds
    · exact dsInstallClickIf_inv _ _ (dsRefreshIf_inv _ _ hinv).1
        ((dsRefreshIf_inv _ _ hinv).2.trans rfl) (fun h => (Bool.and_eq_true _ _).mp h |>.2)
    · exact dsInstallClickIf_inv _ _ (dsRefreshIf_inv _ _ hinv).1
        ((dsRefreshIf_inv _ _ hinv).2.trans rfl) (fun h => (Bool.and_eq_true _ _).mp h |>.2)
    · exact dsInstallClickIf_inv _ _ (dsRefreshIf_inv _ _ hinv).1
        ((dsRefreshIf_inv _ _ hinv).2.trans rfl) (fun h => (Bool.and_eq_true _ _).mp h |>.2)
    · by_cases hmem : (ds.any (fun x => x = d)) = true
      · simp only [hmem, if_true]
        have hinv1 := dsInv_set_drive _ d ds hinv rfl
        exact dsInstallClickIf_inv _ _ (dsRefreshIf_inv _ _ hinv1).1
          ((dsRefreshIf_inv _ _ hinv1).2.trans rfl) (fun h => (Bool.and_eq_true _ _).mp h |>.2)
      · simp only [Bool.not_eq_true] at hmem
        simp only [hmem, Bool.false_eq_true, if_false]
        exact dsInstallClickIf_inv _ _ (dsRefreshIf_inv _ _ hinv).1
          ((dsRefreshIf_inv _ _ hinv).2.trans rfl) (fun h => (Bool.and_eq_true _ _).mp h |>.2)
  · exact fun h => nomatch h

/-- Spawning the drive-enumeration worker from an idle ChooseDrive state
preserves the invariant. -/
theorem dsInv_spawn_drives (s : DsState) (w : WorkerState) (hinv : DsInv s)
    (hstep : s.current_step = .chooseDrive) (had : s.available_drives = none)
    (hbt : s.background_thread = none) :
    DsInv { s with drive_list_receiver := true,
                   background_thread := some (.drivesW, w) } := by
  obtain ⟨hra, hrb, hrc, hrd⟩ := dsInv_no_thread_no_receivers s hinv hbt
  obtain ⟨h1, h2, h3, h4, h5, h6, h7, h8, h9, h10⟩ := hinv
  refine ⟨?_, ?_, ?_, ?_, ?_, ?_, ?_, ?_, h9, h10⟩ <;>
    simp [dsThreadKind, hra, hrb, hrc, hrd, hstep, had]

theorem dsRunChooseDrive_inv (s : DsState) (i : DsInput)
    (hinv : DsInv s) (hstep : s.current_step = .chooseDrive) :
    (dsRunChooseDrive s i).res = .ok () → DsInv (dsRunChooseDrive s i).state := by
  have h9 := hinv.2.2.2.2.2.2.2.2.1
  unfold dsRunChooseDrive
  by_cases hsp : (s.available_drives.isNone && s.background_thread.isNone) = true
  · have had : s.available_drives = none :=
      Option.isNone_iff_eq_none.mp ((Bool.and_eq_true _ _).mp hsp).1
    have hbt : s.background_thread = none :=
      Option.isNone_iff_eq_none.mp ((Bool.and_eq_true _ _).mp hsp).2
    obtain ⟨hra, hrb, hrc, hrd⟩ := dsInv_no_thread_no_receivers s hinv hbt
    rw [hsp]
    cases hfin : i.finished
    · exact dsChooseDriveRender_inv _ i _ (dsInv_spawn_drives s _ hinv hstep had hbt) hstep
    · cases hres : i.drivesRes with
      | ok ds =>
        exact dsChooseDriveRender_inv
          { s with available_drives := some ds, drive_list_receiver := false,
                   background_thread := none } i _
          (dsInv_idle _ rfl hra hrb rfl hrd h9 (fun h => nomatch h)) hstep
      | error e => exact fun h => nomatch h
  · rw [Bool.not_eq_true] at hsp
    simp only [hsp, Bool.false_eq_true, if_false]
    cases hbt2 : s.background_thread with
    | none => exact dsChooseDriveRender_inv s i _ hinv hstep
    | some kw =>
      obtain ⟨k, w⟩ := kw
      have hk : dsThreadKind s = some k := by simp [dsThreadKind, hbt2]
      cases hfin : i.finished
      · exact dsChooseDriveRender_inv s i _ hinv hstep
      · cases w with
        | willPanic msg => exact fun h => nomatch h
        | willSend m =>
          cases hrc : s.drive_list_receiver
          · simp only [hrc]
            exact fun h => nomatch h
          · simp only [hrc]
            cases m with
            | mDrives ds =>
              have hkr : k = .drivesW := by
                have h' := hinv.2.2.1.mp hrc
                rw [hk] at h'
                injection h'
              subst hkr
              exact dsChooseDriveRender_inv
                { s with available_drives := some ds, drive_list_receiver := false,
                         background_thread := none } i _
                (dsInv_idle _ rfl
                  (dsRecA_false s hinv _ hk (by simp))
                  (dsRecB_false s hinv _ hk (by simp))
                  rfl
                  (dsRecD_false s hinv _ hk (by simp))
                  h9 (fun h => nomatch h)) hstep
            | mReleases rs => exact fun h => nomatch h
            | mPath p => exact fun h => nomatch h
            | mUnit => exact fun h => nomatch h

theorem dsNoThreadInstall (s : DsState) (hinv : DsInv s)
    (hstep : s.current_step = .installSoftware)
    (hrd : s.install_finished_receiver = false) :
    s.background_thread = none := by
  rcases hbt : s.background_thread with - | ⟨k, w⟩
  · rfl
  · have hk : dsThreadKind s = some k := by simp [dsThreadKind, hbt]
    exfalso
    cases k
    · have hs := (hinv.2.2.2.2.1 hk).1
      rw [hstep] at hs
      cases hs
    · have hs := (hinv.2.2.2.2.2.1 hk).1
      rw [hstep] at hs
      cases hs
    · have hs := (hinv.2.2.2.2.2.2.1 hk).1
      rw [hstep] at hs
      cases hs
    · have := hinv.2.2.2.1.mpr hk
      rw [hrd] at this
      cases this

/-- Spawning the install worker preserves the invariant. -/
theorem dsInv_spawn_install (s : DsState) (w : WorkerState) (hinv : DsInv s)
    (hstep : s.current_step = .installSoftware)
    (hbt : s.background_thread = none) :
    DsInv { s with install_finished_receiver := true,
                   background_thread := some (.installW, w) } := by
  obtain ⟨hra, hrb, hrc, hrd⟩ := dsInv_no_thread_no_receivers s hinv hbt
  obtain ⟨h1, h2, h3, h4, h5, h6, h7, h8, h9, h10⟩ := hinv
  refine ⟨?_, ?_, ?_, ?_, ?_, ?_, ?_, ?_, h9, h10⟩ <;>
    simp [dsThreadKind, hra, hrb, hrc, hrd, hstep]

theorem dsInstallPoll_inv (s : DsState) (evs : List Ev) (fin : Bool)
    (hinv : DsInv s) (hstep : s.current_step = .installSoftware) :
    (dsInstallPoll s evs fin).res = .ok () → DsInv (dsInstallPoll s evs fin).state := by
  have h9 := hinv.2.2.2.2.2.2.2.2.1
  have h10 := hinv.2.2.2.2.2.2.2.2.2
  unfold dsInstallPoll
  cases hbt2 : s.background_thread with
  | none => exact fun _ => hinv
  | some kw =>
    obtain ⟨k, w⟩ := kw
    have hk : dsThreadKind s = some k := by simp [dsThreadKind, hbt2]
    cases fin
    · exact fun _ => hinv
    · cases w with
      | willPanic msg => exact fun h => nomatch h
      | willSend m =>
        cases hrd : s.install_finished_receiver
        · simp only [hrd]
          exact fun h => nomatch h
        · simp only [hrd]
          have hkr : k = .installW := by
            have h' := hinv.2.2.2.1.mp hrd
            rw [hk] at h'
            injection h'
          subst hkr
          intro _
          exact dsInv_idle _ rfl
            (dsRecA_false s hinv _ hk (by simp))
            (dsRecB_false s hinv _ hk (by simp))
            (dsRecC_false s hinv _ hk (by simp))
            rfl h9 h10

theorem dsRunInstallSoftware_inv (s : DsState) (i : DsInput)
    (hinv : DsInv s) (hstep : s.current_step = .installSoftware) :
    (dsRunInstallSoftware s i).res = .ok () → DsInv (dsRunInstallSoftware s i).state := by
  unfold dsRunInstallSoftware
  by_cases hg : (!s.install_finished_receiver) = true
  · have hrd : s.install_finished_receiver = false := by
      rwa [Bool.not_eq_true'] at hg
    have hbt : s.background_thread = none := dsNoThreadInstall s hinv hstep hrd
    rw [hg]
    dsimp only
    cases hap : s.archive_path with
    | none => exact fun h => nomatch h
    | some p =>
      cases hsd : s.selected_drive with
      | none => exact fun h => nomatch h
      | some d =>
        cases hfo : i.fileOpenRes with
        | error e => exact fun h => nomatch h
        | ok u =>
          cases u
          by_cases hidx : s.team_number_index < s.team_numbers.length
          · rw [if_pos hidx]
            have hinv' : DsInv { s with archive_path := some p, selected_drive := some d } := by
              rw [← hap, ← hsd]
              exact hinv
            exact dsInstallPoll_inv
              { s with archive_path := some p, selected_drive := some d,
                       install_finished_receiver := true,
                       background_thread := some (.installW, dsInstallClosure i.installEnv) }
              [.spawnEv .installW] i.finished
              (dsInv_spawn_install { s with archive_path := some p, selected_drive := some d }
                _ hinv' hstep hbt) hstep
          · rw [if_neg hidx]
            exact fun h => nomatch h
  · rw [Bool.not_eq_true] at hg
    simp only [hg, Bool.false_eq_true, if_false]
    exact dsInstallPoll_inv s [] i.finished hinv hstep

theorem dsRunRemoveCard_inv (s : DsState) (i : DsInput)
    (hinv : DsInv s) (hstep : s.current_step = .removeCard) :
    (dsRunRemoveCard s i).res = .ok () → DsInv (dsRunRemoveCard s i).state := by
  have hbt : s.background_thread = none :=
    dsNoThread s hinv (by simp [hstep]) (by simp [hstep]) (by simp [hstep]) (by simp [hstep])
  obtain ⟨hra, hrb, hrc, hrd⟩ := dsInv_no_thread_no_receivers s hinv hbt
  have h9 := hinv.2.2.2.2.2.2.2.2.1
  unfold dsRunRemoveCard
  by_cases hidx : s.team_number_index < s.team_numbers.length
  · rw [if_pos hidx]
    split
    · split
      · exact fun _ => dsInv_idle _ hbt hra hrb hrc hrd h9 (fun _ => rfl)
      · exact fun _ => hinv
    · exact fun _ => hinv
  · rw [if_neg hidx]
    exact fun h => nomatch h

theorem dsChooseVersionRender_events (s : DsState) (i : DsInput) (evs : List Ev) :
    (dsChooseVersionRender s i evs).events = evs := by
  unfold dsChooseVersionRender
  dsimp only
  repeat' split
  all_goals rfl

theorem dsChooseVersionAuto_events (s : DsState) (i : DsInput) (evs : List Ev) :
    (dsChooseVersionAuto s i evs).events = evs := by
  unfold dsChooseVersionAuto
  repeat' split
  all_goals first
  | rfl
  | apply dsChooseVersionRender_events

theorem dsChooseDriveRender_events (s : DsState) (i : DsInput) (evs : List Ev) :
    (dsChooseDriveRender s i evs).events = evs := by
  unfold dsChooseDriveRender
  repeat' split
  all_goals rfl

theorem dsRunEnterTeamNumbers_events (s : DsState) (i : DsInput) :
    (dsRunEnterTeamNumbers s i).events = [] := by
  unfold dsRunEnterTeamNumbers
  dsimp only
  repeat' split
  all_goals rfl

theorem dsRunRemoveCard_events (s : DsState) (i : DsInput) :
    (dsRunRemoveCard s i).events = [] := by
  unfold dsRunRemoveCard
  repeat' split
  all_goals rfl

theorem dsRunChooseVersion_spawnMem (s : DsState) (i : DsInput) (k : WorkKind)
    (hmem : Ev.spawnEv k ∈ (dsRunChooseVersion s i).events) :
    k = .releasesW ∧ (s.available_releases.isNone && s.background_thread.isNone) = true := by
  unfold dsRunChooseVersion at hmem
  by_cases hsp : (s.available_releases.isNone && s.background_thread.isNone) = true
  · refine ⟨?_, hsp⟩
    rw [hsp] at hmem
    revert hmem
    cases hfin : i.finished
    · intro hmem
      simp [dsChooseVersionAuto_events] at hmem
      exact hmem
    · cases hres : i.releasesRes with
      | ok rs =>
        intro hmem
        simp [dsChooseVersionAuto_events, dsReleasesClosure] at hmem
        exact hmem
      | error e =>
        intro hmem
        simp [dsReleasesClosure] at hmem
        exact hmem
  · rw [Bool.not_eq_true] at hsp
    simp only [hsp, Bool.false_eq_true, if_false] at hmem
    exfalso
    revert hmem
    cases hbt2 : s.background_thread with
    | none =>
      intro hmem
      simp [dsChooseVersionAuto_events] at hmem
    | some kw =>
      obtain ⟨k', w⟩ := kw
      cases hfin : i.finished
      · intro hmem
        simp [dsChooseVersionAuto_events] at hmem
      · cases w with
        | willPanic msg =>
          intro hmem
          simp at hmem
        | willSend m =>
          cases hra : s.available_releases_receiver
          · simp only [hra]
            intro hmem
            simp at hmem
          · simp only [hra]
            cases m with
            | mReleases rs =>
              intro hmem
              simp [dsChooseVersionAuto_events] at hmem
            | mPath p =>
              intro hmem
              simp at hmem
            | mDrives ds =>
              intro hmem
              simp at hmem
            | mUnit =>
              intro hmem
              simp at hmem

theorem dsDownloadArchivePoll_spawnMem (s : DsState) (evs : List Ev) (fin : Bool) (k : WorkKind)
    (hmem : Ev.spawnEv k ∈ (dsDownloadArchivePoll s evs fin).events) :
    Ev.spawnEv k ∈ evs := by
  revert hmem
  unfold dsDownloadArchivePoll
  cases s.background_thread with
  | none => exact fun hmem => hmem
  | some kw =>
    obtain ⟨k', w⟩ := kw
    cases fin
    · intro hmem
      simpa using hmem
    · cases w with
      | willPanic msg =>
        intro hmem
        simpa using hmem
      | willSend m =>
        cases hrb : s.download_finished_receiver
        · simp only [hrb]
          intro hmem
          simpa using hmem
        · simp only [hrb]
          cases m with
          | mPath p =>
            intro hmem
            simpa using hmem
          | mReleases rs =>
            intro hmem
            simpa using hmem
          | mDrives ds =>
            intro hmem
            simpa using hmem
          | mUnit =>
            intro hmem
            simpa using hmem

theorem dsInstallPoll_spawnMem (s : DsState) (evs : List Ev) (fin : Bool) (k : WorkKind)
    (hmem : Ev.spawnEv k ∈ (dsInstallPoll s evs fin).events) :
    Ev.spawnEv k ∈ evs := by
  revert hmem
  unfold dsInstallPoll
  cases s.background_thread with
  | none => exact fun hmem => hmem
  | some kw =>
    obtain ⟨k', w⟩ := kw
    cases fin
    · intro hmem
      simpa using hmem
    · cases w with
      | willPanic msg =>
        intro hmem
        simpa using hmem
      | willSend m =>
        cases hrd : s.install_finished_receiver
        · simp only [hrd]
          intro hmem
          simpa using hmem
        · simp only [hrd]
          intro hmem
          simpa using hmem

theorem dsRunDownloadArchive_spawnMem (s : DsState) (i : DsInput) (k : WorkKind)
    (hmem : Ev.spawnEv k ∈ (dsRunDownloadArchive s i).events) :
    k = .downloadW ∧ (s.archive_path.isNone && s.background_thread.isNone) = true := by
  unfold dsRunDownloadArchive at hmem
  by_cases hsp : (s.archive_path.isNone && s.background_thread.isNone) = true
  · refine ⟨?_, hsp⟩
    rw [hsp] at hmem
    revert hmem
    cases hsv : s.software_version with
    | none =>
      intro hmem
      simp at hmem
    | some rel =>
      intro hmem
      dsimp only at hmem
      simp only [eq_self_iff_true, if_true] at hmem
      have h' := dsDownloadArchivePoll_spawnMem _ _ _ _ hmem
      simpa using h'
  · rw [Bool.not_eq_true] at hsp
    simp only [hsp, Bool.false_eq_true, if_false] at hmem
    have h' := dsDownloadArchivePoll_spawnMem _ _ _ _ hmem
    simp at h'

theorem dsRunChooseDrive_spawnMem (s : DsState) (i : DsInput) (k : WorkKind)
    (hmem : Ev.spawnEv k ∈ (dsRunChooseDrive s i).events) :
    k = .drivesW ∧ (s.available_drives.isNone && s.background_thread.isNone) = true := by
  unfold dsRunChooseDrive at hmem
  by_cases hsp : (s.available_drives.isNone && s.background_thread.isNone) = true
  · refine ⟨?_, hsp⟩
    rw [hsp] at hmem
    revert hmem
    cases hfin : i.finished
    · intro hmem
      simp [dsChooseDriveRender_events] at hmem
      exact hmem
    · cases hres : i.drivesRes with
      | ok ds =>
        intro hmem
        simp [dsChooseDriveRender_events, dsDrivesClosure] at hmem
        exact hmem
      | error e =>
        intro hmem
        simp [dsDrivesClosure] at hmem
        exact hmem
  · rw [Bool.not_eq_true] at hsp
    simp only [hsp, Bool.false_eq_true, if_false] at hmem
    exfalso
    revert hmem
    cases hbt2 : s.background_thread with
    | none =>
      intro hmem
      simp [dsChooseDriveRender_events] at hmem
    | some kw =>
      obtain ⟨k', w⟩ := kw
      cases hfin : i.finished
      · intro hmem
        simp [dsChooseDriveRender_events] at hmem
      · cases w with
        | willPanic msg =>
          intro hmem
          simp at hmem
        | willSend m =>
          cases hrc : s.drive_list_receiver
          · simp only [hrc]
            intro hmem
            simp at hmem
          · simp only [hrc]
            cases m with
            | mDrives ds =>
              intro hmem
              simp [dsChooseDriveRender_events] at hmem
            | mReleases rs =>
              intro hmem
              simp at hmem
            | mPath p =>
              intro hmem
              simp at hmem
            | mUnit =>
              intro hmem
              simp at hmem

theorem dsRunInstallSoftware_spawnMem (s : DsState) (i : DsInput) (k : WorkKind)
    (hmem : Ev.spawnEv k ∈ (dsRunInstallSoftware s i).events) :
    k = .installW ∧ s.install_finished_receiver = false := by
  unfold dsRunInstallSoftware at hmem
  by_cases hg : (!s.install_finished_receiver) = true
  · refine ⟨?_, by rwa [Bool.not_eq_true'] at hg⟩
    rw [hg] at hmem
    dsimp only at hmem
    revert hmem
    cases hap : s.archive_path with
    | none =>
      intro hmem
      simp at hmem
    | some p =>
      cases hsd : s.selected_drive with
      | none =>
        intro hmem
        simp at hmem
      | some d =>
        cases hfo : i.fileOpenRes with
        | error e =>
          intro hmem
          simp at hmem
        | ok u =>
          cases u
          by_cases hidx : s.team_number_index < s.team_numbers.length
          · rw [if_pos hidx]
            intro hmem
            dsimp only at hmem
            simp only [eq_self_iff_true, if_true] at hmem
            have h' := dsInstallPoll_spawnMem _ _ _ _ hmem
            simpa using h'
          · rw [if_neg hidx]
            intro hmem
            simp at hmem
  · rw [Bool.not_eq_true] at hg
    simp only [hg, Bool.false_eq_true, if_false] at hmem
    have h' := dsInstallPoll_spawnMem _ _ _ _ hmem
    simp at h'

theorem dsTick_inv (s : DsState) (i : DsInput) (hinv : DsInv s) :
    (dsTick s i).res = .ok () → DsInv (dsTick s i).state := by
  unfold dsTick
  cases hstep : s.current_step with
  | chooseVersion => exact dsRunChooseVersion_inv s i hinv hstep
  | enterTeamNumbers => exact dsRunEnterTeamNumbers_inv s i hinv hstep
  | downloadArchive => exact dsRunDownloadArchive_inv s i hinv hstep
  | chooseDrive => exact dsRunChooseDrive_inv s i hinv hstep
  | installSoftware => exact dsRunInstallSoftware_inv s i hinv hstep
  | removeCard => exact dsRunRemoveCard_inv s i hinv hstep

/-- Reachable states of the driver-station page: its `new()` state, plus
anything an `Ok` frame tick produces.  A frame that returns `Err` freezes
the wizard (the app stores the error and replaces the page with the error
modal), so it produces no further ticks. -/
inductive DsReach : DsState → Prop
  | init : DsReach DsState.new
  | tick (s : DsState) (i : DsInput) (h : DsReach s)
      (hok : (dsTick s i).res = .ok ()) : DsReach (dsTick s i).state

theorem dsReach_inv (s : DsState) (h : DsReach s) : DsInv s := by
  induction h with
  | init => exact dsInv_new
  | tick s i h hok ih => exact dsTick_inv s i ih hok

/-- The receiver slot a worker of kind `k` reports through, per page
structure. -/
def dsReceiverOf (k : WorkKind) (s : DsState) : Bool :=
  match k with
  | .releasesW => s.available_releases_receiver
  | .downloadW => s.download_finished_receiver
  | .drivesW => s.drive_list_receiver
  | .installW => s.install_finished_receiver

/-- Whether the value a worker of kind `k` would produce is already stored
in session state.  The install worker produces only a completion signal, so
its value slot is always empty. -/
def dsValueOf (k : WorkKind) (s : DsState) : Bool :=
  match k with
  | .releasesW => s.available_releases.isSome
  | .downloadW => s.archive_path.isSome
  | .drivesW => s.available_drives.isSome
  | .installW => false

theorem dsTick_spawn_safe (s : DsState) (i : DsInput) (k : WorkKind)
    (hreach : DsReach s) (hmem : Ev.spawnEv k ∈ (dsTick s i).events) :
    s.background_thread = none ∧ dsReceiverOf k s = false ∧ dsValueOf k s = false := by
  have hinv := dsReach_inv s hreach
  revert hmem
  unfold dsTick
  cases hstep : s.current_step with
  | chooseVersion =>
    intro hmem
    obtain ⟨rfl, hsp⟩ := dsRunChooseVersion_spawnMem s i k hmem
    have hav : s.available_releases = none :=
      Option.isNone_iff_eq_none.mp ((Bool.and_eq_true _ _).mp hsp).1
    have hbt : s.background_thread = none :=
      Option.isNone_iff_eq_none.mp ((Bool.and_eq_true _ _).mp hsp).2
    obtain ⟨hra, -, -, -⟩ := dsInv_no_thread_no_receivers s hinv hbt
    exact ⟨hbt, hra, by simp [dsValueOf, hav]⟩
  | enterTeamNumbers =>
    intro hmem
    rw [dsRunEnterTeamNumbers_events] at hmem
    cases hmem
  | downloadArchive =>
    intro hmem
    obtain ⟨rfl, hsp⟩ := dsRunDownloadArchive_spawnMem s i k hmem
    have hap : s.archive_path = none :=
      Option.isNone_iff_eq_none.mp ((Bool.and_eq_true _ _).mp hsp).1
    have hbt : s.background_thread = none :=
      Option.isNone_iff_eq_none.mp ((Bool.and_eq_true _ _).mp hsp).2
    obtain ⟨-, hrb, -, -⟩ := dsInv_no_thread_no_receivers s hinv hbt
    exact ⟨hbt, hrb, by simp [dsValueOf, hap]⟩
  | chooseDrive =>
    intro hmem
    obtain ⟨rfl, hsp⟩ := dsRunChooseDrive_spawnMem s i k hmem
    have had : s.available_drives = none :=
      Option.isNone_iff_eq_none.mp ((Bool.and_eq_true _ _).mp hsp).1
    have hbt : s.background_thread = none :=
      Option.isNone_iff_eq_none.mp ((Bool.and_eq_true _ _).mp hsp).2
    obtain ⟨-, -, hrc, -⟩ := dsInv_no_thread_no_receivers s hinv hbt
    exact ⟨hbt, hrc, by simp [dsValueOf, had]⟩
  | installSoftware =>
    intro hmem
    obtain ⟨rfl, hrd⟩ := dsRunInstallSoftware_spawnMem s i k hmem
    exact ⟨dsNoThreadInstall s hinv hstep hrd, hrd, rfl⟩
  | removeCard =>
    intro hmem
    rw [dsRunRemoveCard_events] at hmem
    cases hmem

/-! System-firmware page invariant. -/

def sfThreadKind (s : SfState) : Option WorkKind :=
  s.background_thread.map Prod.fst

/-- Inductive invariant of the system-firmware page. -/
def SfInv (s : SfState) : Prop :=
  (s.available_relases_receiver = true ↔ sfThreadKind s = some .releasesW) ∧
  (s.download_finished_receiver = true ↔ sfThreadKind s = some .downloadW) ∧
  (s.drive_list_receiver = true ↔ sfThreadKind s = some .drivesW) ∧
  (s.install_finished_receiver = true ↔ sfThreadKind s = some .installW) ∧
  (sfThreadKind s = some .releasesW →
    s.current_step = .chooseVersion ∧ s.available_releases = none) ∧
  (sfThreadKind s = some .downloadW →
    s.current_step = .downloadFirmware ∧ s.firmware_path = none) ∧
  (sfThreadKind s = some .drivesW →
    s.current_step = .chooseDrive ∧ s.available_drives = none) ∧
  (sfThreadKind s = some .installW → s.current_step = .installFirmware) ∧
  (s.available_releases = none → s.software_version = none) ∧
  (s.available_drives = none → s.selected_drive = none)

theorem sfInv_new : SfInv SfState.new := by
  refine ⟨?_, ?_, ?_, ?_, ?_, ?_, ?_, ?_, ?_, ?_⟩ <;> simp [SfState.new, sfThreadKind]

theorem sfInv_no_thread_no_receivers (s : SfState) (hinv : SfInv s)
    (h : s.background_thread = none) :
    s.available_relases_receiver = false ∧ s.download_finished_receiver = false ∧
    s.drive_list_receiver = false ∧ s.install_finished_receiver = false := by
  obtain ⟨h1, h2, h3, h4, -, -, -, -, -, -⟩ := hinv
  have hk : sfThreadKind s = none := by simp [sfThreadKind, h]
  refine ⟨?_, ?_, ?_, ?_⟩
  · cases hv : s.available_relases_receiver
    · rfl
    · exact absurd (h1.mp hv) (by simp [hk])
  · cases hv : s.download_finished_receiver
    · rfl
    · exact absurd (h2.mp hv) (by simp [hk])
  · cases hv : s.drive_list_receiver
    · rfl
    · exact absurd (h3.mp hv) (by simp [hk])
  · cases hv : s.install_finished_receiver
    · rfl
    · exact absurd (h4.mp hv) (by simp [hk])

theorem sfInv_idle (s : SfState) (hbt : s.background_thread = none)
    (hra : s.available_relases_receiver = false)
    (hrb : s.download_finished_receiver = false)
    (hrc : s.drive_list_receiver = false)
    (hrd : s.install_finished_receiver = false)
    (h9 : s.available_releases = none → s.software_version = none)
    (h10 : s.available_drives = none → s.selected_drive = none) :
    SfInv s := by
  refine ⟨?_, ?_, ?_, ?_, ?_, ?_, ?_, ?_, h9, h10⟩ <;>
    simp [sfThreadKind, hbt, hra, hrb, hrc, hrd]

theorem sfRecA_false (s : SfState) (hinv : SfInv s) (k : WorkKind)
    (hk : sfThreadKind s = some k) (hne : k ≠ .releasesW) :
    s.available_relases_receiver = false := by
  cases hv : s.available_relases_receiver
  · rfl
  · have := hinv.1.mp hv
    rw [hk] at this
    injection this with h
    exact absurd h hne

theorem sfRecB_false (s : SfState) (hinv : SfInv s) (k : WorkKind)
    (hk : sfThreadKind s = some k) (hne : k ≠ .downloadW) :
    s.download_finished_receiver = false := by
  cases hv : s.download_finished_receiver
  · rfl
  · have := hinv.2.1.mp hv
    rw [hk] at this
    injection this with h
    exact absurd h hne

theorem sfRecC_false (s : SfState) (hinv : SfInv s) (k : WorkKind)
    (hk : sfThreadKind s = some k) (hne : k ≠ .drivesW) :
    s.drive_list_receiver = false := by
  cases hv : s.drive_list_receiver
  · rfl
  · have := hinv.2.2.1.mp hv
    rw [hk] at this
    injection this with h
    exact absurd h hne

theorem sfRecD_false (s : SfState) (hinv : SfInv s) (k : WorkKind)
    (hk : sfThreadKind s = some k) (hne : k ≠ .installW) :
    s.install_finished_receiver = false := by
  cases hv : s.install_finished_receiver
  · rfl
  · have := hinv.2.2.2.1.mp hv
    rw [hk] at this
    injection this with h
    exact absurd h hne

theorem sfNoThread (s : SfState) (hinv : SfInv s)
    (hne1 : s.current_step ≠ .chooseVersion) (hne2 : s.current_step ≠ .downloadFirmware)
    (hne3 : s.current_step ≠ .chooseDrive) (hne4 : s.current_step ≠ .installFirmware) :
    s.background_thread = none := by
  rcases hbt : s.background_thread with - | ⟨k, w⟩
  · rfl
  · have hk : sfThreadKind s = some k := by simp [sfThreadKind, hbt]
    exfalso
    cases k
    · exact hne1 (hinv.2.2.2.2.1 hk).1
    · exact hne2 (hinv.2.2.2.2.2.1 hk).1
    · exact hne3 (hinv.2.2.2.2.2.2.1 hk).1
    · exact hne4 (hinv.2.2.2.2.2.2.2.1 hk)

theorem sfInv_set_version (s : SfState) (r : GithubRelease) (rs : List GithubRelease)
    (hinv : SfInv s) (hrs : s.available_releases = some rs) :
    SfInv { s with software_version := some r } := by
  obtain ⟨h1, h2, h3, h4, h5, h6, h7, h8, h9, h10⟩ := hinv
  refine ⟨h1, h2, h3, h4, h5, h6, h7, h8, ?_, h10⟩
  intro h
  simp only [hrs] at h
  cases h

theorem sfInv_goto_boardRevision (s : SfState) (v : GithubRelease)
    (hinv : SfInv s) (hstep : s.current_step = .chooseVersion)
    (hv : s.software_version = some v) :
    SfInv { s with current_step := .chooseBoardRevision } := by
  obtain ⟨h1, h2, h3, h4, h5, h6, h7, h8, h9, h10⟩ := hinv
  have hth : s.background_thread = none := by
    rcases hbt : s.background_thread with - | ⟨k, w⟩
    · rfl
    · exfalso
      have hk : sfThreadKind s = some k := by simp [sfThreadKind, hbt]
      cases k
      · obtain ⟨-, hrel⟩ := h5 hk
        rw [h9 hrel] at hv
        cases hv
      · obtain ⟨hs, -⟩ := h6 hk
        rw [hstep] at hs
        cases hs
      · obtain ⟨hs, -⟩ := h7 hk
        rw [hstep] at hs
        cases hs
      · have hs := h8 hk
        rw [hstep] at hs
        cases hs
  refine ⟨h1, h2, h3, h4, ?_, ?_, ?_, ?_, h9, h10⟩ <;>
    · intro h
      simp [sfThreadKind, hth] at h

theorem sfClickNext_inv (c : Bool) (s1 : SfState)
    (hinv : SfInv s1) (hstep : s1.current_step = .chooseVersion)
    (hc : c = true → s1.software_version.isSome = true) :
    SfInv (if c then { s1 with current_step := .chooseBoardRevision } else s1) := by
  cases c
  · simpa using hinv
  · simp only [if_true]
    obtain ⟨v, hv⟩ := Option.isSome_iff_exists.mp (hc rfl)
    exact sfInv_goto_boardRevision s1 v hinv hstep hv

theorem sfChooseVersionRender_inv (s : SfState) (i : SfInput) (evs : List Ev)
    (hinv : SfInv s) (hstep : s.current_step = .chooseVersion) :
    (sfChooseVersionRender s i evs).res = .ok () ∧
    SfInv (sfChooseVersionRender s i evs).state := by
  obtain ⟨st, av, sv, af, sfw, fp, ad, sd, ra, rb, rc, rd, bt⟩ := s
  have hstep' : st = .chooseVersion := hstep
  subst hstep'
  unfold sfChooseVersionRender
  rcases i.selectVersion with - | r <;> rcases av with - | rs
  · exact ⟨rfl, sfClickNext_inv _ _ hinv rfl (fun h => (Bool.and_eq_true _ _).mp h |>.2)⟩
  · exact ⟨rfl, sfClickNext_inv _ _ hinv rfl (fun h => (Bool.and_eq_true _ _).mp h |>.2)⟩
  · exact ⟨rfl, sfClickNext_inv _ _ hinv rfl (fun h => (Bool.and_eq_true _ _).mp h |>.2)⟩
  · by_cases hmem : (rs.any (fun x => x = r)) = true
    · simp only [hmem, if_true]
      refine ⟨by trivial,
        sfClickNext_inv _ _ (sfInv_set_version _ r rs hinv rfl) rfl ?_⟩
      intro h
      rfl
    · simp only [Bool.not_eq_true] at hmem
      simp only [hmem, Bool.false_eq_true, if_false]
      exact ⟨by trivial,
        sfClickNext_inv _ _ hinv rfl (fun h => (Bool.and_eq_true _ _).mp h |>.2)⟩

theorem sfInv_set_ra_false (s : SfState) (hinv : SfInv s)
    (hbt : s.background_thread = none) :
    SfInv { s with available_relases_receiver := false } := by
  obtain ⟨hra, hrb, hrc, hrd⟩ := sfInv_no_thread_no_receivers s hinv hbt
  obtain ⟨h1, h2, h3, h4, h5, h6, h7, h8, h9, h10⟩ := hinv
  refine ⟨?_, ?_, ?_, ?_, ?_, ?_, ?_, ?_, h9, h10⟩ <;>
    simp [sfThreadKind, hbt, hrb, hrc, hrd]

theorem sfChooseVersionRest_inv (s : SfState) (i : SfInput) (evs : List Ev)
    (hstep : s.current_step = .chooseVersion)
    (h1 : (s.background_thread.isNone && s.available_releases.isSome) = true →
      SfInv { s with available_relases_receiver := false })
    (h2 : (s.background_thread.isNone && s.available_releases.isSome) = false → SfInv s) :
    (sfChooseVersionRest s i evs).res = .ok () → SfInv (sfChooseVersionRest s i evs).state := by
  unfold sfChooseVersionRest
  by_cases hc : (s.background_thread.isNone && s.available_releases.isSome) = true
  · rw [hc]
    simp only [eq_self_iff_true, if_true]
    have hinv1 := h1 hc
    split
    · rename_i rs hrel
      split
      · split
        · rename_i hnone r hfind
          intro _
          exact (sfChooseVersionRender_inv _ i evs
            (sfInv_set_version _ r rs hinv1 hrel) hstep).2
        · intro h
          cases h
      · intro _
        exact (sfChooseVersionRender_inv _ i evs hinv1 hstep).2
    · intro _
      exact (sfChooseVersionRender_inv _ i evs hinv1 hstep).2
  · rw [Bool.not_eq_true] at hc
    simp only [hc, Bool.false_eq_true, if_false]
    have hinv := h2 hc
    split
    · rename_i rs hrel
      split
      · split
        · rename_i hnone r hfind
          intro _
          exact (sfChooseVersionRender_inv _ i evs
            (sfInv_set_version _ r rs hinv hrel) hstep).2
        · intro h
          cases h
      · intro _
        exact (sfChooseVersionRender_inv _ i evs hinv hstep).2
    · intro _
      exact (sfChooseVersionRender_inv _ i evs hinv hstep).2

theorem sfChooseVersionRest_inv_of_inv (s : SfState) (i : SfInput) (evs : List Ev)
    (hinv : SfInv s) (hstep : s.current_step = .chooseVersion) :
    (sfChooseVersionRest s i evs).res = .ok () → SfInv (sfChooseVersionRest s i evs).state := by
  refine sfChooseVersionRest_inv s i evs hstep ?_ (fun _ => hinv)
  intro hc
  exact sfInv_set_ra_false s hinv
    (Option.isNone_iff_eq_none.mp ((Bool.and_eq_true _ _).mp hc).1)

/-- Spawning the release-fetch worker on the system-firmware page preserves
the invariant. -/
theorem sfInv_spawn_releases (s : SfState) (w : WorkerState) (hinv : SfInv s)
    (hstep : s.current_step = .chooseVersion) (hav : s.available_releases = none)
    (hbt : s.background_thread = none) :
    SfInv { s with available_relases_receiver := true,
                   background_thread := some (.releasesW, w) } := by
  obtain ⟨hra, hrb, hrc, hrd⟩ := sfInv_no_thread_no_receivers s hinv hbt
  obtain ⟨h1, h2, h3, h4, h5, h6, h7, h8, h9, h10⟩ := hinv
  refine ⟨?_, ?_, ?_, ?_, ?_, ?_, ?_, ?_, h9, h10⟩ <;>
    simp [sfThreadKind, hra, hrb, hrc, hrd, hstep, hav]

theorem sfRunChooseVersion_inv (s : SfState) (i : SfInput)
    (hinv : SfInv s) (hstep : s.current_step = .chooseVersion) :
    (sfRunChooseVersion s i).res = .ok () → SfInv (sfRunChooseVersion s i).state := by
  have h10 := hinv.2.2.2.2.2.2.2.2.2
  unfold sfRunChooseVersion
  by_cases hsp : (s.available_releases.isNone && s.background_thread.isNone) = true
  · have hav : s.available_releases = none :=
      Option.isNone_iff_eq_none.mp ((Bool.and_eq_true _ _).mp hsp).1
    have hbt : s.background_thread = none :=
      Option.isNone_iff_eq_none.mp ((Bool.and_eq_true _ _).mp hsp).2
    obtain ⟨hra, hrb, hrc, hrd⟩ := sfInv_no_thread_no_receivers s hinv hbt
    rw [hsp]
    cases hfin : i.finished
    · cases hres : i.releasesRes with
      | ok rs =>
        exact sfChooseVersionRest_inv_of_inv _ i _ (sfInv_spawn_releases s _ hinv hstep hav hbt) hstep
      | error e =>
        exact sfChooseVersionRest_inv_of_inv _ i _ (sfInv_spawn_releases s _ hinv hstep hav hbt) hstep
    · cases hres : i.releasesRes with
      | ok rs =>
        refine sfChooseVersionRest_inv
          { s with available_relases_receiver := true, available_releases := some rs,
                   background_thread := none } i _ hstep ?_ (fun h => nomatch h)
        intro _
        exact sfInv_idle _ rfl rfl hrb hrc hrd (fun h => nomatch h) h10
      | error e =>
        exact sfChooseVersionRest_inv_of_inv _ i _ (sfInv_spawn_releases s _ hinv hstep hav hbt) hstep
  · rw [Bool.not_eq_true] at hsp
    simp only [hsp, Bool.false_eq_true, if_false]
    cases hra : s.available_relases_receiver
    · exact sfChooseVersionRest_inv_of_inv s i _ hinv hstep
    · cases hbt2 : s.background_thread with
      | none => exact sfChooseVersionRest_inv_of_inv s i _ hinv hstep
      | some kw =>
        obtain ⟨k, w⟩ := kw
        have hk : sfThreadKind s = some k := by simp [sfThreadKind, hbt2]
        have hkr : k = .releasesW := by
          have h' := hinv.1.mp hra
          rw [hk] at h'
          injection h'
        subst hkr
        cases w with
        | willPanic msg => exact sfChooseVersionRest_inv_of_inv s i _ hinv hstep
        | willSend m =>
          cases hfin : i.finished
          · exact sfChooseVersionRest_inv_of_inv s i _ hinv hstep
          · cases m with
            | mReleases rs =>
              refine sfChooseVersionRest_inv
                { s with available_releases := some rs, background_thread := none } i _
                hstep ?_ (fun h => nomatch h)
              intro _
              exact sfInv_idle _ rfl rfl
                (sfRecB_false s hinv _ hk (by simp))
                (sfRecC_false s hinv _ hk (by simp))
                (sfRecD_false s hinv _ hk (by simp))
                (fun h => nomatch h) h10
            | mPath p => exact fun h => nomatch h
            | mDrives ds => exact fun h => nomatch h
            | mUnit => exact fun h => nomatch h

theorem sfRunChooseBoardRevision_inv (s : SfState) (i : SfInput)
    (hinv : SfInv s) (hstep : s.current_step = .chooseBoardRevision) :
    (sfRunChooseBoardRevision s i).res = .ok () →
    SfInv (sfRunChooseBoardRevision s i).state := by
  have hbt : s.background_thread = none :=
    sfNoThread s hinv (by simp [hstep]) (by simp [hstep]) (by simp [hstep]) (by simp [hstep])
  obtain ⟨hra, hrb, hrc, hrd⟩ := sfInv_no_thread_no_receivers s hinv hbt
  have h9 := hinv.2.2.2.2.2.2.2.2.1
  have h10 := hinv.2.2.2.2.2.2.2.2.2
  obtain ⟨st, av, sv, af, sfw, fp, ad, sd, ra, rb, rc, rd, bt⟩ := s
  have hbt' : bt = none := hbt
  have hra' : ra = false := hra
  have hrb' : rb = false := hrb
  have hrc' : rc = false := hrc
  have hrd' : rd = false := hrd
  subst hbt' hra' hrb' hrc' hrd'
  have h9' : av = none → sv = none := h9
  have h10' : ad = none → sd = none := h10
  unfold sfRunChooseBoardRevision
  rcases ad with - | drives
  · simp only [Option.isNone_none, eq_self_iff_true, if_true]
    rcases sv with - | v
    · dsimp only
      repeat' split
      all_goals first
      | exact fun _ => sfInv_idle _ rfl rfl rfl rfl rfl h9' h10'
      | exact fun h => nomatch h
    · dsimp only
      repeat' split
      all_goals first
      | exact fun _ => sfInv_idle _ rfl rfl rfl rfl rfl h9' h10'
      | exact fun h => nomatch h
  · simp only [Option.isNone_some, Bool.false_eq_true, if_false]
    repeat' split
    all_goals first
    | exact fun _ => sfInv_idle _ rfl rfl rfl rfl rfl h9' h10'
    | exact fun h => nomatch h

theorem sfInv_goto_chooseDrive_fromDownload (s : SfState) (p : String)
    (hinv : SfInv s) (hstep : s.current_step = .downloadFirmware)
    (hfp : s.firmware_path = some p) :
    SfInv { s with current_step := .chooseDrive } := by
  obtain ⟨h1, h2, h3, h4, h5, h6, h7, h8, h9, h10⟩ := hinv
  have hth : s.background_thread = none := by
    rcases hbt : s.background_thread with - | ⟨k, w⟩
    · rfl
    · exfalso
      have hk : sfThreadKind s = some k := by simp [sfThreadKind, hbt]
      cases k
      · obtain ⟨hs, -⟩ := h5 hk
        rw [hstep] at hs
        cases hs
      · obtain ⟨-, hf⟩ := h6 hk
        rw [hf] at hfp
        cases hfp
      · obtain ⟨hs, -⟩ := h7 hk
        rw [hstep] at hs
        cases hs
      · have hs := h8 hk
        rw [hstep] at hs
        cases hs
  refine ⟨h1, h2, h3, h4, ?_, ?_, ?_, ?_, h9, h10⟩ <;>
    · intro h
      simp [sfThreadKind, hth] at h

theorem sfDownloadAdvance_inv (s : SfState) (hinv : SfInv s)
    (hstep : s.current_step = .downloadFirmware) :
    SfInv (if s.firmware_path.isSome then { s with current_step := .chooseDrive } else s) := by
  cases hfp : s.firmware_path with
  | none => exact hinv
  | some p =>
    have h := sfInv_goto_chooseDrive_fromDownload s p hinv hstep hfp
    rw [hfp] at h
    exact h

theorem sfDownloadPoll_inv (s : SfState) (evs : List Ev) (fin : Bool)
    (hinv : SfInv s) (hstep : s.current_step = .downloadFirmware) :
    (sfDownloadPoll s evs fin).res = .ok () → SfInv (sfDownloadPoll s evs fin).state := by
  have h9 := hinv.2.2.2.2.2.2.2.2.1
  have h10 := hinv.2.2.2.2.2.2.2.2.2
  unfold sfDownloadPoll
  cases hrb : s.download_finished_receiver
  · simp only [Bool.false_eq_true, if_false]
    exact fun _ => sfDownloadAdvance_inv s hinv hstep
  · simp only [eq_self_iff_true, if_true]
    cases hbt2 : s.background_thread with
    | none =>
      dsimp only [sfTryRecv]
      exact fun _ => sfDownloadAdvance_inv s hinv hstep
    | some kw =>
      obtain ⟨k, w⟩ := kw
      have hk : sfThreadKind s = some k := by simp [sfThreadKind, hbt2]
      have hkr : k = .downloadW := by
        have h' := hinv.2.1.mp hrb
        rw [hk] at h'
        injection h'
      subst hkr
      cases w with
      | willPanic msg =>
        dsimp only [sfTryRecv]
        exact fun _ => sfDownloadAdvance_inv s hinv hstep
      | willSend m =>
        cases fin
        · dsimp only [sfTryRecv]
          exact fun _ => sfDownloadAdvance_inv s hinv hstep
        · cases m with
          | mPath p =>
            intro _
            exact sfInv_idle _ rfl
              (sfRecA_false s hinv _ hk (by simp)) rfl
              (sfRecC_false s hinv _ hk (by simp))
              (sfRecD_false s hinv _ hk (by simp))
              h9 h10
          | mReleases rs => exact fun h => nomatch h
          | mDrives ds => exact fun h => nomatch h
          | mUnit => exact fun h => nomatch h

/-- Spawning the firmware-download worker preserves the invariant. -/
theorem sfInv_spawn_download (s : SfState) (w : WorkerState) (hinv : SfInv s)
    (hstep : s.current_step = .downloadFirmware) (hfp : s.firmware_path = none)
    (hbt : s.background_thread = none) :
    SfInv { s with download_finished_receiver := true,
                   background_thread := some (.downloadW, w) } := by
  obtain ⟨hra, hrb, hrc, hrd⟩ := sfInv_no_thread_no_receivers s hinv hbt
  obtain ⟨h1, h2, h3, h4, h5, h6, h7, h8, h9, h10⟩ := hinv
  refine ⟨?_, ?_, ?_, ?_, ?_, ?_, ?_, ?_, h9, h10⟩ <;>
    simp [sfThreadKind, hra, hrb, hrc, hrd, hstep, hfp]

theorem sfRunDownloadFirmware_inv (s : SfState) (i : SfInput)
    (hinv : SfInv s) (hstep : s.current_step = .downloadFirmware) :
    (sfRunDownloadFirmware s i).res = .ok () → SfInv (sfRunDownloadFirmware s i).state := by
  unfold sfRunDownloadFirmware
  by_cases hsp : (s.firmware_path.isNone && s.background_thread.isNone) = true
  · have hfp : s.firmware_path = none :=
      Option.isNone_iff_eq_none.mp ((Bool.and_eq_true _ _).mp hsp).1
    have hbt : s.background_thread = none :=
      Option.isNone_iff_eq_none.mp ((Bool.and_eq_true _ _).mp hsp).2
    rw [hsp]
    cases hsv : s.software_version with
    | none =>
      cases hsfw : s.selected_firmware with
      | none => exact fun h => nomatch h
      | some f => exact fun h => nomatch h
    | some v =>
      cases hsfw : s.selected_firmware with
      | none => exact fun h => nomatch h
      | some f =>
        have hinv' : SfInv { s with software_version := some v, selected_firmware := some f } := by
          rw [← hsv, ← hsfw]
          exact hinv
        exact sfDownloadPoll_inv
          { s with software_version := some v, selected_firmware := some f,
                   download_finished_receiver := true,
                   background_thread := some (.downloadW, sfDownloadClosure i.downloadRes) }
          [.spawnEv .downloadW] i.finished
          (sfInv_spawn_download { s with software_version := some v, selected_firmware := some f }
            _ hinv' hstep hfp hbt) hstep
  · rw [Bool.not_eq_true] at hsp
    simp only [hsp, Bool.false_eq_true, if_false]
    exact sfDownloadPoll_inv s [] i.finished hinv hstep

theorem sfInv_set_drive (s : SfState) (d : DriveInfo) (ds : List DriveInfo)
    (hinv : SfInv s) (hads : s.available_drives = some ds) :
    SfInv { s with selected_drive := some d } := by
  obtain ⟨h1, h2, h3, h4, h5, h6, h7, h8, h9, h10⟩ := hinv
  refine ⟨h1, h2, h3, h4, h5, h6, h7, h8, h9, ?_⟩
  intro h
  simp only [hads] at h
  cases h

theorem sfInv_refresh (s : SfState) (hinv : SfInv s) :
    SfInv { s with available_drives := none, selected_drive := none } := by
  obtain ⟨h1, h2, h3, h4, h5, h6, h7, h8, h9, h10⟩ := hinv
  exact ⟨h1, h2, h3, h4, h5, h6, fun h => ⟨(h7 h).1, rfl⟩, h8, h9, fun _ => rfl⟩

theorem sfInv_goto_installFirmware (s : SfState) (d : DriveInfo)
    (hinv : SfInv s) (hstep : s.current_step = .chooseDrive)
    (hsd : s.selected_drive = some d) :
    SfInv { s with current_step := .installFirmware } := by
  obtain ⟨h1, h2, h3, h4, h5, h6, h7, h8, h9, h10⟩ := hinv
  have hth : s.background_thread = none := by
    rcases hbt : s.background_thread with - | ⟨k, w⟩
    · rfl
    · exfalso
      have hk : sfThreadKind s = some k := by simp [sfThreadKind, hbt]
      cases k
      · obtain ⟨hs, -⟩ := h5 hk
        rw [hstep] at hs
        cases hs
      · obtain ⟨hs, -⟩ := h6 hk
        rw [hstep] at hs
        cases hs
      · obtain ⟨-, had⟩ := h7 hk
        rw [h10 had] at hsd
        cases hsd
      · have hs := h8 hk
        rw [hstep] at hs
        cases hs
  refine ⟨h1, h2, h3, h4, ?_, ?_, ?_, ?_, h9, h10⟩ <;>
    · intro h
      simp [sfThreadKind, hth] at h

theorem sfRefreshIf_inv (c : Bool) (s : SfState) (hinv : SfInv s) :
    SfInv (if c then { s with available_drives := none, selected_drive := none } else s) ∧
    (if c then { s with available_drives := none, selected_drive := none } else s).current_step
      = s.current_step := by
  cases c
  · exact ⟨hinv, rfl⟩
  · exact ⟨sfInv_refresh s hinv, rfl⟩

theorem sfInstallClickIf_inv (c : Bool) (s : SfState) (hinv : SfInv s)
    (hstep : s.current_step = .chooseDrive)
    (hc : c = true → s.selected_drive.isSome = true) :
    SfInv (if c then { s with current_step := .installFirmware } else s) := by
  cases c
  · simpa using hinv
  · simp only [if_true]
    obtain ⟨d, hd⟩ := Option.isSome_iff_exists.mp (hc rfl)
    exact sfInv_goto_installFirmware s d hinv hstep hd

theorem sfChooseDriveRender_inv (s : SfState) (i : SfInput) (evs : List Ev)
    (hinv : SfInv s) (hstep : s.current_step = .chooseDrive) :
    (sfChooseDriveRender s i evs).res = .ok () → SfInv (sfChooseDriveRender s i evs).state := by
  obtain ⟨st, av, sv, af, sfw, fp, ad, sd, ra, rb, rc, rd, bt⟩ := s
  have hstep' : st = .chooseDrive := hstep
  subst hstep'
  unfold sfChooseDriveRender
  intro _
  rcases i.selectDrive with - | d <;> rcases ad with - | ds
  · exact sfInstallClickIf_inv _ _ (sfRefreshIf_inv _ _ hinv).1
      ((sfRefreshIf_inv _ _ hinv).2.trans rfl) (fun h => (Bool.and_eq_true _ _).mp h |>.2)
  · exact sfInstallClickIf_inv _ _ (sfRefreshIf_inv _ _ hinv).1
      ((sfRefreshIf_inv _ _ hinv).2.trans rfl) (fun h => (Bool.and_eq_true _ _).mp h |>.2)
  · exact sfInstallClickIf_inv _ _ (sfRefreshIf_inv _ _ hinv).1
      ((sfRefreshIf_inv _ _ hinv).2.trans rfl) (fun h => (Bool.and_eq_true _ _).mp h |>.2)
  · by_cases hmem : (ds.any (fun x => x = d)) = true
    · simp only [hmem, if_true]
      have hinv1 := sfInv_set_drive _ d ds hinv rfl
      exact sfInstallClickIf_inv _ _ (sfRefreshIf_inv _ _ hinv1).1
        ((sfRefreshIf_inv _ _ hinv1).2.trans rfl) (fun h => (Bool.and_eq_true _ _).mp h |>.2)
    · simp only [Bool.not_eq_true] at hmem
      simp only [hmem, Bool.false_eq_true, if_false]
      exact sfInstallClickIf_inv _ _ (sfRefreshIf_inv _ _ hinv).1
        ((sfRefreshIf_inv _ _ hinv).2.trans rfl) (fun h => (Bool.and_eq_true _ _).mp h |>.2)

/-- Spawning the drive-enumeration worker from an idle ChooseDrive state
preserves the invariant. -/
theorem sfInv_spawn_drives (s : SfState) (w : WorkerState) (hinv : SfInv s)
    (hstep : s.current_step = .chooseDrive) (had : s.available_drives = none)
    (hbt : s.background_thread = none) :
    SfInv { s with drive_list_receiver := true,
                   background_thread := some (.drivesW, w) } := by
  obtain ⟨hra, hrb, hrc, hrd⟩ := sfInv_no_thread_no_receivers s hinv hbt
  obtain ⟨h1, h2, h3, h4, h5, h6, h7, h8, h9, h10⟩ := hinv
  refine ⟨?_, ?_, ?_, ?_, ?_, ?_, ?_, ?_, h9, h10⟩ <;>
    simp [sfThreadKind, hra, hrb, hrc, hrd, hstep, had]

theorem sfRunChooseDrive_inv (s : SfState) (i : SfInput)
    (hinv : SfInv s) (hstep : s.current_step = .chooseDrive) :
    (sfRunChooseDrive s i).res = .ok () → SfInv (sfRunChooseDrive s i).state := by
  have h9 := hinv.2.2.2.2.2.2.2.2.1
  unfold sfRunChooseDrive
  by_cases hsp : (s.available_drives.isNone && s.background_thread.isNone) = true
  · have had : s.available_drives = none :=
      Option.isNone_iff_eq_none.mp ((Bool.and_eq_true _ _).mp hsp).1
    have hbt : s.background_thread = none :=
      Option.isNone_iff_eq_none.mp ((Bool.and_eq_true _ _).mp hsp).2
    obtain ⟨hra, hrb, hrc, hrd⟩ := sfInv_no_thread_no_receivers s hinv hbt
    rw [hsp]
    cases hfin : i.finished
    · cases hres : i.drivesRes with
      | ok ds =>
        exact sfChooseDriveRender_inv _ i _ (sfInv_spawn_drives s _ hinv hstep had hbt) hstep
      | error e =>
        exact sfChooseDriveRender_inv _ i _ (sfInv_spawn_drives s _ hinv hstep had hbt) hstep
    · cases hres : i.drivesRes with
      | ok ds =>
        exact sfChooseDriveRender_inv
          { s with available_drives := some ds, drive_list_receiver := false,
                   background_thread := none } i _
          (sfInv_idle _ rfl hra hrb rfl hrd h9 (fun h => nomatch h)) hstep
      | error e =>
        exact sfChooseDriveRender_inv _ i _ (sfInv_spawn_drives s _ hinv hstep had hbt) hstep
  · rw [Bool.not_eq_true] at hsp
    simp only [hsp, Bool.false_eq_true, if_false]
    cases hrc2 : s.drive_list_receiver
    · exact sfChooseDriveRender_inv s i _ hinv hstep
    · cases hbt2 : s.background_thread with
      | none => exact sfChooseDriveRender_inv s i _ hinv hstep
      | some kw =>
        obtain ⟨k, w⟩ := kw
        have hk : sfThreadKind s = some k := by simp [sfThreadKind, hbt2]
        have hkr : k = .drivesW := by
          have h' := hinv.2.2.1.mp hrc2
          rw [hk] at h'
          injection h'
        subst hkr
        cases w with
        | willPanic msg => exact sfChooseDriveRender_inv s i _ hinv hstep
        | willSend m =>
          cases hfin : i.finished
          · exact sfChooseDriveRender_inv s i _ hinv hstep
          · cases m with
            | mDrives ds =>
              exact sfChooseDriveRender_inv
                { s with available_drives := some ds, drive_list_receiver := false,
                         background_thread := none } i _
                (sfInv_idle _ rfl
                  (sfRecA_false s hinv _ hk (by simp))
                  (sfRecB_false s hinv _ hk (by simp))
                  rfl
                  (sfRecD_false s hinv _ hk (by simp))
                  h9 (fun h => nomatch h)) hstep
            | mReleases rs => exact fun h => nomatch h
            | mPath p => exact fun h => nomatch h
            | mUnit => exact fun h => nomatch h

theorem sfNoThreadInstall (s : SfState) (hinv : SfInv s)
    (hstep : s.current_step = .installFirmware)
    (hrd : s.install_finished_receiver = false) :
    s.background_thread = none := by
  rcases hbt : s.background_thread with - | ⟨k, w⟩
  · rfl
  · have hk : sfThreadKind s = some k := by simp [sfThreadKind, hbt]
    exfalso
    cases k
    · have hs := (hinv.2.2.2.2.1 hk).1
      rw [hstep] at hs
      cases hs
    · have hs := (hinv.2.2.2.2.2.1 hk).1
      rw [hstep] at hs
      cases hs
    · have hs := (hinv.2.2.2.2.2.2.1 hk).1
      rw [hstep] at hs
      cases hs
    · have := hinv.2.2.2.1.mpr hk
      rw [hrd] at this
      cases this

/-- Spawning the firmware-copy worker preserves the invariant. -/
theorem sfInv_spawn_install (s : SfState) (w : WorkerState) (hinv : SfInv s)
    (hstep : s.current_step = .installFirmware)
    (hbt : s.background_thread = none) :
    SfInv { s with install_finished_receiver := true,
                   background_thread := some (.installW, w) } := by
  obtain ⟨hra, hrb, hrc, hrd⟩ := sfInv_no_thread_no_receivers s hinv hbt
  obtain ⟨h1, h2, h3, h4, h5, h6, h7, h8, h9, h10⟩ := hinv
  refine ⟨?_, ?_, ?_, ?_, ?_, ?_, ?_, ?_, h9, h10⟩ <;>
    simp [sfThreadKind, hra, hrb, hrc, hrd, hstep]

theorem sfRunInstallFirmware_inv (s : SfState) (i : SfInput)
    (hinv : SfInv s) (hstep : s.current_step = .installFirmware) :
    (sfRunInstallFirmware s i).res = .ok () → SfInv (sfRunInstallFirmware s i).state := by
  have h9 := hinv.2.2.2.2.2.2.2.2.1
  have h10 := hinv.2.2.2.2.2.2.2.2.2
  unfold sfRunInstallFirmware
  by_cases hg : (!s.install_finished_receiver) = true
  · have hrd : s.install_finished_receiver = false := by
      rwa [Bool.not_eq_true'] at hg
    have hbt : s.background_thread = none := sfNoThreadInstall s hinv hstep hrd
    obtain ⟨hra, hrb, hrc, -⟩ := sfInv_no_thread_no_receivers s hinv hbt
    rw [hg]
    dsimp only
    cases hfp : s.firmware_path with
    | none => exact fun h => nomatch h
    | some p =>
      cases hsd : s.selected_drive with
      | none => exact fun h => nomatch h
      | some d =>
        have hinv' : SfInv { s with firmware_path := some p, selected_drive := some d } := by
          rw [← hfp, ← hsd]
          exact hinv
        have h10' : s.available_drives = none → (some d : Option DriveInfo) = none := by
          rw [← hsd]
          exact h10
        cases hfin : i.finished
        · cases hco : i.copyRes with
          | ok u =>
            cases u
            exact fun _ => sfInv_spawn_install _ _ hinv' hstep hbt
          | error e =>
            exact fun _ => sfInv_spawn_install _ _ hinv' hstep hbt
        · cases hco : i.copyRes with
          | ok u =>
            cases u
            exact fun _ => sfInv_idle _ rfl hra hrb hrc rfl h9 h10'
          | error e =>
            exact fun _ => sfInv_spawn_install _ _ hinv' hstep hbt
  · rw [Bool.not_eq_true] at hg
    have hrd2 : s.install_finished_receiver = true := by
      simpa using hg
    simp only [hg, Bool.false_eq_true, if_false]
    simp only [hrd2, eq_self_iff_true, if_true]
    cases hbt2 : s.background_thread with
    | none => exact fun _ => hinv
    | some kw =>
      obtain ⟨k, w⟩ := kw
      have hk : sfThreadKind s = some k := by simp [sfThreadKind, hbt2]
      have hkr : k = .installW := by
        have h' := hinv.2.2.2.1.mp hrd2
        rw [hk] at h'
        injection h'
      subst hkr
      cases w with
      | willPanic msg => exact fun _ => hinv
      | willSend m =>
        cases hfin : i.finished
        · exact fun _ => hinv
        · cases m with
          | mUnit =>
            intro _
            exact sfInv_idle _ rfl
              (sfRecA_false s hinv _ hk (by simp))
              (sfRecB_false s hinv _ hk (by simp))
              (sfRecC_false s hinv _ hk (by simp))
              rfl h9 h10
          | mReleases rs => exact fun h => nomatch h
          | mPath p => exact fun h => nomatch h
          | mDrives ds => exact fun h => nomatch h

theorem sfRunPostInstall_inv (s : SfState) (i : SfInput)
    (hinv : SfInv s) (hstep : s.current_step = .postInstall) :
    (sfRunPostInstall s i).res = .ok () → SfInv (sfRunPostInstall s i).state := by
  have hbt : s.background_thread = none :=
    sfNoThread s hinv (by simp [hstep]) (by simp [hstep]) (by simp [hstep]) (by simp [hstep])
  obtain ⟨hra, hrb, hrc, hrd⟩ := sfInv_no_thread_no_receivers s hinv hbt
  have h9 := hinv.2.2.2.2.2.2.2.2.1
  unfold sfRunPostInstall
  dsimp only
  intro _
  split
  · exact sfInv_idle _ hbt hra hrb hrc hrd h9 (fun _ => rfl)
  · exact hinv

theorem sfTick_inv (s : SfState) (i : SfInput) (hinv : SfInv s) :
    (sfTick s i).res = .ok () → SfInv (sfTick s i).state := by
  unfold sfTick
  cases hstep : s.current_step with
  | chooseVersion => exact sfRunChooseVersion_inv s i hinv hstep
  | chooseBoardRevision => exact sfRunChooseBoardRevision_inv s i hinv hstep
  | downloadFirmware => exact sfRunDownloadFirmware_inv s i hinv hstep
  | chooseDrive => exact sfRunChooseDrive_inv s i hinv hstep
  | installFirmware => exact sfRunInstallFirmware_inv s i hinv hstep
  | postInstall => exact sfRunPostInstall_inv s i hinv hstep

/-- Reachable states of the system-firmware page. -/
inductive SfReach : SfState → Prop
  | init : SfReach SfState.new
  | tick (s : SfState) (i : SfInput) (h : SfReach s)
      (hok : (sfTick s i).res = .ok ()) : SfReach (sfTick s i).state

theorem sfReach_inv (s : SfState) (h : SfReach s) : SfInv s := by
  induction h with
  | init => exact sfInv_new
  | tick s i h hok ih => exact sfTick_inv s i ih hok

theorem sfChooseVersionRender_events (s : SfState) (i : SfInput) (evs : List Ev) :
    (sfChooseVersionRender s i evs).events = evs := by
  unfold sfChooseVersionRender
  dsimp only
  repeat' split
  all_goals rfl

theorem sfChooseVersionRest_events (s : SfState) (i : SfInput) (evs : List Ev) :
    (sfChooseVersionRest s i evs).events = evs := by
  unfold sfChooseVersionRest
  dsimp only
  repeat' split
  all_goals first
  | rfl
  | apply sfChooseVersionRender_events

theorem sfChooseDriveRender_events (s : SfState) (i : SfInput) (evs : List Ev) :
    (sfChooseDriveRender s i evs).events = evs := by
  unfold sfChooseDriveRender
  repeat' split
  all_goals rfl

theorem sfRunChooseBoardRevision_events (s : SfState) (i : SfInput) :
    (sfRunChooseBoardRevision s i).events = [] := by
  unfold sfRunChooseBoardRevision
  dsimp only
  repeat' split
  all_goals rfl

theorem sfRunPostInstall_events (s : SfState) (i : SfInput) :
    (sfRunPostInstall s i).events = [] := rfl

theorem sfRunChooseVersion_spawnMem (s : SfState) (i : SfInput) (k : WorkKind)
    (hmem : Ev.spawnEv k ∈ (sfRunChooseVersion s i).events) :
    k = .releasesW ∧ (s.available_releases.isNone && s.background_thread.isNone) = true := by
  unfold sfRunChooseVersion at hmem
  by_cases hsp : (s.available_releases.isNone && s.background_thread.isNone) = true
  · refine ⟨?_, hsp⟩
    rw [hsp] at hmem
    revert hmem
    cases hfin : i.finished
    · cases hres : i.releasesRes with
      | ok rs =>
        intro hmem
        simp [sfChooseVersionRest_events, sfReleasesClosure, sfTryRecv] at hmem
        exact hmem
      | error e =>
        intro hmem
        simp [sfChooseVersionRest_events, sfReleasesClosure, sfTryRecv] at hmem
        exact hmem
    · cases hres : i.releasesRes with
      | ok rs =>
        intro hmem
        simp [sfChooseVersionRest_events, sfReleasesClosure, sfTryRecv] at hmem
        exact hmem
      | error e =>
        intro hmem
        simp [sfChooseVersionRest_events, sfReleasesClosure, sfTryRecv] at hmem
        exact hmem
  · rw [Bool.not_eq_true] at hsp
    simp only [hsp, Bool.false_eq_true, if_false] at hmem
    exfalso
    revert hmem
    cases hra2 : s.available_relases_receiver
    · intro hmem
      simp [sfChooseVersionRest_events] at hmem
    · cases hbt2 : s.background_thread with
      | none =>
        intro hmem
        simp [sfChooseVersionRest_events, sfTryRecv] at hmem
      | some kw =>
        obtain ⟨k', w⟩ := kw
        cases w with
        | willPanic msg =>
          intro hmem
          simp [sfChooseVersionRest_events, sfTryRecv] at hmem
        | willSend m =>
          cases hfin : i.finished
          · intro hmem
            simp [sfChooseVersionRest_events, sfTryRecv] at hmem
          · cases m with
            | mReleases rs =>
              intro hmem
              simp [sfChooseVersionRest_events, sfTryRecv] at hmem
            | mPath p =>
              intro hmem
              simp [sfTryRecv] at hmem
            | mDrives ds =>
              intro hmem
              simp [sfTryRecv] at hmem
            | mUnit =>
              intro hmem
              simp [sfTryRecv] at hmem

theorem sfDownloadPoll_spawnMem (s : SfState) (evs : List Ev) (fin : Bool) (k : WorkKind)
    (hmem : Ev.spawnEv k ∈ (sfDownloadPoll s evs fin).events) :
    Ev.spawnEv k ∈ evs := by
  revert hmem
  unfold sfDownloadPoll
  cases hrb : s.download_finished_receiver
  · simp only [Bool.false_eq_true, if_false]
    exact fun hmem => hmem
  · simp only [eq_self_iff_true, if_true]
    cases hbt2 : s.background_thread with
    | none =>
      intro hmem
      simpa [sfTryRecv] using hmem
    | some kw =>
      obtain ⟨k', w⟩ := kw
      cases w with
      | willPanic msg =>
        intro hmem
        simpa [sfTryRecv] using hmem
      | willSend m =>
        cases fin
        · intro hmem
          simpa [sfTryRecv] using hmem
        · cases m with
          | mPath p =>
            intro hmem
            simpa [sfTryRecv] using hmem
          | mReleases rs =>
            intro hmem
            simpa [sfTryRecv] using hmem
          | mDrives ds =>
            intro hmem
            simpa [sfTryRecv] using hmem
          | mUnit =>
            intro hmem
            simpa [sfTryRecv] using hmem

theorem sfRunDownloadFirmware_spawnMem (s : SfState) (i : SfInput) (k : WorkKind)
    (hmem : Ev.spawnEv k ∈ (sfRunDownloadFirmware s i).events) :
    k = .downloadW ∧ (s.firmware_path.isNone && s.background_thread.isNone) = true := by
  unfold sfRunDownloadFirmware at hmem
  by_cases hsp : (s.firmware_path.isNone && s.background_thread.isNone) = true
  · refine ⟨?_, hsp⟩
    rw [hsp] at hmem
    revert hmem
    cases hsv : s.software_version with
    | none =>
      cases hsfw : s.selected_firmware with
      | none =>
        intro hmem
        simp at hmem
      | some f =>
        intro hmem
        simp at hmem
    | some v =>
      cases hsfw : s.selected_firmware with
      | none =>
        intro hmem
        simp at hmem
      | some f =>
        intro hmem
        dsimp only at hmem
        simp only [eq_self_iff_true, if_true] at hmem
        have h' := sfDownloadPoll_spawnMem _ _ _ _ hmem
        simpa using h'
  · rw [Bool.not_eq_true] at hsp
    simp only [hsp, Bool.false_eq_true, if_false] at hmem
    have h' := sfDownloadPoll_spawnMem _ _ _ _ hmem
    simp at h'

theorem sfRunChooseDrive_spawnMem (s : SfState) (i : SfInput) (k : WorkKind)
    (hmem : Ev.spawnEv k ∈ (sfRunChooseDrive s i).events) :
    k = .drivesW ∧ (s.available_drives.isNone && s.background_thread.isNone) = true := by
  unfold sfRunChooseDrive at hmem
  by_cases hsp : (s.available_drives.isNone && s.background_thread.isNone) = true
  · refine ⟨?_, hsp⟩
    rw [hsp] at hmem
    revert hmem
    cases hfin : i.finished
    · cases hres : i.drivesRes with
      | ok ds =>
        intro hmem
        simp [sfChooseDriveRender_events, sfDrivesClosure, sfTryRecv] at hmem
        exact hmem
      | error e =>
        intro hmem
        simp [sfChooseDriveRender_events, sfDrivesClosure, sfTryRecv] at hmem
        exact hmem
    · cases hres : i.drivesRes with
      | ok ds =>
        intro hmem
        simp [sfChooseDriveRender_events, sfDrivesClosure, sfTryRecv] at hmem
        exact hmem
      | error e =>
        intro hmem
        simp [sfChooseDriveRender_events, sfDrivesClosure, sfTryRecv] at hmem
        exact hmem
  · rw [Bool.not_eq_true] at hsp
    simp only [hsp, Bool.false_eq_true, if_false] at hmem
    exfalso
    revert hmem
    cases hrc2 : s.drive_list_receiver
    · intro hmem
      simp [sfChooseDriveRender_events] at hmem
    · cases hbt2 : s.background_thread with
      | none =>
        intro hmem
        simp [sfChooseDriveRender_events, sfTryRecv] at hmem
      | some kw =>
        obtain ⟨k', w⟩ := kw
        cases w with
        | willPanic msg =>
          intro hmem
          simp [sfChooseDriveRender_events, sfTryRecv] at hmem
        | willSend m =>
          cases hfin : i.finished
          · intro hmem
            simp [sfChooseDriveRender_events, sfTryRecv] at hmem
          · cases m with
            | mDrives ds =>
              intro hmem
              simp [sfChooseDriveRender_events, sfTryRecv] at hmem
            | mReleases rs =>
              intro hmem
              simp [sfTryRecv] at hmem
            | mPath p =>
              intro hmem
              simp [sfTryRecv] at hmem
            | mUnit =>
              intro hmem
              simp [sfTryRecv] at hmem

theorem sfRunInstallFirmware_spawnMem (s : SfState) (i : SfInput) (k : WorkKind)
    (hmem : Ev.spawnEv k ∈ (sfRunInstallFirmware s i).events) :
    k = .installW ∧ s.install_finished_receiver = false := by
  unfold sfRunInstallFirmware at hmem
  by_cases hg : (!s.install_finished_receiver) = true
  · refine ⟨?_, by rwa [Bool.not_eq_true'] at hg⟩
    rw [hg] at hmem
    dsimp only at hmem
    revert hmem
    cases hfp : s.firmware_path with
    | none =>
      intro hmem
      simp at hmem
    | some p =>
      cases hsd : s.selected_drive with
      | none =>
        intro hmem
        simp at hmem
      | some d =>
        cases hfin : i.finished
        · cases hco : i.copyRes with
          | ok u =>
            cases u
            intro hmem
            simp [sfInstallClosure, sfTryRecv] at hmem
            exact hmem
          | error e =>
            intro hmem
            simp [sfInstallClosure, sfTryRecv] at hmem
            exact hmem
        · cases hco : i.copyRes with
          | ok u =>
            cases u
            intro hmem
            simp [sfInstallClosure, sfTryRecv] at hmem
            exact hmem
          | error e =>
            intro hmem
            simp [sfInstallClosure, sfTryRecv] at hmem
            exact hmem
  · rw [Bool.not_eq_true] at hg
    have hrd2 : s.install_finished_receiver = true := by
      simpa using hg
    simp only [hg, Bool.false_eq_true, if_false] at hmem
    simp only [hrd2, eq_self_iff_true, if_true] at hmem
    exfalso
    revert hmem
    cases hbt2 : s.background_thread with
    | none =>
      intro hmem
      simp [sfTryRecv] at hmem
    | some kw =>
      obtain ⟨k', w⟩ := kw
      cases w with
      | willPanic msg =>
        intro hmem
        simp [sfTryRecv] at hmem
      | willSend m =>
        cases hfin : i.finished
        · intro hmem
          simp [sfTryRecv] at hmem
        · cases m with
          | mUnit =>
            intro hmem
            simp [sfTryRecv] at hmem
          | mReleases rs =>
            intro hmem
            simp [sfTryRecv] at hmem
          | mPath p =>
            intro hmem
            simp [sfTryRecv] at hmem
          | mDrives ds =>
            intro hmem
            simp [sfTryRecv] at hmem

/-- The receiver slot a worker of kind `k` reports through on the
system-firmware page (field names as in the source, including the
`available_relases_receiver` typo). -/
def sfReceiverOf (k : WorkKind) (s : SfState) : Bool :=
  match k with
  | .releasesW => s.available_relases_receiver
  | .downloadW => s.download_finished_receiver
  | .drivesW => s.drive_list_receiver
  | .installW => s.install_finished_receiver

/-- Whether the value a worker of kind `k` would produce is already stored
in this page's session state. -/
def sfValueOf (k : WorkKind) (s : SfState) : Bool :=
  match k with
  | .releasesW => s.available_releases.isSome
  | .downloadW => s.firmware_path.isSome
  | .drivesW => s.available_drives.isSome
  | .installW => false

theorem sfTick_spawn_safe (s : SfState) (i : SfInput) (k : WorkKind)
    (hreach : SfReach s) (hmem : Ev.spawnEv k ∈ (sfTick s i).events) :
    s.background_thread = none ∧ sfReceiverOf k s = false ∧ sfValueOf k s = false := by
  have hinv := sfReach_inv s hreach
  revert hmem
  unfold sfTick
  cases hstep : s.current_step with
  | chooseVersion =>
    intro hmem
    obtain ⟨rfl, hsp⟩ := sfRunChooseVersion_spawnMem s i k hmem
    have hav : s.available_releases = none :=
      Option.isNone_iff_eq_none.mp ((Bool.and_eq_true _ _).mp hsp).1
    have hbt : s.background_thread = none :=
      Option.isNone_iff_eq_none.mp ((Bool.and_eq_true _ _).mp hsp).2
    obtain ⟨hra, -, -, -⟩ := sfInv_no_thread_no_receivers s hinv hbt
    exact ⟨hbt, hra, by simp [sfValueOf, hav]⟩
  | chooseBoardRevision =>
    intro hmem
    rw [sfRunChooseBoardRevision_events] at hmem
    cases hmem
  | downloadFirmware =>
    intro hmem
    obtain ⟨rfl, hsp⟩ := sfRunDownloadFirmware_spawnMem s i k hmem
    have hfp : s.firmware_path = none :=
      Option.isNone_iff_eq_none.mp ((Bool.and_eq_true _ _).mp hsp).1
    have hbt : s.background_thread = none :=
      Option.isNone_iff_eq_none.mp ((Bool.and_eq_true _ _).mp hsp).2
    obtain ⟨-, hrb, -, -⟩ := sfInv_no_thread_no_receivers s hinv hbt
    exact ⟨hbt, hrb, by simp [sfValueOf, hfp]⟩
  | chooseDrive =>
    intro hmem
    obtain ⟨rfl, hsp⟩ := sfRunChooseDrive_spawnMem s i k hmem
    have had : s.available_drives = none :=
      Option.isNone_iff_eq_none.mp ((Bool.and_eq_true _ _).mp hsp).1
    have hbt : s.background_thread = none :=
      Option.isNone_iff_eq_none.mp ((Bool.and_eq_true _ _).mp hsp).2
    obtain ⟨-, -, hrc, -⟩ := sfInv_no_thread_no_receivers s hinv hbt
    exact ⟨hbt, hrc, by simp [sfValueOf, had]⟩
  | installFirmware =>
    intro hmem
    obtain ⟨rfl, hrd⟩ := sfRunInstallFirmware_spawnMem s i k hmem
    exact ⟨sfNoThreadInstall s hinv hstep hrd, hrd, rfl⟩
  | postInstall =>
    intro hmem
    rw [sfRunPostInstall_events] at hmem
    cases hmem

/-! Student-starter-code page invariant. -/

def scThreadKind (s : ScState) : Option WorkKind :=
  s.background_thread.map Prod.fst

/-- Inductive invariant of the student-starter-code page. -/
def ScInv (s : ScState) : Prop :=
  (s.available_releases_receiver = true ↔ scThreadKind s = some .releasesW) ∧
  (s.download_finished_receiver = true ↔ scThreadKind s = some .downloadW) ∧
  (s.drive_list_receiver = true ↔ scThreadKind s = some .drivesW) ∧
  (s.install_finished_receiver = true ↔ scThreadKind s = some .installW) ∧
  (scThreadKind s = some .releasesW →
    s.current_step = .chooseVersion ∧ s.available_releases = none) ∧
  (scThreadKind s = some .downloadW →
    s.current_step = .downloadFirmware ∧ s.firmware_path = none) ∧
  (scThreadKind s = some .drivesW →
    s.current_step = .chooseDrive ∧ s.available_drives = none) ∧
  (scThreadKind s = some .installW → s.current_step = .installFirmware) ∧
  (s.available_releases = none → s.software_version = none) ∧
  (s.available_drives = none → s.selected_drive = none)

theorem scInv_new : ScInv ScState.new := by
  refine ⟨?_, ?_, ?_, ?_, ?_, ?_, ?_, ?_, ?_, ?_⟩ <;> simp [ScState.new, scThreadKind]

theorem scInv_no_thread_no_receivers (s : ScState) (hinv : ScInv s)
    (h : s.background_thread = none) :
    s.available_releases_receiver = false ∧ s.download_finished_receiver = false ∧
    s.drive_list_receiver = false ∧ s.install_finished_receiver = false := by
  obtain ⟨h1, h2, h3, h4, -, -, -, -, -, -⟩ := hinv
  have hk : scThreadKind s = none := by simp [scThreadKind, h]
  refine ⟨?_, ?_, ?_, ?_⟩
  · cases hv : s.available_releases_receiver
    · rfl
    · exact absurd (h1.mp hv) (by simp [hk])
  · cases hv : s.download_finished_receiver
    · rfl
    · exact absurd (h2.mp hv) (by simp [hk])
  · cases hv : s.drive_list_receiver
    · rfl
    · exact absurd (h3.mp hv) (by simp [hk])
  · cases hv : s.install_finished_receiver
    · rfl
    · exact absurd (h4.mp hv) (by simp [hk])

theorem scInv_idle (s : ScState) (hbt : s.background_thread = none)
    (hra : s.available_releases_receiver = false)
    (hrb : s.download_finished_receiver = false)
    (hrc : s.drive_list_receiver = false)
    (hrd : s.install_finished_receiver = false)
    (h9 : s.available_releases = none → s.software_version = none)
    (h10 : s.available_drives = none → s.selected_drive = none) :
    ScInv s := by
  refine ⟨?_, ?_, ?_, ?_, ?_, ?_, ?_, ?_, h9, h10⟩ <;>
    simp [scThreadKind, hbt, hra, hrb, hrc, hrd]

theorem scRecA_false (s : ScState) (hinv : ScInv s) (k : WorkKind)
    (hk : scThreadKind s = some k) (hne : k ≠ .releasesW) :
    s.available_releases_receiver = false := by
  cases hv : s.available_releases_receiver
  · rfl
  · have := hinv.1.mp hv
    rw [hk] at this
    injection this with h
    exact absurd h hne

theorem scRecB_false (s : ScState) (hinv : ScInv s) (k : WorkKind)
    (hk : scThreadKind s = some k) (hne : k ≠ .downloadW) :
    s.download_finished_receiver = false := by
  cases hv : s.download_finished_receiver
  · rfl
  · have := hinv.2.1.mp hv
    rw [hk] at this
    injection this with h
    exact absurd h hne

theorem scRecC_false (s : ScState) (hinv : ScInv s) (k : WorkKind)
    (hk : scThreadKind s = some k) (hne : k ≠ .drivesW) :
    s.drive_list_receiver = false := by
  cases hv : s.drive_list_receiver
  · rfl
  · have := hinv.2.2.1.mp hv
    rw [hk] at this
    injection this with h
    exact absurd h hne

theorem scRecD_false (s : ScState) (hinv : ScInv s) (k : WorkKind)
    (hk : scThreadKind s = some k) (hne : k ≠ .installW) :
    s.install_finished_receiver = false := by
  cases hv : s.install_finished_receiver
  · rfl
  · have := hinv.2.2.2.1.mp hv
    rw [hk] at this
    injection this with h
    exact absurd h hne

theorem scNoThread (s : ScState) (hinv : ScInv s)
    (hne1 : s.current_step ≠ .chooseVersion) (hne2 : s.current_step ≠ .downloadFirmware)
    (hne3 : s.current_step ≠ .chooseDrive) (hne4 : s.current_step ≠ .installFirmware) :
    s.background_thread = none := by
  rcases hbt : s.background_thread with - | ⟨k, w⟩
  · rfl
  · have hk : scThreadKind s = some k := by simp [scThreadKind, hbt]
    exfalso
    cases k
    · exact hne1 (hinv.2.2.2.2.1 hk).1
    · exact hne2 (hinv.2.2.2.2.2.1 hk).1
    · exact hne3 (hinv.2.2.2.2.2.2.1 hk).1
    · exact hne4 (hinv.2.2.2.2.2.2.2.1 hk)

theorem scInv_set_version (s : ScState) (r : GithubRelease) (rs : List GithubRelease)
    (hinv : ScInv s) (hrs : s.available_releases = some rs) :
    ScInv { s with software_version := some r } := by
  obtain ⟨h1, h2, h3, h4, h5, h6, h7, h8, h9, h10⟩ := hinv
  refine ⟨h1, h2, h3, h4, h5, h6, h7, h8, ?_, h10⟩
  intro h
  simp only [hrs] at h
  cases h

theorem scInv_goto_downloadFirmware (s : ScState) (v : GithubRelease)
    (hinv : ScInv s) (hstep : s.current_step = .chooseVersion)
    (hv : s.software_version = some v) :
    ScInv { s with current_step := .downloadFirmware } := by
  obtain ⟨h1, h2, h3, h4, h5, h6, h7, h8, h9, h10⟩ := hinv
  have hth : s.background_thread = none := by
    rcases hbt : s.background_thread with - | ⟨k, w⟩
    · rfl
    · exfalso
      have hk : scThreadKind s = some k := by simp [scThreadKind, hbt]
      cases k
      · obtain ⟨-, hrel⟩ := h5 hk
        rw [h9 hrel] at hv
        cases hv
      · obtain ⟨hs, -⟩ := h6 hk
        rw [hstep] at hs
        cases hs
      · obtain ⟨hs, -⟩ := h7 hk
        rw [hstep] at hs
        cases hs
      · have hs := h8 hk
        rw [hstep] at hs
        cases hs
  refine ⟨h1, h2, h3, h4, ?_, ?_, ?_, ?_, h9, h10⟩ <;>
    · intro h
      simp [scThreadKind, hth] at h

theorem scClickNext_inv (c : Bool) (s1 : ScState)
    (hinv : ScInv s1) (hstep : s1.current_step = .chooseVersion)
    (hc : c = true → s1.software_version.isSome = true) :
    ScInv (if c then { s1 with current_step := .downloadFirmware } else s1) := by
  cases c
  · simpa using hinv
  · simp only [if_true]
    obtain ⟨v, hv⟩ := Option.isSome_iff_exists.mp (hc rfl)
    exact scInv_goto_downloadFirmware s1 v hinv hstep hv

theorem scChooseVersionRender_inv (s : ScState) (i : ScInput) (evs : List Ev)
    (hinv : ScInv s) (hstep : s.current_step = .chooseVersion) :
    (scChooseVersionRender s i evs).res = .ok () ∧
    ScInv (scChooseVersionRender s i evs).state := by
  obtain ⟨st, av, sv, fp, ad, sd, ra, rb, rc, rd, bt⟩ := s
  have hstep' : st = .chooseVersion := hstep
  subst hstep'
  unfold scChooseVersionRender
  rcases i.selectVersion with - | r <;> rcases av with - | rs
  · exact ⟨rfl, scClickNext_inv _ _ hinv rfl (fun h => (Bool.and_eq_true _ _).mp h |>.2)⟩
  · exact ⟨rfl, scClickNext_inv _ _ hinv rfl (fun h => (Bool.and_eq_true _ _).mp h |>.2)⟩
  · exact ⟨rfl, scClickNext_inv _ _ hinv rfl (fun h => (Bool.and_eq_true _ _).mp h |>.2)⟩
  · by_cases hmem : (rs.any (fun x => x = r)) = true
    · simp only [hmem, if_true]
      refine ⟨by trivial, scClickNext_inv _ _ (scInv_set_version _ r rs hinv rfl) rfl ?_⟩
      intro h
      rfl
    · simp only [Bool.not_eq_true] at hmem
      simp only [hmem, Bool.false_eq_true, if_false]
      exact ⟨by trivial, scClickNext_inv _ _ hinv rfl (fun h => (Bool.and_eq_true _ _).mp h |>.2)⟩

/-- Spawning the release-fetch worker from an idle ChooseVersion state
preserves the invariant. -/
theorem scInv_spawn_releases (s : ScState) (w : WorkerState) (hinv : ScInv s)
    (hstep : s.current_step = .chooseVersion) (hav : s.available_releases = none)
    (hbt : s.background_thread = none) :
    ScInv { s with available_releases_receiver := true,
                   background_thread := some (.releasesW, w) } := by
  obtain ⟨hra, hrb, hrc, hrd⟩ := scInv_no_thread_no_receivers s hinv hbt
  obtain ⟨h1, h2, h3, h4, h5, h6, h7, h8, h9, h10⟩ := hinv
  refine ⟨?_, ?_, ?_, ?_, ?_, ?_, ?_, ?_, h9, h10⟩ <;>
    simp [scThreadKind, hra, hrb, hrc, hrd, hstep, hav, h9 hav, h10]

theorem scChooseVersionAuto_inv (s : ScState) (i : ScInput) (evs : List Ev)
    (hinv : ScInv s) (hstep : s.current_step = .chooseVersion) :
    (scChooseVersionAuto s i evs).res = .ok () → ScInv (scChooseVersionAuto s i evs).state := by
  unfold scChooseVersionAuto
  split
  · rename_i rs hrel
    split
    · split
      · rename_i hnone r hfind
        intro _
        exact (scChooseVersionRender_inv _ i evs (scInv_set_version s r rs hinv hrel) hstep).2
      · intro h
        cases h
    · intro _
      exact (scChooseVersionRender_inv s i evs hinv hstep).2
  · intro _
    exact (scChooseVersionRender_inv s i evs hinv hstep).2

theorem scRunChooseVersion_inv (s : ScState) (i : ScInput)
    (hinv : ScInv s) (hstep : s.current_step = .chooseVersion) :
    (scRunChooseVersion s i).res = .ok () → ScInv (scRunChooseVersion s i).state := by
  have h10 : s.available_drives = none → s.selected_drive = none :=
    hinv.2.2.2.2.2.2.2.2.2
  unfold scRunChooseVersion
  by_cases hsp : (s.available_releases.isNone && s.background_thread.isNone) = true
  · have hav : s.available_releases = none :=
      Option.isNone_iff_eq_none.mp ((Bool.and_eq_true _ _).mp hsp).1
    have hbt : s.background_thread = none :=
      Option.isNone_iff_eq_none.mp ((Bool.and_eq_true _ _).mp hsp).2
    obtain ⟨hra, hrb, hrc, hrd⟩ := scInv_no_thread_no_receivers s hinv hbt
    rw [hsp]
    cases hfin : i.finished
    · exact scChooseVersionAuto_inv _ i _ (scInv_spawn_releases s _ hinv hstep hav hbt) hstep
    · cases hres : i.releasesRes with
      | ok rs =>
        exact scChooseVersionAuto_inv
          { s with available_releases := some rs, available_releases_receiver := false,
                   background_thread := none } i _
          (scInv_idle _ rfl rfl hrb hrc hrd (fun h => nomatch h) h10) hstep
      | error e => exact fun h => nomatch h
  · rw [Bool.not_eq_true] at hsp
    simp only [hsp, Bool.false_eq_true, if_false]
    cases hbt2 : s.background_thread with
    | none => exact scChooseVersionAuto_inv s i _ hinv hstep
    | some kw =>
      obtain ⟨k, w⟩ := kw
      have hk : scThreadKind s = some k := by simp [scThreadKind, hbt2]
      cases hfin : i.finished
      · exact scChooseVersionAuto_inv s i _ hinv hstep
      · cases w with
        | willPanic msg => exact fun h => nomatch h
        | willSend m =>
          cases hra : s.available_releases_receiver
          · simp only [hra]
            exact fun h => nomatch h
          · simp only [hra]
            cases m with
            | mReleases rs =>
              have hkr : k = .releasesW := by
                have h' := hinv.1.mp hra
                rw [hk] at h'
                injection h'
              subst hkr
              exact scChooseVersionAuto_inv
                { s with available_releases := some rs, available_releases_receiver := false,
                         background_thread := none } i _
                (scInv_idle _ rfl rfl
                  (scRecB_false s hinv _ hk (by simp))
                  (scRecC_false s hinv _ hk (by simp))
                  (scRecD_false s hinv _ hk (by simp))
                  (fun h => nomatch h) h10) hstep
            | mPath p => exact fun h => nomatch h
            | mDrives ds => exact fun h => nomatch h
            | mUnit => exact fun h => nomatch h

theorem scInv_goto_chooseDrive_fromDownload (s : ScState) (p : String)
    (hinv : ScInv s) (hstep : s.current_step = .downloadFirmware)
    (hfp : s.firmware_path = some p) :
    ScInv { s with current_step := .chooseDrive } := by
  obtain ⟨h1, h2, h3, h4, h5, h6, h7, h8, h9, h10⟩ := hinv
  have hth : s.background_thread = none := by
    rcases hbt : s.background_thread with - | ⟨k, w⟩
    · rfl
    · exfalso
      have hk : scThreadKind s = some k := by simp [scThreadKind, hbt]
      cases k
      · obtain ⟨hs, -⟩ := h5 hk
        rw [hstep] at hs
        cases hs
      · obtain ⟨-, hf⟩ := h6 hk
        rw [hf] at hfp
        cases hfp
      · obtain ⟨hs, -⟩ := h7 hk
        rw [hstep] at hs
        cases hs
      · have hs := h8 hk
        rw [hstep] at hs
        cases hs
  refine ⟨h1, h2, h3, h4, ?_, ?_, ?_, ?_, h9, h10⟩ <;>
    · intro h
      simp [scThreadKind, hth] at h

theorem scDownloadAfter_inv (s : ScState) (evs : List Ev)
    (hinv : ScInv s) (hstep : s.current_step = .downloadFirmware) :
    (scDownloadAfter s evs).res = .ok () → ScInv (scDownloadAfter s evs).state := by
  unfold scDownloadAfter
  intro _
  cases hfp : s.firmware_path with
  | none => exact hinv
  | some p =>
    have h := scInv_goto_chooseDrive_fromDownload s p hinv hstep hfp
    rw [hfp] at h
    exact h

/-- Spawning the starter-program download worker preserves the
invariant. -/
theorem scInv_spawn_download (s : ScState) (w : WorkerState) (hinv : ScInv s)
    (hstep : s.current_step = .downloadFirmware) (hfp : s.firmware_path = none)
    (hbt : s.background_thread = none) :
    ScInv { s with download_finished_receiver := true,
                   background_thread := some (.downloadW, w) } := by
  obtain ⟨hra, hrb, hrc, hrd⟩ := scInv_no_thread_no_receivers s hinv hbt
  obtain ⟨h1, h2, h3, h4, h5, h6, h7, h8, h9, h10⟩ := hinv
  refine ⟨?_, ?_, ?_, ?_, ?_, ?_, ?_, ?_, h9, h10⟩ <;>
    simp [scThreadKind, hra, hrb, hrc, hrd, hstep, hfp]

theorem scDownloadPoll_inv (s : ScState) (evs : List Ev) (fin : Bool)
    (hinv : ScInv s) (hstep : s.current_step = .downloadFirmware) :
    (scDownloadPoll s evs fin).res = .ok () → ScInv (scDownloadPoll s evs fin).state := by
  have h9 := hinv.2.2.2.2.2.2.2.2.1
  have h10 := hinv.2.2.2.2.2.2.2.2.2
  unfold scDownloadPoll
  cases hbt2 : s.background_thread with
  | none => exact scDownloadAfter_inv s evs hinv hstep
  | some kw =>
    obtain ⟨k, w⟩ := kw
    have hk : scThreadKind s = some k := by simp [scThreadKind, hbt2]
    cases fin
    · exact scDownloadAfter_inv s _ hinv hstep
    · cases w with
      | willPanic msg => exact fun h => nomatch h
      | willSend m =>
        cases hrb2 : s.download_finished_receiver
        · simp only [hrb2]
          exact fun h => nomatch h
        · simp only [hrb2]
          cases m with
          | mPath p =>
            have hkr : k = .downloadW := by
              have h' := hinv.2.1.mp hrb2
              rw [hk] at h'
              injection h'
            subst hkr
            exact scDownloadAfter_inv
              { s with firmware_path := some p, download_finished_receiver := false,
                       background_thread := none } _
              (scInv_idle _ rfl
                (scRecA_false s hinv _ hk (by simp)) rfl
                (scRecC_false s hinv _ hk (by simp))
                (scRecD_false s hinv _ hk (by simp))
                h9 h10) hstep
          | mReleases rs => exact fun h => nomatch h
          | mDrives ds => exact fun h => nomatch h
          | mUnit => exact fun h => nomatch h

theorem scRunDownloadFirmware_inv (s : ScState) (i : ScInput)
    (hinv : ScInv s) (hstep : s.current_step = .downloadFirmware) :
    (scRunDownloadFirmware s i).res = .ok () → ScInv (scRunDownloadFirmware s i).state := by
  unfold scRunDownloadFirmware
  by_cases hsp : (s.firmware_path.isNone && s.background_thread.isNone) = true
  · have hfp : s.firmware_path = none :=
      Option.isNone_iff_eq_none.mp ((Bool.and_eq_true _ _).mp hsp).1
    have hbt : s.background_thread = none :=
      Option.isNone_iff_eq_none.mp ((Bool.and_eq_true _ _).mp hsp).2
    rw [hsp]
    cases hsv : s.software_version with
    | none => exact fun h => nomatch h
    | some rel =>
      dsimp only
      have hinv' : ScInv { s with software_version := some rel } := by
        rw [← hsv]
        exact hinv
      cases hfind : rel.assets.find? (fun a =>
          a.name == "best-default-program-" ++ rel.tag_name ++ ".uf2") with
      | none => exact fun h => nomatch h
      | some a =>
        exact scDownloadPoll_inv
          { s with software_version := some rel, download_finished_receiver := true,
                   background_thread := some (.downloadW, scDownloadClosure i.downloadRes) }
          [.spawnEv .downloadW] i.finished
          (scInv_spawn_download { s with software_version := some rel } _ hinv' hstep hfp hbt)
          hstep
  · rw [Bool.not_eq_true] at hsp
    simp only [hsp, Bool.false_eq_true, if_false]
    exact scDownloadPoll_inv s [] i.finished hinv hstep

theorem scInv_set_drive (s : ScState) (d : DriveInfo) (ds : List DriveInfo)
    (hinv : ScInv s) (hads : s.available_drives = some ds) :
    ScInv { s with selected_drive := some d } := by
  obtain ⟨h1, h2, h3, h4, h5, h6, h7, h8, h9, h10⟩ := hinv
  refine ⟨h1, h2, h3, h4, h5, h6, h7, h8, h9, ?_⟩
  intro h
  simp only [hads] at h
  cases h

theorem scInv_refresh (s : ScState) (hinv : ScInv s) :
    ScInv { s with available_drives := none, selected_drive := none } := by
  obtain ⟨h1, h2, h3, h4, h5, h6, h7, h8, h9, h10⟩ := hinv
  exact ⟨h1, h2, h3, h4, h5, h6, fun h => ⟨(h7 h).1, rfl⟩, h8, h9, fun _ => rfl⟩

theorem scInv_goto_installFirmware (s : ScState) (d : DriveInfo)
    (hinv : ScInv s) (hstep : s.current_step = .chooseDrive)
    (hsd : s.selected_drive = some d) :
    ScInv { s with current_step := .installFirmware } := by
  obtain ⟨h1, h2, h3, h4, h5, h6, h7, h8, h9, h10⟩ := hinv
  have hth : s.background_thread = none := by
    rcases hbt : s.background_thread with - | ⟨k, w⟩
    · rfl
    · exfalso
      have hk : scThreadKind s = some k := by simp [scThreadKind, hbt]
      cases k
      · obtain ⟨hs, -⟩ := h5 hk
        rw [hstep] at hs
        cases hs
      · obtain ⟨hs, -⟩ := h6 hk
        rw [hstep] at hs
        cases hs
      · obtain ⟨-, had⟩ := h7 hk
        rw [h10 had] at hsd
        cases hsd
      · have hs := h8 hk
        rw [hstep] at hs
        cases hs
  refine ⟨h1, h2, h3, h4, ?_, ?_, ?_, ?_, h9, h10⟩ <;>
    · intro h
      simp [scThreadKind, hth] at h

theorem scRefreshIf_inv (c : Bool) (s : ScState) (hinv : ScInv s) :
    ScInv (if c then { s with available_drives := none, selected_drive := none } else s) ∧
    (if c then { s with available_drives := none, selected_drive := none } else s).current_step
      = s.current_step := by
  cases c
  · exact ⟨hinv, rfl⟩
  · exact ⟨scInv_refresh s hinv, rfl⟩

theorem scInstallClickIf_inv (c : Bool) (s : ScState) (hinv : ScInv s)
    (hstep : s.current_step = .chooseDrive)
    (hc : c = true → s.selected_drive.isSome = true) :
    ScInv (if c then { s with current_step := .installFirmware } else s) := by
  cases c
  · simpa using hinv
  · simp only [if_true]
    obtain ⟨d, hd⟩ := Option.isSome_iff_exists.mp (hc rfl)
    exact scInv_goto_installFirmware s d hinv hstep hd

theorem scChooseDriveRender_inv (s : ScState) (i : ScInput) (evs : List Ev)
    (hinv : ScInv s) (hstep : s.current_step = .chooseDrive) :
    (scChooseDriveRender s i evs).res = .ok () → ScInv (scChooseDriveRender s i evs).state := by
  obtain ⟨st, av, sv, fp, ad, sd, ra, rb, rc, rd, bt⟩ := s
  have hstep' : st = .chooseDrive := hstep
  subst hstep'
  unfold scChooseDriveRender
  intro _
  rcases i.selectDrive with - | d <;> rcases ad with - | ds
  · exact scInstallClickIf_inv _ _ (scRefreshIf_inv _ _ hinv).1
      ((scRefreshIf_inv _ _ hinv).2.trans rfl) (fun h => (Bool.and_eq_true _ _).mp h |>.2)
  · exact scInstallClickIf_inv _ _ (scRefreshIf_inv _ _ hinv).1
      ((scRefreshIf_inv _ _ hinv).2.trans rfl) (fun h => (Bool.and_eq_true _ _).mp h |>.2)
  · exact scInstallClickIf_inv _ _ (scRefreshIf_inv _ _ hinv).1
      ((scRefreshIf_inv _ _ hinv).2.trans rfl) (fun h => (Bool.and_eq_true _ _).mp h |>.2)
  · by_cases hmem : (ds.any (fun x => x = d)) = true
    · simp only [hmem, if_true]
      have hinv1 := scInv_set_drive _ d ds hinv rfl
      exact scInstallClickIf_inv _ _ (scRefreshIf_inv _ _ hinv1).1
        ((scRefreshIf_inv _ _ hinv1).2.trans rfl) (fun h => (Bool.and_eq_true _ _).mp h |>.2)
    · simp only [Bool.not_eq_true] at hmem
      simp only [hmem, Bool.false_eq_true, if_false]
      exact scInstallClickIf_inv _ _ (scRefreshIf_inv _ _ hinv).1
        ((scRefreshIf_inv _ _ hinv).2.trans rfl) (fun h => (Bool.and_eq_true _ _).mp h |>.2)

/-- Spawning the drive-enumeration worker from an idle ChooseDrive state
preserves the invariant. -/
theorem scInv_spawn_drives (s : ScState) (w : WorkerState) (hinv : ScInv s)
    (hstep : s.current_step = .chooseDrive) (had : s.available_drives = none)
    (hbt : s.background_thread = none) :
    ScInv { s with drive_list_receiver := true,
                   background_thread := some (.drivesW, w) } := by
  obtain ⟨hra, hrb, hrc, hrd⟩ := scInv_no_thread_no_receivers s hinv hbt
  obtain ⟨h1, h2, h3, h4, h5, h6, h7, h8, h9, h10⟩ := hinv
  refine ⟨?_, ?_, ?_, ?_, ?_, ?_, ?_, ?_, h9, h10⟩ <;>
    simp [scThreadKind, hra, hrb, hrc, hrd, hstep, had]

theorem scRunChooseDrive_inv (s : ScState) (i : ScInput)
    (hinv : ScInv s) (hstep : s.current_step = .chooseDrive) :
    (scRunChooseDrive s i).res = .ok () → ScInv (scRunChooseDrive s i).state := by
  have h9 := hinv.2.2.2.2.2.2.2.2.1
  unfold scRunChooseDrive
  by_cases hsp : (s.available_drives.isNone && s.background_thread.isNone) = true
  · have had : s.available_drives = none :=
      Option.isNone_iff_eq_none.mp ((Bool.and_eq_true _ _).mp hsp).1
    have hbt : s.background_thread = none :=
      Option.isNone_iff_eq_none.mp ((Bool.and_eq_true _ _).mp hsp).2
    obtain ⟨hra, hrb, hrc, hrd⟩ := scInv_no_thread_no_receivers s hinv hbt
    rw [hsp]
    cases hfin : i.finished
    · exact scChooseDriveRender_inv _ i _ (scInv_spawn_drives s _ hinv hstep had hbt) hstep
    · cases hres : i.drivesRes with
      | ok ds =>
        exact scChooseDriveRender_inv
          { s with available_drives := some ds, drive_list_receiver := false,
                   background_thread := none } i _
          (scInv_idle _ rfl hra hrb rfl hrd h9 (fun h => nomatch h)) hstep
      | error e => exact fun h => nomatch h
  · rw [Bool.not_eq_true] at hsp
    simp only [hsp, Bool.false_eq_true, if_false]
    cases hbt2 : s.background_thread with
    | none => exact scChooseDriveRender_inv s i _ hinv hstep
    | some kw =>
      obtain ⟨k, w⟩ := kw
      have hk : scThreadKind s = some k := by simp [scThreadKind, hbt2]
      cases hfin : i.finished
      · exact scChooseDriveRender_inv s i _ hinv hstep
      · cases w with
        | willPanic msg => exact fun h => nomatch h
        | willSend m =>
          cases hrc2 : s.drive_list_receiver
          · simp only [hrc2]
            exact fun h => nomatch h
          · simp only [hrc2]
            cases m with
            | mDrives ds =>
              have hkr : k = .drivesW := by
                have h' := hinv.2.2.1.mp hrc2
                rw [hk] at h'
                injection h'
              subst hkr
              exact scChooseDriveRender_inv
                { s with available_drives := some ds, drive_list_receiver := false,
                         background_thread := none } i _
                (scInv_idle _ rfl
                  (scRecA_false s hinv _ hk (by simp))
                  (scRecB_false s hinv _ hk (by simp))
                  rfl
                  (scRecD_false s hinv _ hk (by simp))
                  h9 (fun h => nomatch h)) hstep
            | mReleases rs => exact fun h => nomatch h
            | mPath p => exact fun h => nomatch h
            | mUnit => exact fun h => nomatch h

theorem scNoThreadInstall (s : ScState) (hinv : ScInv s)
    (hstep : s.current_step = .installFirmware)
    (hrd : s.install_finished_receiver = false) :
    s.background_thread = none := by
  rcases hbt : s.background_thread with - | ⟨k, w⟩
  · rfl
  · have hk : scThreadKind s = some k := by simp [scThreadKind, hbt]
    exfalso
    cases k
    · have hs := (hinv.2.2.2.2.1 hk).1
      rw [hstep] at hs
      cases hs
    · have hs := (hinv.2.2.2.2.2.1 hk).1
      rw [hstep] at hs
      cases hs
    · have hs := (hinv.2.2.2.2.2.2.1 hk).1
      rw [hstep] at hs
      cases hs
    · have := hinv.2.2.2.1.mpr hk
      rw [hrd] at this
      cases this

/-- Spawning the firmware-copy worker preserves the invariant. -/
theorem scInv_spawn_install (s : ScState) (w : WorkerState) (hinv : ScInv s)
    (hstep : s.current_step = .installFirmware)
    (hbt : s.background_thread = none) :
    ScInv { s with install_finished_receiver := true,
                   background_thread := some (.installW, w) } := by
  obtain ⟨hra, hrb, hrc, hrd⟩ := scInv_no_thread_no_receivers s hinv hbt
  obtain ⟨h1, h2, h3, h4, h5, h6, h7, h8, h9, h10⟩ := hinv
  refine ⟨?_, ?_, ?_, ?_, ?_, ?_, ?_, ?_, h9, h10⟩ <;>
    simp [scThreadKind, hra, hrb, hrc, hrd, hstep]

theorem scInstallPoll_inv (s : ScState) (evs : List Ev) (fin : Bool)
    (hinv : ScInv s) (hstep : s.current_step = .installFirmware) :
    (scInstallPoll s evs fin).res = .ok () → ScInv (scInstallPoll s evs fin).state := by
  have h9 := hinv.2.2.2.2.2.2.2.2.1
  have h10 := hinv.2.2.2.2.2.2.2.2.2
  unfold scInstallPoll
  cases hbt2 : s.background_thread with
  | none => exact fun _ => hinv
  | some kw =>
    obtain ⟨k, w⟩ := kw
    have hk : scThreadKind s = some k := by simp [scThreadKind, hbt2]
    have hne1 : k ≠ .releasesW := by
      intro h
      subst h
      have hs := (hinv.2.2.2.2.1 hk).1
      rw [hstep] at hs
      cases hs
    have hne2 : k ≠ .downloadW := by
      intro h
      subst h
      have hs := (hinv.2.2.2.2.2.1 hk).1
      rw [hstep] at hs
      cases hs
    have hne3 : k ≠ .drivesW := by
      intro h
      subst h
      have hs := (hinv.2.2.2.2.2.2.1 hk).1
      rw [hstep] at hs
      cases hs
    cases fin
    · exact fun _ => hinv
    · cases w with
      | willPanic msg => exact fun h => nomatch h
      | willSend m =>
        intro _
        exact scInv_idle _ rfl
          (scRecA_false s hinv _ hk hne1)
          (scRecB_false s hinv _ hk hne2)
          (scRecC_false s hinv _ hk hne3)
          rfl h9 h10

theorem scRunInstallFirmware_inv (s : ScState) (i : ScInput)
    (hinv : ScInv s) (hstep : s.current_step = .installFirmware) :
    (scRunInstallFirmware s i).res = .ok () → ScInv (scRunInstallFirmware s i).state := by
  unfold scRunInstallFirmware
  by_cases hg : (!s.install_finished_receiver) = true
  · have hrd : s.install_finished_receiver = false := by
      rwa [Bool.not_eq_true'] at hg
    have hbt : s.background_thread = none := scNoThreadInstall s hinv hstep hrd
    rw [hg]
    dsimp only
    cases hfp : s.firmware_path with
    | none => exact fun h => nomatch h
    | some p =>
      cases hsd : s.selected_drive with
      | none => exact fun h => nomatch h
      | some d =>
        have hinv' : ScInv { s with firmware_path := some p, selected_drive := some d } := by
          rw [← hfp, ← hsd]
          exact hinv
        exact scInstallPoll_inv
          { s with firmware_path := some p, selected_drive := some d,
                   install_finished_receiver := true,
                   background_thread := some (.installW, scInstallClosure i.copyRes) }
          [.spawnEv .installW] i.finished
          (scInv_spawn_install { s with firmware_path := some p, selected_drive := some d }
            _ hinv' hstep hbt) hstep
  · rw [Bool.not_eq_true] at hg
    simp only [hg, Bool.false_eq_true, if_false]
    exact scInstallPoll_inv s [] i.finished hinv hstep

theorem scRunPostInstall_inv (s : ScState) (i : ScInput)
    (hinv : ScInv s) (hstep : s.current_step = .postInstall) :
    (scRunPostInstall s i).res = .ok () → ScInv (scRunPostInstall s i).state := by
  have hbt : s.background_thread = none :=
    scNoThread s hinv (by simp [hstep]) (by simp [hstep]) (by simp [hstep]) (by simp [hstep])
  obtain ⟨hra, hrb, hrc, hrd⟩ := scInv_no_thread_no_receivers s hinv hbt
  have h9 := hinv.2.2.2.2.2.2.2.2.1
  unfold scRunPostInstall
  dsimp only
  intro _
  split
  · exact scInv_idle _ hbt hra hrb hrc hrd h9 (fun _ => rfl)
  · exact hinv

theorem scTick_inv (s : ScState) (i : ScInput) (hinv : ScInv s) :
    (scTick s i).res = .ok () → ScInv (scTick s i).state := by
  unfold scTick
  cases hstep : s.current_step with
  | chooseVersion => exact scRunChooseVersion_inv s i hinv hstep
  | downloadFirmware => exact scRunDownloadFirmware_inv s i hinv hstep
  | chooseDrive => exact scRunChooseDrive_inv s i hinv hstep
  | installFirmware => exact scRunInstallFirmware_inv s i hinv hstep
  | postInstall => exact scRunPostInstall_inv s i hinv hstep

/-- Reachable states of the student-starter-code page. -/
inductive ScReach : ScState → Prop
  | init : ScReach ScState.new
  | tick (s : ScState) (i : ScInput) (h : ScReach s)
      (hok : (scTick s i).res = .ok ()) : ScReach (scTick s i).state

theorem scReach_inv (s : ScState) (h : ScReach s) : ScInv s := by
  induction h with
  | init => exact scInv_new
  | tick s i h hok ih => exact scTick_inv s i ih hok

theorem scChooseVersionRender_events (s : ScState) (i : ScInput) (evs : List Ev) :
    (scChooseVersionRender s i evs).events = evs := by
  unfold scChooseVersionRender
  dsimp only
  repeat' split
  all_goals rfl

theorem scChooseVersionAuto_events (s : ScState) (i : ScInput) (evs : List Ev) :
    (scChooseVersionAuto s i evs).events = evs := by
  unfold scChooseVersionAuto
  repeat' split
  all_goals first
  | rfl
  | apply scChooseVersionRender_events

theorem scChooseDriveRender_events (s : ScState) (i : ScInput) (evs : List Ev) :
    (scChooseDriveRender s i evs).events = evs := by
  unfold scChooseDriveRender
  repeat' split
  all_goals rfl

theorem scDownloadAfter_events (s : ScState) (evs : List Ev) :
    (scDownloadAfter s evs).events = evs := rfl

theorem scRunPostInstall_events (s : ScState) (i : ScInput) :
    (scRunPostInstall s i).events = [] := rfl

theorem scRunChooseVersion_spawnMem (s : ScState) (i : ScInput) (k : WorkKind)
    (hmem : Ev.spawnEv k ∈ (scRunChooseVersion s i).events) :
    k = .releasesW ∧ (s.available_releases.isNone && s.background_thread.isNone) = true := by
  unfold scRunChooseVersion at hmem
  by_cases hsp : (s.available_releases.isNone && s.background_thread.isNone) = true
  · refine ⟨?_, hsp⟩
    rw [hsp] at hmem
    revert hmem
    cases hfin : i.finished
    · intro hmem
      simp [scChooseVersionAuto_events] at hmem
      exact hmem
    · cases hres : i.releasesRes with
      | ok rs =>
        intro hmem
        simp [scChooseVersionAuto_events, scReleasesClosure] at hmem
        exact hmem
      | error e =>
        intro hmem
        simp [scReleasesClosure] at hmem
        exact hmem
  · rw [Bool.not_eq_true] at hsp
    simp only [hsp, Bool.false_eq_true, if_false] at hmem
    exfalso
    revert hmem
    cases hbt2 : s.background_thread with
    | none =>
      intro hmem
      simp [scChooseVersionAuto_events] at hmem
    | some kw =>
      obtain ⟨k', w⟩ := kw
      cases hfin : i.finished
      · intro hmem
        simp [scChooseVersionAuto_events] at hmem
      · cases w with
        | willPanic msg =>
          intro hmem
          simp at hmem
        | willSend m =>
          cases hra2 : s.available_releases_receiver
          · simp only [hra2]
            intro hmem
            simp at hmem
          · simp only [hra2]
            cases m with
            | mReleases rs =>
              intro hmem
              simp [scChooseVersionAuto_events] at hmem
            | mPath p =>
              intro hmem
              simp at hmem
            | mDrives ds =>
              intro hmem
              simp at hmem
            | mUnit =>
              intro hmem
              simp at hmem

theorem scDownloadPoll_spawnMem (s : ScState) (evs : List Ev) (fin : Bool) (k : WorkKind)
    (hmem : Ev.spawnEv k ∈ (scDownloadPoll s evs fin).events) :
    Ev.spawnEv k ∈ evs := by
  revert hmem
  unfold scDownloadPoll
  cases s.background_thread with
  | none =>
    intro hmem
    simpa [scDownloadAfter_events] using hmem
  | some kw =>
    obtain ⟨k', w⟩ := kw
    cases fin
    · intro hmem
      simpa [scDownloadAfter_events] using hmem
    · cases w with
      | willPanic msg =>
        intro hmem
        simpa using hmem
      | willSend m =>
        cases hrb2 : s.download_finished_receiver
        · simp only [hrb2]
          intro hmem
          simpa using hmem
        · simp only [hrb2]
          cases m with
          | mPath p =>
            intro hmem
            simpa [scDownloadAfter_events] using hmem
          | mReleases rs =>
            intro hmem
            simpa using hmem
          | mDrives ds =>
            intro hmem
            simpa using hmem
          | mUnit =>
            intro hmem
            simpa using hmem

theorem scInstallPoll_spawnMem (s : ScState) (evs : List Ev) (fin : Bool) (k : WorkKind)
    (hmem : Ev.spawnEv k ∈ (scInstallPoll s evs fin).events) :
    Ev.spawnEv k ∈ evs := by
  revert hmem
  unfold scInstallPoll
  cases s.background_thread with
  | none => exact fun hmem => hmem
  | some kw =>
    obtain ⟨k', w⟩ := kw
    cases fin
    · intro hmem
      simpa using hmem
    · cases w with
      | willPanic msg =>
        intro hmem
        simpa using hmem
      | willSend m =>
        intro hmem
        simpa using hmem

theorem scRunDownloadFirmware_spawnMem (s : ScState) (i : ScInput) (k : WorkKind)
    (hmem : Ev.spawnEv k ∈ (scRunDownloadFirmware s i).events) :
    k = .downloadW ∧ (s.firmware_path.isNone && s.background_thread.isNone) = true := by
  unfold scRunDownloadFirmware at hmem
  by_cases hsp : (s.firmware_path.isNone && s.background_thread.isNone) = true
  · refine ⟨?_, hsp⟩
    rw [hsp] at hmem
    revert hmem
    cases hsv : s.software_version with
    | none =>
      intro hmem
      simp at hmem
    | some rel =>
      intro hmem
      dsimp only at hmem
      simp only [eq_self_iff_true, if_true] at hmem
      revert hmem
      cases hfind : rel.assets.find? (fun a =>
          a.name == "best-default-program-" ++ rel.tag_name ++ ".uf2") with
      | none =>
        intro hmem
        simp at hmem
      | some a =>
        intro hmem
        have h' := scDownloadPoll_spawnMem _ _ _ _ hmem
        simpa using h'
  · rw [Bool.not_eq_true] at hsp
    simp only [hsp, Bool.false_eq_true, if_false] at hmem
    have h' := scDownloadPoll_spawnMem _ _ _ _ hmem
    simp at h'

theorem scRunChooseDrive_spawnMem (s : ScState) (i : ScInput) (k : WorkKind)
    (hmem : Ev.spawnEv k ∈ (scRunChooseDrive s i).events) :
    k = .drivesW ∧ (s.available_drives.isNone && s.background_thread.isNone) = true := by
  unfold scRunChooseDrive at hmem
  by_cases hsp : (s.available_drives.isNone && s.background_thread.isNone) = true
  · refine ⟨?_, hsp⟩
    rw [hsp] at hmem
    revert hmem
    cases hfin : i.finished
    · intro hmem
      simp [scChooseDriveRender_events] at hmem
      exact hmem
    · cases hres : i.drivesRes with
      | ok ds =>
        intro hmem
        simp [scChooseDriveRender_events, scDrivesClosure] at hmem
        exact hmem
      | error e =>
        intro hmem
        simp [scDrivesClosure] at hmem
        exact hmem
  · rw [Bool.not_eq_true] at hsp
    simp only [hsp, Bool.false_eq_true, if_false] at hmem
    exfalso
    revert hmem
    cases hbt2 : s.background_thread with
    | none =>
      intro hmem
      simp [scChooseDriveRender_events] at hmem
    | some kw =>
      obtain ⟨k', w⟩ := kw
      cases hfin : i.finished
      · intro hmem
        simp [scChooseDriveRender_events] at hmem
      · cases w with
        | willPanic msg =>
          intro hmem
          simp at hmem
        | willSend m =>
          cases hrc2 : s.drive_list_receiver
          · simp only [hrc2]
            intro hmem
            simp at hmem
          · simp only [hrc2]
            cases m with
            | mDrives ds =>
              intro hmem
              simp [scChooseDriveRender_events] at hmem
            | mReleases rs =>
              intro hmem
              simp at hmem
            | mPath p =>
              intro hmem
              simp at hmem
            | mUnit =>
              intro hmem
              simp at hmem

theorem scRunInstallFirmware_spawnMem (s : ScState) (i : ScInput) (k : WorkKind)
    (hmem : Ev.spawnEv k ∈ (scRunInstallFirmware s i).events) :
    k = .installW ∧ s.install_finished_receiver = false := by
  unfold scRunInstallFirmware at hmem
  by_cases hg : (!s.install_finished_receiver) = true
  · refine ⟨?_, by rwa [Bool.not_eq_true'] at hg⟩
    rw [hg] at hmem
    dsimp only at hmem
    revert hmem
    cases hfp : s.firmware_path with
    | none =>
      intro hmem
      simp at hmem
    | some p =>
      cases hsd : s.selected_drive with
      | none =>
        intro hmem
        simp at hmem
      | some d =>
        intro hmem
        simp only [eq_self_iff_true, if_true] at hmem
        have h' := scInstallPoll_spawnMem _ _ _ _ hmem
        simpa using h'
  · rw [Bool.not_eq_true] at hg
    simp only [hg, Bool.false_eq_true, if_false] at hmem
    have h' := scInstallPoll_spawnMem _ _ _ _ hmem
    simp at h'

/-- The receiver slot a worker of kind `k` reports through on the
student-starter-code page. -/
def scReceiverOf (k : WorkKind) (s : ScState) : Bool :=
  match k with
  | .releasesW => s.available_releases_receiver
  | .downloadW => s.download_finished_receiver
  | .drivesW => s.drive_list_receiver
  | .installW => s.install_finished_receiver

/-- Whether the value a worker of kind `k` would produce is already stored
in this page's session state. -/
def scValueOf (k : WorkKind) (s : ScState) : Bool :=
  match k with
  | .releasesW => s.available_releases.isSome
  | .downloadW => s.firmware_path.isSome
  | .drivesW => s.available_drives.isSome
  | .installW => false

theorem scTick_spawn_safe (s : ScState) (i : ScInput) (k : WorkKind)
    (hreach : ScReach s) (hmem : Ev.spawnEv k ∈ (scTick s i).events) :
    s.background_thread = none ∧ scReceiverOf k s = false ∧ scValueOf k s = false := by
  have hinv := scReach_inv s hreach
  revert hmem
  unfold scTick
  cases hstep : s.current_step with
  | chooseVersion =>
    intro hmem
    obtain ⟨rfl, hsp⟩ := scRunChooseVersion_spawnMem s i k hmem
    have hav : s.available_releases = none :=
      Option.isNone_iff_eq_none.mp ((Bool.and_eq_true _ _).mp hsp).1
    have hbt : s.background_thread = none :=
      Option.isNone_iff_eq_none.mp ((Bool.and_eq_true _ _).mp hsp).2
    obtain ⟨hra, -, -, -⟩ := scInv_no_thread_no_receivers s hinv hbt
    exact ⟨hbt, hra, by simp [scValueOf, hav]⟩
  | downloadFirmware =>
    intro hmem
    obtain ⟨rfl, hsp⟩ := scRunDownloadFirmware_spawnMem s i k hmem
    have hfp : s.firmware_path = none :=
      Option.isNone_iff_eq_none.mp ((Bool.and_eq_true _ _).mp hsp).1
    have hbt : s.background_thread = none :=
      Option.isNone_iff_eq_none.mp ((Bool.and_eq_true _ _).mp hsp).2
    obtain ⟨-, hrb, -, -⟩ := scInv_no_thread_no_receivers s hinv hbt
    exact ⟨hbt, hrb, by simp [scValueOf, hfp]⟩
  | chooseDrive =>
    intro hmem
    obtain ⟨rfl, hsp⟩ := scRunChooseDrive_spawnMem s i k hmem
    have had : s.available_drives = none :=
      Option.isNone_iff_eq_none.mp ((Bool.and_eq_true _ _).mp hsp).1
    have hbt : s.background_thread = none :=
      Option.isNone_iff_eq_none.mp ((Bool.and_eq_true _ _).mp hsp).2
    obtain ⟨-, -, hrc, -⟩ := scInv_no_thread_no_receivers s hinv hbt
    exact ⟨hbt, hrc, by simp [scValueOf, had]⟩
  | installFirmware =>
    intro hmem
    obtain ⟨rfl, hrd⟩ := scRunInstallFirmware_spawnMem s i k hmem
    exact ⟨scNoThreadInstall s hinv hstep hrd, hrd, rfl⟩
  | postInstall =>
    intro hmem
    rw [scRunPostInstall_events] at hmem
    cases hmem

/-- A concrete quiet frame input for the driver-station page: no clicks, no
selections, worker results all benign, `is_finished` still false. -/
def dsInputC3 : DsInput :=
  { finished := false
    releasesRes := .ok []
    downloadRes := .ok ""
    drivesRes := .ok []
    installEnv := { formatRes := .ok (), extractRes := .ok (), flushRes := .ok () }
    fileOpenRes := .ok ()
    selectVersion := none
    selectDrive := none
    textEdit := none
    clickNext := false
    clickRefresh := false
    clickInstall := false }

/-- **C3**: on every frame tick of every page (driver-station,
system-firmware, student-starter-code) from any reachable state, a new
background task is spawned only when the task slot is empty — no join
handle is present and the receiver slot of the spawned kind is empty — and
the value that task would produce is not already stored in session state.
In particular the same logical unit of work is never started twice without
the previous worker having been consumed first. -/
theorem task_start_requires_empty_slot :
    (∀ (s : DsState) (i : DsInput) (k : WorkKind), DsReach s →
      Ev.spawnEv k ∈ (dsTick s i).events →
      s.background_thread = none ∧ dsReceiverOf k s = false ∧ dsValueOf k s = false) ∧
    (∀ (s : SfState) (i : SfInput) (k : WorkKind), SfReach s →
      Ev.spawnEv k ∈ (sfTick s i).events →
      s.background_thread = none ∧ sfReceiverOf k s = false ∧ sfValueOf k s = false) ∧
    (∀ (s : ScState) (i : ScInput) (k : WorkKind), ScReach s →
      Ev.spawnEv k ∈ (scTick s i).events →
      s.background_thread = none ∧ scReceiverOf k s = false ∧ scValueOf k s = false) :=
  ⟨fun s i k hr hm => dsTick_spawn_safe s i k hr hm,
   fun s i k hr hm => sfTick_spawn_safe s i k hr hm,
   fun s i k hr hm => scTick_spawn_safe s i k hr hm⟩

theorem task_start_requires_empty_slot_witness :
    Ev.spawnEv .releasesW ∈ (dsTick DsState.new dsInputC3).events ∧
    (DsState.new.background_thread = none ∧
      dsReceiverOf .releasesW DsState.new = false ∧
      dsValueOf .releasesW DsState.new = false) :=
  ⟨by decide,
   task_start_requires_empty_slot.1 DsState.new dsInputC3 .releasesW DsReach.init (by decide)⟩

theorem sfChooseVersionRender_bt (s : SfState) (i : SfInput) (evs : List Ev) :
    (sfChooseVersionRender s i evs).state.background_thread = s.background_thread := by
  unfold sfChooseVersionRender
  dsimp only
  repeat' split
  all_goals rfl

theorem sfChooseVersionRest_bt (s : SfState) (i : SfInput) (evs : List Ev) :
    (sfChooseVersionRest s i evs).state.background_thread = s.background_thread := by
  unfold sfChooseVersionRest
  dsimp only
  repeat' split
  all_goals first
  | rfl
  | exact sfChooseVersionRender_bt _ _ _

theorem sfChooseDriveRender_bt (s : SfState) (i : SfInput) (evs : List Ev) :
    (sfChooseDriveRender s i evs).state.background_thread = s.background_thread := by
  unfold sfChooseDriveRender
  dsimp only
  repeat' split
  all_goals rfl

/-- Driver-station page: a terminated panicked worker is observed by the
very next frame's two-phase poll (`take_if(is_finished)` + `join_thread`)
and surfaced as an ordinary error; the handle is dropped. -/
theorem dsTick_panic (s : DsState) (i : DsInput) (k : WorkKind) (msg : String)
    (hinv : DsInv s) (hbt : s.background_thread = some (k, .willPanic msg))
    (hfin : i.finished = true) :
    (dsTick s i).res = .error (.err ("Background thread failed: " ++ msg)) ∧
    (dsTick s i).state.background_thread = none := by
  have hk : dsThreadKind s = some k := by simp [dsThreadKind, hbt]
  obtain ⟨st, av, sv, ap, tt, tn, ti, ad, sd, ra, rb, rc, rd, bt⟩ := s
  have hbt' : bt = some (k, .willPanic msg) := hbt
  subst hbt'
  unfold dsTick
  cases k with
  | releasesW =>
    obtain ⟨hstep, hav⟩ := hinv.2.2.2.2.1 hk
    have hstep' : st = .chooseVersion := hstep
    have hav' : av = none := hav
    subst hstep' hav'
    unfold dsRunChooseVersion
    rw [hfin]
    exact ⟨rfl, rfl⟩
  | downloadW =>
    obtain ⟨hstep, hap⟩ := hinv.2.2.2.2.2.1 hk
    have hstep' : st = .downloadArchive := hstep
    have hap' : ap = none := hap
    subst hstep' hap'
    unfold dsRunDownloadArchive dsDownloadArchivePoll
    rw [hfin]
    exact ⟨rfl, rfl⟩
  | drivesW =>
    obtain ⟨hstep, had⟩ := hinv.2.2.2.2.2.2.1 hk
    have hstep' : st = .chooseDrive := hstep
    have had' : ad = none := had
    subst hstep' had'
    unfold dsRunChooseDrive
    rw [hfin]
    exact ⟨rfl, rfl⟩
  | installW =>
    have hstep : st = .installSoftware := hinv.2.2.2.2.2.2.2.1 hk
    have hrd : rd = true := hinv.2.2.2.1.mpr hk
    subst hstep hrd
    unfold dsRunInstallSoftware dsInstallPoll
    rw [hfin]
    exact ⟨rfl, rfl⟩

/-- Student-starter-code page: same two-phase poll as the driver-station
page; a terminated panicked worker is surfaced as an error on the next
finished frame. -/
theorem scTick_panic (s : ScState) (i : ScInput) (k : WorkKind) (msg : String)
    (hinv : ScInv s) (hbt : s.background_thread = some (k, .willPanic msg))
    (hfin : i.finished = true) :
    (scTick s i).res = .error (.err ("Background thread failed: " ++ msg)) ∧
    (scTick s i).state.background_thread = none := by
  have hk : scThreadKind s = some k := by simp [scThreadKind, hbt]
  obtain ⟨st, av, sv, fp, ad, sd, ra, rb, rc, rd, bt⟩ := s
  have hbt' : bt = some (k, .willPanic msg) := hbt
  subst hbt'
  unfold scTick
  cases k with
  | releasesW =>
    obtain ⟨hstep, hav⟩ := hinv.2.2.2.2.1 hk
    have hstep' : st = .chooseVersion := hstep
    have hav' : av = none := hav
    subst hstep' hav'
    unfold scRunChooseVersion
    rw [hfin]
    exact ⟨rfl, rfl⟩
  | downloadW =>
    obtain ⟨hstep, hfp⟩ := hinv.2.2.2.2.2.1 hk
    have hstep' : st = .downloadFirmware := hstep
    have hfp' : fp = none := hfp
    subst hstep' hfp'
    unfold scRunDownloadFirmware scDownloadPoll
    rw [hfin]
    exact ⟨rfl, rfl⟩
  | drivesW =>
    obtain ⟨hstep, had⟩ := hinv.2.2.2.2.2.2.1 hk
    have hstep' : st = .chooseDrive := hstep
    have had' : ad = none := had
    subst hstep' had'
    unfold scRunChooseDrive
    rw [hfin]
    exact ⟨rfl, rfl⟩
  | installW =>
    have hstep : st = .installFirmware := hinv.2.2.2.2.2.2.2.1 hk
    have hrd : rd = true := hinv.2.2.2.1.mpr hk
    subst hstep hrd
    unfold scRunInstallFirmware scInstallPoll
    rw [hfin]
    exact ⟨rfl, rfl⟩

/-- System-firmware page: its poll is `try_recv`-only, with no is-finished
check and no join of a silent worker.  A panicked worker never sends, so
`try_recv` never hits, the frame succeeds, and the dead handle stays in the
slot forever: the step stays Pending on every later frame. -/
theorem sfTick_panic (s : SfState) (i : SfInput) (k : WorkKind) (msg : String)
    (hinv : SfInv s) (hbt : s.background_thread = some (k, .willPanic msg)) :
    (sfTick s i).res = .ok () ∧
    (sfTick s i).state.background_thread = some (k, .willPanic msg) := by
  have hk : sfThreadKind s = some k := by simp [sfThreadKind, hbt]
  obtain ⟨st, av, sv, af, sfw, fp, ad, sd, ra, rb, rc, rd, bt⟩ := s
  have hbt' : bt = some (k, .willPanic msg) := hbt
  subst hbt'
  unfold sfTick
  cases k with
  | releasesW =>
    obtain ⟨hstep, hav⟩ := hinv.2.2.2.2.1 hk
    have hra : ra = true := hinv.1.mpr hk
    have hstep' : st = .chooseVersion := hstep
    have hav' : av = none := hav
    subst hstep' hav' hra
    refine ⟨rfl, ?_⟩
    have h := sfChooseVersionRest_bt
      ⟨.chooseVersion, none, sv, af, sfw, fp, ad, sd, true, rb, rc, rd,
        some (.releasesW, .willPanic msg)⟩ i ([] ++ [Ev.tryRecvEv false])
    exact h
  | downloadW =>
    obtain ⟨hstep, hfp⟩ := hinv.2.2.2.2.2.1 hk
    have hrb : rb = true := hinv.2.1.mpr hk
    have hstep' : st = .downloadFirmware := hstep
    have hfp' : fp = none := hfp
    subst hstep' hfp' hrb
    exact ⟨rfl, rfl⟩
  | drivesW =>
    obtain ⟨hstep, had⟩ := hinv.2.2.2.2.2.2.1 hk
    have hrc : rc = true := hinv.2.2.1.mpr hk
    have hstep' : st = .chooseDrive := hstep
    have had' : ad = none := had
    subst hstep' had' hrc
    refine ⟨rfl, ?_⟩
    have h := sfChooseDriveRender_bt
      ⟨.chooseDrive, av, sv, af, sfw, fp, none, sd, ra, rb, true, rd,
        some (.drivesW, .willPanic msg)⟩ i ([] ++ [Ev.tryRecvEv false])
    exact h
  | installW =>
    have hstep : st = .installFirmware := hinv.2.2.2.2.2.2.2.1 hk
    have hrd : rd = true := hinv.2.2.2.1.mpr hk
    subst hstep hrd
    exact ⟨rfl, rfl⟩

/-- A quiet system-firmware frame whose release fetch fails, making the
spawned worker panic. -/
def sfInputPanicSpawn : SfInput :=
  { finished := false
    releasesRes := .error "boom"
    downloadRes := .ok ""
    drivesRes := .ok []
    copyRes := .ok ()
    selectVersion := none
    selectFirmware := none
    selectDrive := none
    clickNext := false
    clickRefresh := false
    clickInstall := false
    clickAnother := false }

/-- A later quiet system-firmware frame on which the worker has terminated. -/
def sfInputPanicPoll : SfInput :=
  { sfInputPanicSpawn with finished := true }

/-- **C1** is wrong for the system-firmware page: from the reachable state
holding a terminated, panicked release-fetch worker, the next frame's
`try_recv`-only poll does not observe the termination — the frame returns
`Ok` (no error is surfaced) and the state, including the dead handle in the
slot, is exactly unchanged, so the step stays Pending. -/
theorem panicked_worker_never_observed_cex :
    SfReach (sfTick SfState.new sfInputPanicSpawn).state ∧
    (sfTick SfState.new sfInputPanicSpawn).state.background_thread
      = some (.releasesW, .willPanic "Result::unwrap on Err: boom") ∧
    (sfTick (sfTick SfState.new sfInputPanicSpawn).state sfInputPanicPoll).res = .ok () ∧
    (sfTick (sfTick SfState.new sfInputPanicSpawn).state sfInputPanicPoll).state
      = (sfTick SfState.new sfInputPanicSpawn).state :=
  ⟨SfReach.tick _ _ SfReach.init (by decide), by decide, by decide, by decide⟩

/-- **C1** (amended): on the driver-station and student-starter-code pages a
terminated panicked worker is observed by the next finished frame's
two-phase poll and converted into the ordinary error
`"Background thread failed: <payload>"`, with the handle dropped — the UI
thread itself never runs the panic.  On the system-firmware page, however,
the `try_recv`-only poll never observes a panicked worker: every later
frame returns `Ok` and leaves the dead handle in the slot (permanently
Pending). -/
theorem abnormal_worker_termination_amended :
    (∀ (s : DsState) (i : DsInput) (k : WorkKind) (msg : String),
      DsReach s → s.background_thread = some (k, .willPanic msg) → i.finished = true →
      (dsTick s i).res = .error (.err ("Background thread failed: " ++ msg)) ∧
      (dsTick s i).state.background_thread = none) ∧
    (∀ (s : ScState) (i : ScInput) (k : WorkKind) (msg : String),
      ScReach s → s.background_thread = some (k, .willPanic msg) → i.finished = true →
      (scTick s i).res = .error (.err ("Background thread failed: " ++ msg)) ∧
      (scTick s i).state.background_thread = none) ∧
    (∀ (s : SfState) (i : SfInput) (k : WorkKind) (msg : String),
      SfReach s → s.background_thread = some (k, .willPanic msg) →
      (sfTick s i).res = .ok () ∧
      (sfTick s i).state.background_thread = some (k, .willPanic msg)) :=
  ⟨fun s i k msg hr hbt hfin => dsTick_panic s i k msg (dsReach_inv s hr) hbt hfin,
   fun s i k msg hr hbt hfin => scTick_panic s i k msg (scReach_inv s hr) hbt hfin,
   fun s i k msg hr hbt => sfTick_panic s i k msg (sfReach_inv s hr) hbt⟩

/-- A quiet driver-station frame whose release fetch fails, making the
spawned worker panic. -/
def dsInputPanicSpawn : DsInput :=
  { finished := false
    releasesRes := .error "boom"
    downloadRes := .ok ""
    drivesRes := .ok []
    installEnv := { formatRes := .ok (), extractRes := .ok (), flushRes := .ok () }
    fileOpenRes := .ok ()
    selectVersion := none
    selectDrive := none
    textEdit := none
    clickNext := false
    clickRefresh := false
    clickInstall := false }

/-- A later quiet driver-station frame on which the worker has terminated. -/
def dsInputPanicPoll : DsInput :=
  { dsInputPanicSpawn with finished := true }

theorem abnormal_worker_termination_amended_witness :
    DsReach (dsTick DsState.new dsInputPanicSpawn).state ∧
    (dsTick DsState.new dsInputPanicSpawn).state.background_thread
      = some (.releasesW, .willPanic "Failed to fetch GitHub releases.: boom") ∧
    dsInputPanicPoll.finished = true ∧
    ((dsTick (dsTick DsState.new dsInputPanicSpawn).state dsInputPanicPoll).res
        = .error (.err ("Background thread failed: "
            ++ "Failed to fetch GitHub releases.: boom")) ∧
      (dsTick (dsTick DsState.new dsInputPanicSpawn).state
          dsInputPanicPoll).state.background_thread = none) :=
  ⟨DsReach.tick _ _ DsReach.init (by decide), by decide, rfl,
   abnormal_worker_termination_amended.1 _ dsInputPanicPoll .releasesW
     "Failed to fetch GitHub releases.: boom"
     (DsReach.tick _ _ DsReach.init (by decide)) (by decide) rfl⟩

/-- Discipline required by the spec: a handle is joined only immediately
after a non-blocking is-finished check on it has returned true. -/
def joinsAfterFinCheck : List Ev → Bool
  | .finCheckEv true :: .joinEv :: rest => joinsAfterFinCheck rest
  | .joinEv :: _ => false
  | _ :: rest => joinsAfterFinCheck rest
  | [] => true

/-- Weaker discipline: a handle is joined only immediately after either a
true is-finished check or a successful (message-yielding) `try_recv`. -/
def joinsAfterObserved : List Ev → Bool
  | .finCheckEv true :: .joinEv :: rest => joinsAfterObserved rest
  | .tryRecvEv true :: .joinEv :: rest => joinsAfterObserved rest
  | .joinEv :: _ => false
  | _ :: rest => joinsAfterObserved rest
  | [] => true

/-- Every blocking channel read a frame performs is a `recv_timeout` of
exactly one second (`try_recv` reads are non-blocking by construction). -/
def recvTimeoutsBounded (evs : List Ev) : Bool :=
  evs.all (fun e =>
    match e with
    | .recvTimeoutEv n => n == 1
    | _ => true)

theorem dsDownloadArchivePoll_evshape (s : DsState) (fin : Bool) (e0 : List Ev)
    (h : e0 = [] ∨ e0 = [Ev.spawnEv .downloadW]) :
    joinsAfterFinCheck (dsDownloadArchivePoll s e0 fin).events = true ∧
    recvTimeoutsBounded (dsDownloadArchivePoll s e0 fin).events = true := by
  unfold dsDownloadArchivePoll
  rcases h with rfl | rfl <;>
  · cases hbt2 : s.background_thread with
    | none => exact ⟨rfl, rfl⟩
    | some kw =>
      obtain ⟨k, w⟩ := kw
      cases fin
      · exact ⟨rfl, rfl⟩
      · cases w with
        | willPanic m => exact ⟨rfl, rfl⟩
        | willSend m =>
          cases hrb2 : s.download_finished_receiver
          · simp only [hrb2]
            exact ⟨rfl, rfl⟩
          · simp only [hrb2]
            cases m <;> exact ⟨rfl, rfl⟩

theorem dsInstallPoll_evshape (s : DsState) (fin : Bool) (e0 : List Ev)
    (h : e0 = [] ∨ e0 = [Ev.spawnEv .installW]) :
    joinsAfterFinCheck (dsInstallPoll s e0 fin).events = true ∧
    recvTimeoutsBounded (dsInstallPoll s e0 fin).events = true := by
  unfold dsInstallPoll
  rcases h with rfl | rfl <;>
  · cases hbt2 : s.background_thread with
    | none => exact ⟨rfl, rfl⟩
    | some kw =>
      obtain ⟨k, w⟩ := kw
      cases fin
      · exact ⟨rfl, rfl⟩
      · cases w with
        | willPanic m => exact ⟨rfl, rfl⟩
        | willSend m =>
          cases hrd2 : s.install_finished_receiver
          · simp only [hrd2]
            exact ⟨rfl, rfl⟩
          · simp only [hrd2]
            exact ⟨rfl, rfl⟩

theorem dsTick_evshape (s : DsState) (i : DsInput) :
    joinsAfterFinCheck (dsTick s i).events = true ∧
    recvTimeoutsBounded (dsTick s i).events = true := by
  unfold dsTick
  cases s.current_step with
  | chooseVersion =>
    unfold dsRunChooseVersion
    by_cases hsp : (s.available_releases.isNone && s.background_thread.isNone) = true
    · rw [hsp]
      cases hfin : i.finished
      · refine ⟨?_, ?_⟩ <;>
          simp [dsChooseVersionAuto_events, joinsAfterFinCheck, recvTimeoutsBounded]
      · cases hres : i.releasesRes with
        | ok rs =>
          refine ⟨?_, ?_⟩ <;>
            simp [dsChooseVersionAuto_events, dsReleasesClosure, joinsAfterFinCheck,
              recvTimeoutsBounded]
        | error e =>
          refine ⟨?_, ?_⟩ <;>
            simp [dsReleasesClosure, joinsAfterFinCheck, recvTimeoutsBounded]
    · rw [Bool.not_eq_true] at hsp
      simp only [hsp, Bool.false_eq_true, if_false]
      cases hbt2 : s.background_thread with
      | none =>
        refine ⟨?_, ?_⟩ <;>
          simp [dsChooseVersionAuto_events, joinsAfterFinCheck, recvTimeoutsBounded]
      | some kw =>
        obtain ⟨k, w⟩ := kw
        cases hfin : i.finished
        · refine ⟨?_, ?_⟩ <;>
            simp [dsChooseVersionAuto_events, joinsAfterFinCheck, recvTimeoutsBounded]
        · cases w with
          | willPanic msg =>
            refine ⟨?_, ?_⟩ <;> simp [joinsAfterFinCheck, recvTimeoutsBounded]
          | willSend m =>
            cases hra2 : s.available_releases_receiver
            · simp only [hra2]
              refine ⟨?_, ?_⟩ <;> simp [joinsAfterFinCheck, recvTimeoutsBounded]
            · simp only [hra2]
              cases m with
              | mReleases rs =>
                refine ⟨?_, ?_⟩ <;>
                  simp [dsChooseVersionAuto_events, joinsAfterFinCheck, recvTimeoutsBounded]
              | mPath p =>
                refine ⟨?_, ?_⟩ <;> simp [joinsAfterFinCheck, recvTimeoutsBounded]
              | mDrives ds =>
                refine ⟨?_, ?_⟩ <;> simp [joinsAfterFinCheck, recvTimeoutsBounded]
              | mUnit =>
                refine ⟨?_, ?_⟩ <;> simp [joinsAfterFinCheck, recvTimeoutsBounded]
  | enterTeamNumbers =>
    rw [dsRunEnterTeamNumbers_events]
    exact ⟨rfl, rfl⟩
  | downloadArchive =>
    unfold dsRunDownloadArchive
    by_cases hsp : (s.archive_path.isNone && s.background_thread.isNone) = true
    · rw [hsp]
      cases hsv : s.software_version with
      | none => exact ⟨rfl, rfl⟩
      | some rel =>
        simp only [eq_self_iff_true, if_true]
        exact dsDownloadArchivePoll_evshape _ i.finished _ (Or.inr rfl)
    · rw [Bool.not_eq_true] at hsp
      simp only [hsp, Bool.false_eq_true, if_false]
      exact dsDownloadArchivePoll_evshape s i.finished [] (Or.inl rfl)
  | chooseDrive =>
    unfold dsRunChooseDrive
    by_cases hsp : (s.available_drives.isNone && s.background_thread.isNone) = true
    · rw [hsp]
      cases hfin : i.finished
      · refine ⟨?_, ?_⟩ <;>
          simp [dsChooseDriveRender_events, joinsAfterFinCheck, recvTimeoutsBounded]
      · cases hres : i.drivesRes with
        | ok ds =>
          refine ⟨?_, ?_⟩ <;>
            simp [dsChooseDriveRender_events, dsDrivesClosure, joinsAfterFinCheck,
              recvTimeoutsBounded]
        | error e =>
          refine ⟨?_, ?_⟩ <;>
            simp [dsDrivesClosure, joinsAfterFinCheck, recvTimeoutsBounded]
    · rw [Bool.not_eq_true] at hsp
      simp only [hsp, Bool.false_eq_true, if_false]
      cases hbt2 : s.background_thread with
      | none =>
        refine ⟨?_, ?_⟩ <;>
          simp [dsChooseDriveRender_events, joinsAfterFinCheck, recvTimeoutsBounded]
      | some kw =>
        obtain ⟨k, w⟩ := kw
        cases hfin : i.finished
        · refine ⟨?_, ?_⟩ <;>
            simp [dsChooseDriveRender_events, joinsAfterFinCheck, recvTimeoutsBounded]
        · cases w with
          | willPanic msg =>
            refine ⟨?_, ?_⟩ <;> simp [joinsAfterFinCheck, recvTimeoutsBounded]
          | willSend m =>
            cases hrc2 : s.drive_list_receiver
            · simp only [hrc2]
              refine ⟨?_, ?_⟩ <;> simp [joinsAfterFinCheck, recvTimeoutsBounded]
            · simp only [hrc2]
              cases m with
              | mDrives ds =>
                refine ⟨?_, ?_⟩ <;>
                  simp [dsChooseDriveRender_events, joinsAfterFinCheck, recvTimeoutsBounded]
              | mReleases rs =>
                refine ⟨?_, ?_⟩ <;> simp [joinsAfterFinCheck, recvTimeoutsBounded]
              | mPath p =>
                refine ⟨?_, ?_⟩ <;> simp [joinsAfterFinCheck, recvTimeoutsBounded]
              | mUnit =>
                refine ⟨?_, ?_⟩ <;> simp [joinsAfterFinCheck, recvTimeoutsBounded]
  | installSoftware =>
    unfold dsRunInstallSoftware
    by_cases hg : (!s.install_finished_receiver) = true
    · rw [hg]
      dsimp only
      cases hap : s.archive_path with
      | none => exact ⟨rfl, rfl⟩
      | some p =>
        cases hsd : s.selected_drive with
        | none => exact ⟨rfl, rfl⟩
        | some d =>
          cases hfo : i.fileOpenRes with
          | error e => exact ⟨rfl, rfl⟩
          | ok u =>
            cases u
            by_cases hidx : s.team_number_index < s.team_numbers.length
            · rw [if_pos hidx]
              simp only [eq_self_iff_true, if_true]
              exact dsInstallPoll_evshape _ i.finished _ (Or.inr rfl)
            · rw [if_neg hidx]
              exact ⟨rfl, rfl⟩
    · rw [Bool.not_eq_true] at hg
      simp only [hg, Bool.false_eq_true, if_false]
      exact dsInstallPoll_evshape s i.finished [] (Or.inl rfl)
  | removeCard =>
    rw [dsRunRemoveCard_events]
    exact ⟨rfl, rfl⟩

theorem scDownloadPoll_evshape (s : ScState) (fin : Bool) (e0 : List Ev)
    (h : e0 = [] ∨ e0 = [Ev.spawnEv .downloadW]) :
    joinsAfterFinCheck (scDownloadPoll s e0 fin).events = true ∧
    recvTimeoutsBounded (scDownloadPoll s e0 fin).events = true := by
  unfold scDownloadPoll
  rcases h with rfl | rfl <;>
  · cases hbt2 : s.background_thread with
    | none => exact ⟨rfl, rfl⟩
    | some kw =>
      obtain ⟨k, w⟩ := kw
      cases fin
      · exact ⟨rfl, rfl⟩
      · cases w with
        | willPanic m => exact ⟨rfl, rfl⟩
        | willSend m =>
          cases hrb2 : s.download_finished_receiver
          · simp only [hrb2]
            exact ⟨rfl, rfl⟩
          · simp only [hrb2]
            cases m with
            | mPath p => exact ⟨rfl, rfl⟩
            | mReleases rs => exact ⟨rfl, rfl⟩
            | mDrives ds => exact ⟨rfl, rfl⟩
            | mUnit => exact ⟨rfl, rfl⟩

theorem scInstallPoll_evshape (s : ScState) (fin : Bool) (e0 : List Ev)
    (h : e0 = [] ∨ e0 = [Ev.spawnEv .installW]) :
    joinsAfterFinCheck (scInstallPoll s e0 fin).events = true ∧
    recvTimeoutsBounded (scInstallPoll s e0 fin).events = true := by
  unfold scInstallPoll
  rcases h with rfl | rfl <;>
  · cases hbt2 : s.background_thread with
    | none => exact ⟨rfl, rfl⟩
    | some kw =>
      obtain ⟨k, w⟩ := kw
      cases fin
      · exact ⟨rfl, rfl⟩
      · cases w with
        | willPanic m => exact ⟨rfl, rfl⟩
        | willSend m => exact ⟨rfl, rfl⟩

theorem scTick_evshape (s : ScState) (i : ScInput) :
    joinsAfterFinCheck (scTick s i).events = true ∧
    recvTimeoutsBounded (scTick s i).events = true := by
  unfold scTick
  cases s.current_step with
  | chooseVersion =>
    unfold scRunChooseVersion
    by_cases hsp : (s.available_releases.isNone && s.background_thread.isNone) = true
    · rw [hsp]
      cases hfin : i.finished
      · refine ⟨?_, ?_⟩ <;>
          simp [scChooseVersionAuto_events, joinsAfterFinCheck, recvTimeoutsBounded]
      · cases hres : i.releasesRes with
        | ok rs =>
          refine ⟨?_, ?_⟩ <;>
            simp [scChooseVersionAuto_events, scReleasesClosure, joinsAfterFinCheck,
              recvTimeoutsBounded]
        | error e =>
          refine ⟨?_, ?_⟩ <;>
            simp [scReleasesClosure, joinsAfterFinCheck, recvTimeoutsBounded]
    · rw [Bool.not_eq_true] at hsp
      simp only [hsp, Bool.false_eq_true, if_false]
      cases hbt2 : s.background_thread with
      | none =>
        refine ⟨?_, ?_⟩ <;>
          simp [scChooseVersionAuto_events, joinsAfterFinCheck, recvTimeoutsBounded]
      | some kw =>
        obtain ⟨k, w⟩ := kw
        cases hfin : i.finished
        · refine ⟨?_, ?_⟩ <;>
            simp [scChooseVersionAuto_events, joinsAfterFinCheck, recvTimeoutsBounded]
        · cases w with
          | willPanic msg =>
            refine ⟨?_, ?_⟩ <;> simp [joinsAfterFinCheck, recvTimeoutsBounded]
          | willSend m =>
            cases hra2 : s.available_releases_receiver
            · simp only [hra2]
              refine ⟨?_, ?_⟩ <;> simp [joinsAfterFinCheck, recvTimeoutsBounded]
            · simp only [hra2]
              cases m with
              | mReleases rs =>
                refine ⟨?_, ?_⟩ <;>
                  simp [scChooseVersionAuto_events, joinsAfterFinCheck, recvTimeoutsBounded]
              | mPath p =>
                refine ⟨?_, ?_⟩ <;> simp [joinsAfterFinCheck, recvTimeoutsBounded]
              | mDrives ds =>
                refine ⟨?_, ?_⟩ <;> simp [joinsAfterFinCheck, recvTimeoutsBounded]
              | mUnit =>
                refine ⟨?_, ?_⟩ <;> simp [joinsAfterFinCheck, recvTimeoutsBounded]
  | downloadFirmware =>
    unfold scRunDownloadFirmware
    by_cases hsp : (s.firmware_path.isNone && s.background_thread.isNone) = true
    · rw [hsp]
      cases hsv : s.software_version with
      | none => exact ⟨rfl, rfl⟩
      | some rel =>
        simp only [eq_self_iff_true, if_true]
        cases hfind : rel.assets.find? (fun a =>
            a.name == "best-default-program-" ++ rel.tag_name ++ ".uf2") with
        | none => exact ⟨rfl, rfl⟩
        | some a => exact scDownloadPoll_evshape _ i.finished _ (Or.inr rfl)
    · rw [Bool.not_eq_true] at hsp
      simp only [hsp, Bool.false_eq_true, if_false]
      exact scDownloadPoll_evshape s i.finished [] (Or.inl rfl)
  | chooseDrive =>
    unfold scRunChooseDrive
    by_cases hsp : (s.available_drives.isNone && s.background_thread.isNone) = true
    · rw [hsp]
      cases hfin : i.finished
      · refine ⟨?_, ?_⟩ <;>
          simp [scChooseDriveRender_events, joinsAfterFinCheck, recvTimeoutsBounded]
      · cases hres : i.drivesRes with
        | ok ds =>
          refine ⟨?_, ?_⟩ <;>
            simp [scChooseDriveRender_events, scDrivesClosure, joinsAfterFinCheck,
              recvTimeoutsBounded]
        | error e =>
          refine ⟨?_, ?_⟩ <;>
            simp [scDrivesClosure, joinsAfterFinCheck, recvTimeoutsBounded]
    · rw [Bool.not_eq_true] at hsp
      simp only [hsp, Bool.false_eq_true, if_false]
      cases hbt2 : s.background_thread with
      | none =>
        refine ⟨?_, ?_⟩ <;>
          simp [scChooseDriveRender_events, joinsAfterFinCheck, recvTimeoutsBounded]
      | some kw =>
        obtain ⟨k, w⟩ := kw
        cases hfin : i.finished
        · refine ⟨?_, ?_⟩ <;>
            simp [scChooseDriveRender_events, joinsAfterFinCheck, recvTimeoutsBounded]
        · cases w with
          | willPanic msg =>
            refine ⟨?_, ?_⟩ <;> simp [joinsAfterFinCheck, recvTimeoutsBounded]
          | willSend m =>
            cases hrc2 : s.drive_list_receiver
            · simp only [hrc2]
              refine ⟨?_, ?_⟩ <;> simp [joinsAfterFinCheck, recvTimeoutsBounded]
            · simp only [hrc2]
              cases m with
              | mDrives ds =>
                refine ⟨?_, ?_⟩ <;>
                  simp [scChooseDriveRender_events, joinsAfterFinCheck, recvTimeoutsBounded]
              | mReleases rs =>
                refine ⟨?_, ?_⟩ <;> simp [joinsAfterFinCheck, recvTimeoutsBounded]
              | mPath p =>
                refine ⟨?_, ?_⟩ <;> simp [joinsAfterFinCheck, recvTimeoutsBounded]
              | mUnit =>
                refine ⟨?_, ?_⟩ <;> simp [joinsAfterFinCheck, recvTimeoutsBounded]
  | installFirmware =>
    unfold scRunInstallFirmware
    by_cases hg : (!s.install_finished_receiver) = true
    · rw [hg]
      dsimp only
      cases hfp : s.firmware_path with
      | none => exact ⟨rfl, rfl⟩
      | some p =>
        cases hsd : s.selected_drive with
        | none => exact ⟨rfl, rfl⟩
        | some d =>
          simp only [eq_self_iff_true, if_true]
          exact scInstallPoll_evshape _ i.finished _ (Or.inr rfl)
    · rw [Bool.not_eq_true] at hg
      simp only [hg, Bool.false_eq_true, if_false]
      exact scInstallPoll_evshape s i.finished [] (Or.inl rfl)
  | postInstall =>
    rw [scRunPostInstall_events]
    exact ⟨rfl, rfl⟩

theorem sfDownloadPoll_evshape (s : SfState) (fin : Bool) (e0 : List Ev)
    (h : e0 = [] ∨ e0 = [Ev.spawnEv .downloadW]) :
    joinsAfterObserved (sfDownloadPoll s e0 fin).events = true ∧
    recvTimeoutsBounded (sfDownloadPoll s e0 fin).events = true := by
  unfold sfDownloadPoll
  rcases h with rfl | rfl <;>
  · cases hrb : s.download_finished_receiver
    · simp only [Bool.false_eq_true, if_false]
      exact ⟨rfl, rfl⟩
    · simp only [eq_self_iff_true, if_true]
      cases hbt2 : s.background_thread with
      | none => exact ⟨rfl, rfl⟩
      | some kw =>
        obtain ⟨k, w⟩ := kw
        cases w with
        | willPanic m => exact ⟨rfl, rfl⟩
        | willSend m =>
          cases fin
          · exact ⟨rfl, rfl⟩
          · cases m with
            | mPath p => exact ⟨rfl, rfl⟩
            | mReleases rs => exact ⟨rfl, rfl⟩
            | mDrives ds => exact ⟨rfl, rfl⟩
            | mUnit => exact ⟨rfl, rfl⟩

theorem sfTick_evshape (s : SfState) (i : SfInput) :
    joinsAfterObserved (sfTick s i).events = true ∧
    recvTimeoutsBounded (sfTick s i).events = true := by
  unfold sfTick
  cases s.current_step with
  | chooseVersion =>
    unfold sfRunChooseVersion
    by_cases hsp : (s.available_releases.isNone && s.background_thread.isNone) = true
    · rw [hsp]
      cases hfin : i.finished
      · cases hres : i.releasesRes with
        | ok rs =>
          refine ⟨?_, ?_⟩ <;>
            simp [sfChooseVersionRest_events, sfReleasesClosure, sfTryRecv,
              joinsAfterObserved, recvTimeoutsBounded]
        | error e =>
          refine ⟨?_, ?_⟩ <;>
            simp [sfChooseVersionRest_events, sfReleasesClosure, sfTryRecv,
              joinsAfterObserved, recvTimeoutsBounded]
      · cases hres : i.releasesRes with
        | ok rs =>
          refine ⟨?_, ?_⟩ <;>
            simp [sfChooseVersionRest_events, sfReleasesClosure, sfTryRecv,
              joinsAfterObserved, recvTimeoutsBounded]
        | error e =>
          refine ⟨?_, ?_⟩ <;>
            simp [sfChooseVersionRest_events, sfReleasesClosure, sfTryRecv,
              joinsAfterObserved, recvTimeoutsBounded]
    · rw [Bool.not_eq_true] at hsp
      simp only [hsp, Bool.false_eq_true, if_false]
      cases hra2 : s.available_relases_receiver
      · refine ⟨?_, ?_⟩ <;>
          simp [sfChooseVersionRest_events, joinsAfterObserved, recvTimeoutsBounded]
      · cases hbt2 : s.background_thread with
        | none =>
          refine ⟨?_, ?_⟩ <;>
            simp [sfChooseVersionRest_events, sfTryRecv, joinsAfterObserved,
              recvTimeoutsBounded]
        | some kw =>
          obtain ⟨k, w⟩ := kw
          cases w with
          | willPanic msg =>
            refine ⟨?_, ?_⟩ <;>
              simp [sfChooseVersionRest_events, sfTryRecv, joinsAfterObserved,
                recvTimeoutsBounded]
          | willSend m =>
            cases hfin : i.finished
            · refine ⟨?_, ?_⟩ <;>
                simp [sfChooseVersionRest_events, sfTryRecv, joinsAfterObserved,
                  recvTimeoutsBounded]
            · cases m with
              | mReleases rs =>
                refine ⟨?_, ?_⟩ <;>
                  simp [sfChooseVersionRest_events, sfTryRecv, joinsAfterObserved,
                    recvTimeoutsBounded]
              | mPath p =>
                refine ⟨?_, ?_⟩ <;> simp [sfTryRecv, joinsAfterObserved, recvTimeoutsBounded]
              | mDrives ds =>
                refine ⟨?_, ?_⟩ <;> simp [sfTryRecv, joinsAfterObserved, recvTimeoutsBounded]
              | mUnit =>
                refine ⟨?_, ?_⟩ <;> simp [sfTryRecv, joinsAfterObserved, recvTimeoutsBounded]
  | chooseBoardRevision =>
    rw [sfRunChooseBoardRevision_events]
    exact ⟨rfl, rfl⟩
  | downloadFirmware =>
    unfold sfRunDownloadFirmware
    by_cases hsp : (s.firmware_path.isNone && s.background_thread.isNone) = true
    · rw [hsp]
      cases hsv : s.software_version with
      | none =>
        cases hsfw : s.selected_firmware with
        | none => exact ⟨rfl, rfl⟩
        | some f => exact ⟨rfl, rfl⟩
      | some v =>
        cases hsfw : s.selected_firmware with
        | none => exact ⟨rfl, rfl⟩
        | some f =>
          simp only [eq_self_iff_true, if_true]
          exact sfDownloadPoll_evshape _ i.finished _ (Or.inr rfl)
    · rw [Bool.not_eq_true] at hsp
      simp only [hsp, Bool.false_eq_true, if_false]
      exact sfDownloadPoll_evshape s i.finished [] (Or.inl rfl)
  | chooseDrive =>
    unfold sfRunChooseDrive
    by_cases hsp : (s.available_drives.isNone && s.background_thread.isNone) = true
    · rw [hsp]
      cases hfin : i.finished
      · cases hres : i.drivesRes with
        | ok ds =>
          refine ⟨?_, ?_⟩ <;>
            simp [sfChooseDriveRender_events, sfDrivesClosure, sfTryRecv,
              joinsAfterObserved, recvTimeoutsBounded]
        | error e =>
          refine ⟨?_, ?_⟩ <;>
            simp [sfChooseDriveRender_events, sfDrivesClosure, sfTryRecv,
              joinsAfterObserved, recvTimeoutsBounded]
      · cases hres : i.drivesRes with
        | ok ds =>
          refine ⟨?_, ?_⟩ <;>
            simp [sfChooseDriveRender_events, sfDrivesClosure, sfTryRecv,
              joinsAfterObserved, recvTimeoutsBounded]
        | error e =>
          refine ⟨?_, ?_⟩ <;>
            simp [sfChooseDriveRender_events, sfDrivesClosure, sfTryRecv,
              joinsAfterObserved, recvTimeoutsBounded]
    · rw [Bool.not_eq_true] at hsp
      simp only [hsp, Bool.false_eq_true, if_false]
      cases hrc2 : s.drive_list_receiver
      · refine ⟨?_, ?_⟩ <;>
          simp [sfChooseDriveRender_events, joinsAfterObserved, recvTimeoutsBounded]
      · cases hbt2 : s.background_thread with
        | none =>
          refine ⟨?_, ?_⟩ <;>
            simp [sfChooseDriveRender_events, sfTryRecv, joinsAfterObserved,
              recvTimeoutsBounded]
        | some kw =>
          obtain ⟨k, w⟩ := kw
          cases w with
          | willPanic msg =>
            refine ⟨?_, ?_⟩ <;>
              simp [sfChooseDriveRender_events, sfTryRecv, joinsAfterObserved,
                recvTimeoutsBounded]
          | willSend m =>
            cases hfin : i.finished
            · refine ⟨?_, ?_⟩ <;>
                simp [sfChooseDriveRender_events, sfTryRecv, joinsAfterObserved,
                  recvTimeoutsBounded]
            · cases m with
              | mDrives ds =>
                refine ⟨?_, ?_⟩ <;>
                  simp [sfChooseDriveRender_events, sfTryRecv, joinsAfterObserved,
                    recvTimeoutsBounded]
              | mReleases rs =>
                refine ⟨?_, ?_⟩ <;> simp [sfTryRecv, joinsAfterObserved, recvTimeoutsBounded]
              | mPath p =>
                refine ⟨?_, ?_⟩ <;> simp [sfTryRecv, joinsAfterObserved, recvTimeoutsBounded]
              | mUnit =>
                refine ⟨?_, ?_⟩ <;> simp [sfTryRecv, joinsAfterObserved, recvTimeoutsBounded]
  | installFirmware =>
    unfold sfRunInstallFirmware
    by_cases hg : (!s.install_finished_receiver) = true
    · rw [hg]
      dsimp only
      cases hfp : s.firmware_path with
      | none => exact ⟨rfl, rfl⟩
      | some p =>
        cases hsd : s.selected_drive with
        | none => exact ⟨rfl, rfl⟩
        | some d =>
          cases hfin : i.finished
          · cases hco : i.copyRes with
            | ok u =>
              cases u
              exact ⟨rfl, rfl⟩
            | error e => exact ⟨rfl, rfl⟩
          · cases hco : i.copyRes with
            | ok u =>
              cases u
              exact ⟨rfl, rfl⟩
            | error e => exact ⟨rfl, rfl⟩
    · rw [Bool.not_eq_true] at hg
      have hrd2 : s.install_finished_receiver = true := by
        simpa using hg
      simp only [hg, Bool.false_eq_true, if_false]
      simp only [hrd2, eq_self_iff_true, if_true]
      cases hbt2 : s.background_thread with
      | none => exact ⟨rfl, rfl⟩
      | some kw =>
        obtain ⟨k, w⟩ := kw
        cases w with
        | willPanic msg => exact ⟨rfl, rfl⟩
        | willSend m =>
          cases hfin : i.finished
          · exact ⟨rfl, rfl⟩
          · cases m with
            | mUnit => exact ⟨rfl, rfl⟩
            | mReleases rs => exact ⟨rfl, rfl⟩
            | mPath p => exact ⟨rfl, rfl⟩
            | mDrives ds => exact ⟨rfl, rfl⟩
  | postInstall =>
    rw [sfRunPostInstall_events]
    exact ⟨rfl, rfl⟩

/-- A system-firmware frame whose release fetch succeeds and whose worker
has terminated, so the frame's `try_recv` hits. -/
def sfInputC2 : SfInput :=
  { sfInputPanicSpawn with finished := true, releasesRes := .ok [] }

/-- **C2** is wrong for the system-firmware page: the very first frame from
`new()` spawns the release fetch and, the worker having sent, consumes it —
the join happens right after a successful `try_recv`, with no is-finished
check on the handle anywhere before it. -/
theorem join_without_finished_check_cex :
    SfReach SfState.new ∧
    Ev.joinEv ∈ (sfTick SfState.new sfInputC2).events ∧
    joinsAfterFinCheck (sfTick SfState.new sfInputC2).events = false :=
  ⟨SfReach.init, by decide, by decide⟩

/-- **C2** (amended): on the driver-station and student-starter-code pages
every frame's trace obeys the spec's two-phase discipline — a join happens
only immediately after an is-finished check returned true, and every
blocking channel read is a one-second `recv_timeout`.  The system-firmware
page joins only immediately after a successful non-blocking `try_recv`
(the worker has already sent, hence terminated or about to), never after an
is-finished check — so the weaker join-after-observed-completion bound
holds there, and it performs no blocking read at all. -/
theorem poll_nonblocking_amended :
    (∀ (s : DsState) (i : DsInput),
      joinsAfterFinCheck (dsTick s i).events = true ∧
      recvTimeoutsBounded (dsTick s i).events = true) ∧
    (∀ (s : ScState) (i : ScInput),
      joinsAfterFinCheck (scTick s i).events = true ∧
      recvTimeoutsBounded (scTick s i).events = true) ∧
    (∀ (s : SfState) (i : SfInput),
      joinsAfterObserved (sfTick s i).events = true ∧
      recvTimeoutsBounded (sfTick s i).events = true) :=
  ⟨dsTick_evshape, scTick_evshape, sfTick_evshape⟩

/-- **C7**: in the driver-station RemoveCard step with a non-empty
team-numbers list: while the index is strictly below length minus one,
clicking Next increments the index by exactly one, clears both
`selected_drive` and `available_drives`, and jumps back to ChooseDrive;
when the index equals length minus one, the Next affordance is not offered
and the frame leaves the state untouched. -/
theorem remove_card_next_target :
    ∀ (s : DsState) (i : DsInput),
      s.current_step = .removeCard →
      s.team_numbers ≠ [] →
      ((s.team_number_index < s.team_numbers.length - 1 →
          i.clickNext = true →
          (dsTick s i).res = .ok () ∧
          (dsTick s i).state.team_number_index = s.team_number_index + 1 ∧
          (dsTick s i).state.selected_drive = none ∧
          (dsTick s i).state.available_drives = none ∧
          (dsTick s i).state.current_step = .chooseDrive) ∧
        (s.team_number_index = s.team_numbers.length - 1 →
          dsRemoveCardOffersNext s = false ∧
          (dsTick s i).state = s ∧
          (dsTick s i).res = .ok ())) := by
  intro s i hstep hne
  constructor
  · intro hidx hclick
    have hlen : s.team_number_index < s.team_numbers.length :=
      lt_of_lt_of_le hidx (Nat.sub_le _ _)
    have hoff : dsRemoveCardOffersNext s = true := by
      simp only [dsRemoveCardOffersNext, decide_eq_true_eq]
      exact hidx
    unfold dsTick
    rw [hstep]
    unfold dsRunRemoveCard
    rw [if_pos hlen, hoff, hclick]
    exact ⟨rfl, rfl, rfl, rfl, rfl⟩
  · intro heq
    have hlen1 : 1 ≤ s.team_numbers.length := by
      cases hl : s.team_numbers with
      | nil => exact absurd hl hne
      | cons a l => simp
    have hlen : s.team_number_index < s.team_numbers.length := by
      rw [heq]
      exact Nat.sub_lt (lt_of_lt_of_le Nat.zero_lt_one hlen1) Nat.zero_lt_one
    have hoff : dsRemoveCardOffersNext s = false := by
      simp [dsRemoveCardOffersNext, heq]
    refine ⟨hoff, ?_, ?_⟩ <;>
    · unfold dsTick
      rw [hstep]
      unfold dsRunRemoveCard
      rw [if_pos hlen, hoff]
      rfl

/-- A RemoveCard state with two pending team numbers and the first still
current. -/
def dsRemoveCardState : DsState :=
  { DsState.new with current_step := .removeCard, team_numbers := ["100", "200"] }

/-- A quiet driver-station frame with only the Next button clicked. -/
def dsInputNext : DsInput :=
  { dsInputPanicSpawn with clickNext := true }

theorem remove_card_next_target_witness :
    dsRemoveCardState.current_step = .removeCard ∧
    dsRemoveCardState.team_numbers ≠ [] ∧
    dsRemoveCardState.team_number_index < dsRemoveCardState.team_numbers.length - 1 ∧
    dsInputNext.clickNext = true ∧
    ((dsTick dsRemoveCardState dsInputNext).res = .ok () ∧
      (dsTick dsRemoveCardState dsInputNext).state.team_number_index
        = dsRemoveCardState.team_number_index + 1 ∧
      (dsTick dsRemoveCardState dsInputNext).state.selected_drive = none ∧
      (dsTick dsRemoveCardState dsInputNext).state.available_drives = none ∧
      (dsTick dsRemoveCardState dsInputNext).state.current_step = .chooseDrive) :=
  ⟨rfl, by decide, by decide, rfl,
   (remove_card_next_target dsRemoveCardState dsInputNext rfl (by decide)).1 (by decide) rfl⟩

/-! ### C10: `list_drives` on Windows (`drive_management.rs` lines 48-80)

`serde_json::from_str::<Value>` is modelled by a fuelled recursive-descent
parser over the JSON fragment PowerShell's `ConvertTo-Json` emits here
(objects, arrays, strings without escape sequences, `null`/`true`/`false`);
the fuel is generous enough for every input whose nesting depth fits, and
parsing fails exactly when the text is not a value of that fragment or has
trailing garbage.  `ConvertTo-Json` of a single `DriveLetter`/
`FileSystemLabel` record is modelled by `convertToJsonObj`, a bare object
(no surrounding brackets), per PowerShell's documented behaviour of
serialising a lone object without an array wrapper. -/

inductive Json
  | jnull
  | jbool (b : Bool)
  | jstr (s : String)
  | jarr (xs : List Json)
  | jobj (fields : List (String × Json))

def jsonWs (c : Char) : Bool :=
  c = ' ' || c = '\n' || c = '\t' || c = '\r'

def skipWs : List Char → List Char
  | [] => []
  | c :: rest => if jsonWs c then skipWs rest else c :: rest

/-- JSON string body: everything up to the closing quote; escape sequences
are outside the modelled fragment. -/
def parseStrChars : List Char → Option (List Char × List Char)
  | [] => none
  | c :: rest =>
    if c = '"' then some ([], rest)
    else if c = '\\' then none
    else
      match parseStrChars rest with
      | some (l, r) => some (c :: l, r)
      | none => none

mutual

def parseVal : Nat → List Char → Option (Json × List Char)
  | 0, _ => none
  | fuel + 1, cs =>
    match skipWs cs with
    | 'n' :: 'u' :: 'l' :: 'l' :: rest => some (.jnull, rest)
    | 't' :: 'r' :: 'u' :: 'e' :: rest => some (.jbool true, rest)
    | 'f' :: 'a' :: 'l' :: 's' :: 'e' :: rest => some (.jbool false, rest)
    | '"' :: rest =>
      match parseStrChars rest with
      | some (l, r) => some (.jstr (String.mk l), r)
      | none => none
    | '[' :: rest =>
      match skipWs rest with
      | ']' :: rest2 => some (.jarr [], rest2)
      | _ =>
        match parseItems fuel rest with
        | some (xs, r) => some (.jarr xs, r)
        | none => none
    | '\x7b' :: rest =>
      match skipWs rest with
      | '\x7d' :: rest2 => some (.jobj [], rest2)
      | _ =>
        match parseFields fuel rest with
        | some (fs, r) => some (.jobj fs, r)
        | none => none
    | _ => none

def parseItems : Nat → List Char → Option (List Json × List Char)
  | 0, _ => none
  | fuel + 1, cs =>
    match parseVal fuel cs with
    | none => none
    | some (v, rest) =>
      match skipWs rest with
      | ',' :: rest2 =>
        match parseItems fuel rest2 with
        | some (xs, r) => some (v :: xs, r)
        | none => none
      | ']' :: rest2 => some ([v], rest2)
      | _ => none

def parseFields : Nat → List Char → Option (List (String × Json) × List Char)
  | 0, _ => none
  | fuel + 1, cs =>
    match skipWs cs with
    | '"' :: rest =>
      match parseStrChars rest with
      | none => none
      | some (k, rest2) =>
        match skipWs rest2 with
        | ':' :: rest3 =>
          match parseVal fuel rest3 with
          | none => none
          | some (v, rest4) =>
            match skipWs rest4 with
            | ',' :: rest5 =>
              match parseFields fuel rest5 with
              | some (fs, r) => some ((String.mk k, v) :: fs, r)
              | none => none
            | '\x7d' :: rest5 => some ([(String.mk k, v)], rest5)
            | _ => none
        | _ => none
    | _ => none

end

/-- `serde_json::from_str::<Value>`: parse one value, allow only trailing
whitespace. -/
def jsonFromStr (s : String) : Option Json :=
  match parseVal (s.length + 8) s.data with
  | some (v, rest) => if (skipWs rest).isEmpty then some v else none
  | none => none

/-- Rust `str::starts_with` on string literals. -/
def rsStartsWith (s p : String) : Bool :=
  p.data.isPrefixOf s.data

/-- `serde_json`'s `Value::index` for objects: `Null` when the key is
missing. -/
def jlookup (fields : List (String × Json)) (key : String) : Json :=
  match fields.find? (fun kv => kv.1 == key) with
  | some kv => kv.2
  | none => .jnull

/-- `Value::as_str`. -/
def jAsStr : Json → Option String
  | .jstr s => some s
  | _ => none

/-- The loop of `list_drives` (lines 59-77): objects become `DriveInfo`
records (failing on a missing/non-string field), other array elements are
skipped. -/
def drivesOfItems : List Json → Except String (List DriveInfo)
  | [] => .ok []
  | .jobj fields :: rest =>
    match jAsStr (jlookup fields "DriveLetter") with
    | none => .error "Missing field DriveLetter in PowerShell output."
    | some letter =>
      match jAsStr (jlookup fields "FileSystemLabel") with
      | none => .error "Missing field FileSystemLabel in PowerShell output."
      | some label =>
        match drivesOfItems rest with
        | .ok ds => .ok (⟨letter ++ ":\\", label⟩ :: ds)
        | .error e => .error e
  | _ :: rest => drivesOfItems rest

/-- Windows `list_drives` (lines 48-80) applied to the PowerShell stdout:
wrap a non-array answer in brackets, parse, then convert the array items;
a non-array value yields the empty list. -/
def list_drives_windows (stdout : String) : Except String (List DriveInfo) :=
  let str := if !rsStartsWith stdout "[" then "[" ++ stdout ++ "]" else stdout
  match jsonFromStr str with
  | none => .error "JSON parse error"
  | some (.jarr items) => drivesOfItems items
  | some _ => .ok []

/-- PowerShell 5.1 `ConvertTo-Json` of a single
`DriveLetter`/`FileSystemLabel` record: a bare pretty-printed object. -/
def convertToJsonObj (letter label : String) : String :=
  "\x7b\n    \"DriveLetter\":  \"" ++ letter ++ "\",\n    \"FileSystemLabel\":  \"" ++ label
    ++ "\"\n\x7d"

theorem parseStrChars_good (l r : List Char) (h : ∀ c ∈ l, c ≠ '"' ∧ c ≠ '\\') :
    parseStrChars (l ++ '"' :: r) = some (l, r) := by
  induction l with
  | nil => rfl
  | cons c cs ih =>
    obtain ⟨h1, h2⟩ := h c (List.mem_cons_self c cs)
    rw [List.cons_append]
    simp only [parseStrChars]
    rw [if_neg h1, if_neg h2, ih (fun x hx => h x (List.mem_cons_of_mem c hx))]

theorem parse_wrapped (m : Nat) (L B : List Char)
    (hL : ∀ c ∈ L, c ≠ '"' ∧ c ≠ '\\') (hB : ∀ c ∈ B, c ≠ '"' ∧ c ≠ '\\') :
    parseVal (m + 6)
      ('[' :: '\x7b' :: '\n' :: ' ' :: ' ' :: ' ' :: ' ' :: '"' :: 'D' :: 'r' :: 'i' :: 'v' :: 'e' :: 'L' :: 'e' :: 't' :: 't' :: 'e' :: 'r' :: '"' :: ':' :: ' ' :: ' ' :: '"' ::
        (L ++ '"' :: ',' :: '\n' :: ' ' :: ' ' :: ' ' :: ' ' :: '"' :: 'F' :: 'i' :: 'l' :: 'e' :: 'S' :: 'y' :: 's' :: 't' :: 'e' :: 'm' :: 'L' :: 'a' :: 'b' :: 'e' :: 'l' :: '"' :: ':' :: ' ' :: ' ' :: '"' ::
        (B ++ '"' :: '\n' :: '\x7d' :: ']' :: [])))
    = some (.jarr [.jobj [("DriveLetter", .jstr (String.mk L)),
        ("FileSystemLabel", .jstr (String.mk B))]], []) := by
  show parseVal ((m+5)+1) _ = _
  rw [parseVal]
  simp [skipWs, jsonWs, parseVal, parseItems, parseFields, parseStrChars,
    parseStrChars_good _ _ hL, parseStrChars_good _ _ hB]

/-- **C10**: on Windows, `list_drives` accepts the bare-object shape
`ConvertTo-Json` emits for a single removable drive: the object string does
not start with `[`, so it is wrapped into a one-element array before
parsing, and the result is the one-element drive list (drive path
`<letter>:\`, label as given) rather than a parse error.  The hypotheses
restrict the letter and label to characters that need no JSON string
escaping. -/
theorem single_drive_accepted (letter label : String)
    (hL : ∀ c ∈ letter.data, c ≠ '"' ∧ c ≠ '\\')
    (hB : ∀ c ∈ label.data, c ≠ '"' ∧ c ≠ '\\') :
    rsStartsWith (convertToJsonObj letter label) "[" = false ∧
    list_drives_windows (convertToJsonObj letter label)
      = .ok [⟨letter ++ ":\\", label⟩] := by
  have hstart : rsStartsWith (convertToJsonObj letter label) "[" = false := rfl
  refine ⟨hstart, ?_⟩
  have hdata : ("[" ++ convertToJsonObj letter label ++ "]").data
      = '[' :: '\x7b' :: '\n' :: ' ' :: ' ' :: ' ' :: ' ' :: '"' :: 'D' :: 'r' :: 'i' :: 'v' :: 'e' :: 'L' :: 'e' :: 't' :: 't' :: 'e' :: 'r' :: '"' :: ':' :: ' ' :: ' ' :: '"' ::
        (letter.data ++ '"' :: ',' :: '\n' :: ' ' :: ' ' :: ' ' :: ' ' :: '"' :: 'F' :: 'i' :: 'l' :: 'e' :: 'S' :: 'y' :: 's' :: 't' :: 'e' :: 'm' :: 'L' :: 'a' :: 'b' :: 'e' :: 'l' :: '"' :: ':' :: ' ' :: ' ' :: '"' ::
        (label.data ++ '"' :: '\n' :: '\x7d' :: ']' :: [])) := by
    simp only [convertToJsonObj, String.data_append, List.append_assoc, List.cons_append,
      List.nil_append]
  have hparse : jsonFromStr ("[" ++ convertToJsonObj letter label ++ "]")
      = some (.jarr [.jobj [("DriveLetter", .jstr (String.mk letter.data)),
          ("FileSystemLabel", .jstr (String.mk label.data))]]) := by
    unfold jsonFromStr
    have h8 : ("[" ++ convertToJsonObj letter label ++ "]").length + 8
        = (("[" ++ convertToJsonObj letter label ++ "]").length + 2) + 6 := by omega
    rw [h8, hdata, parse_wrapped _ _ _ hL hB]
    rfl
  unfold list_drives_windows
  rw [hstart]
  simp only [Bool.not_false, eq_self_iff_true, if_true]
  rw [hparse]
  simp [drivesOfItems, jlookup, jAsStr]

theorem single_drive_accepted_witness :
    (∀ c ∈ ("E" : String).data, c ≠ '"' ∧ c ≠ '\\') ∧
    (∀ c ∈ ("GIZMO101" : String).data, c ≠ '"' ∧ c ≠ '\\') ∧
    (rsStartsWith (convertToJsonObj "E" "GIZMO101") "[" = false ∧
      list_drives_windows (convertToJsonObj "E" "GIZMO101")
        = .ok [⟨"E" ++ ":\\", "GIZMO101"⟩]) :=
  ⟨by decide, by decide, single_drive_accepted "E" "GIZMO101" (by decide) (by decide)⟩
